import Mathlib

/-!
# Verification of the TuxMailMigrate migration core

Shallow embedding of `src/caldav_client.py`, `src/migration.py` and
`src/worker.py`.  Items and collections are modelled with their raw payload
plus the best-effort extracted fields the Python code probes for
(`instance.vevent.uid.value`, `instance.fn.value`, ...); a boolean flag on an
item or collection models the situation in which the corresponding network or
parse operation raises an exception in Python.  Destination writes
(`save_event`, the contacts HTTP `PUT`, `make_calendar`) are recorded in a
trace and simultaneously applied to the destination server state, mirroring
the fact that in Python they are real side effects visible to later
enumerations within the same run.
-/

namespace TuxMailMigrate

/-- An event (iCalendar) or contact (vCard) item.  `data` is the raw payload;
`uid` is the value extracted via `instance.vevent.uid.value` (events) or
`instance.uid.value` (contacts), `none` when the attribute probing fails;
`summary` is `instance.vevent.summary.value`; `uidAttr` models the
`contact.uid.value` attribute probed at migration.py:632 and `dataUid` the
`UID:` regex match on the raw payload at migration.py:634.  `fetchFails`
models `item.data` (and hence the lazy `instance`) raising; `saveFails`
models the destination write (`save_event` / HTTP PUT) failing. -/
structure Item where
  data : String
  uid : Option String
  summary : Option String
  uidAttr : Option String
  dataUid : Option String
  fetchFails : Bool
  saveFails : Bool
deriving Repr, DecidableEq, Inhabited

/-- A calendar or addressbook collection.  `displayname` is the DAV
displayname property (`none` when the property is absent); `propsFail` models
`get_properties` raising; `itemsFail` models the item enumeration
(`events()` / the contacts PROPFIND-and-fallbacks chain) failing. -/
structure Collection where
  displayname : Option String
  url : String
  items : List Item
  itemsFail : Bool
  propsFail : Bool
deriving Repr, DecidableEq, Inhabited

/-- The destination server as seen through the destination `CalDAVClient`.
`createCalOk` models whether `principal.make_calendar` succeeds; `newCalUrl`
gives the URL the server assigns to a newly created calendar.
`server_type` is the destination client's `server_type` configuration field
(caldav_client.py:26); the migration code never consults it. -/
structure DestServer where
  calendars : List Collection
  addressbooks : List Collection
  createCalOk : Bool
  newCalUrl : String → String
  server_type : Option String

/-- The `self.stats` dictionary of `MigrationEngine` (migration.py:43-54). -/
structure Stats where
  calendars_migrated : Nat := 0
  calendars_failed : Nat := 0
  events_migrated : Nat := 0
  events_failed : Nat := 0
  events_skipped : Nat := 0
  addressbooks_migrated : Nat := 0
  addressbooks_failed : Nat := 0
  contacts_migrated : Nat := 0
  contacts_failed : Nat := 0
  contacts_skipped : Nat := 0
deriving Repr, DecidableEq, Inhabited

/-- A destination write operation.  `saveEvent` records
`dest_calendar.save_event(event_data)` (migration.py:267) together with the
destination calendar URL; `putContact` records the HTTP `PUT` of a vCard
(migration.py:649) with the destination addressbook URL and the resource URL;
`createCalendar` records `destination.create_calendar`
(migration.py:154).  There is no addressbook-creation operation: the
non-dry-run missing-addressbook path calls `destination.find_addressbook`
(migration.py:431), a method `CalDAVClient` does not define, so it raises
`AttributeError` before `create_addressbook` can ever be reached. -/
inductive WriteOp where
  | createCalendar (name : String)
  | saveEvent (calUrl : String) (item : Item)
  | putContact (abUrl : String) (putUrl : String) (item : Item)
deriving Repr, DecidableEq

/-- The payload dictionary passed to the progress callback
(migration.py:38-39): stage, processed, total, skipped. -/
structure CbPayload where
  stage : String
  processed : Nat
  total : Nat
  skipped : Nat
deriving Repr, DecidableEq

/-- One entry of `dry_run_details` (migration.py:57-60).  Calendar entries
carry a `dummy_count`; addressbook entries do not, so the field is 0 there. -/
structure DryDetail where
  name : String
  count : Nat
  dummyCount : Nat
  url : String
deriving Repr, DecidableEq

/-- Constructor arguments of `MigrationEngine.__init__` (migration.py:16-40),
after the `calendar_mapping or {}` normalisation.  `uuid4` is the value
`str(uuid.uuid4())` would produce when a contact has no extractable vCard
UID (migration.py:635). -/
structure MigrationEngine where
  dry_run : Bool
  skip_dummy_events : Bool
  selected_calendars : Option (List String)
  selected_addressbooks : Option (List String)
  calendar_mapping : List (String × String)
  addressbook_mapping : List (String × String)
  uuid4 : String
deriving Repr, DecidableEq, Inhabited

/-- The evolving run state: engine statistics, the (mutated) destination
server, the trace of destination writes, the trace of progress-callback
invocations, the two dry-run detail lists, and bookkeeping traces: the
display names whose per-collection loop body ran, and the names passed to
the destination by-name lookups. -/
structure EngineState where
  stats : Stats
  dest : DestServer
  writes : List WriteOp
  cbs : List CbPayload
  detailsCal : List DryDetail
  detailsAb : List DryDetail
  processedCal : List String
  processedAb : List String
  lookupsCal : List String
  lookupsAb : List String

def EngineState.init (dest : DestServer) : EngineState :=
  { stats := {}, dest := dest, writes := [], cbs := [], detailsCal := [],
    detailsAb := [], processedCal := [], processedAb := [], lookupsCal := [],
    lookupsAb := [] }

/-! ## Small helpers translated from the Python idioms -/

/-- Python `str.strip()`: drop whitespace from both ends of the character
list.  (Implemented over `String.data` so that concrete runs reduce.) -/
def pyStrip (s : String) : String :=
  String.mk (((s.data.dropWhile Char.isWhitespace).reverse.dropWhile
    Char.isWhitespace).reverse)

/-- Python `str.lower()`; the code only ever compares ASCII. -/
def pyLower (s : String) : String :=
  String.mk (s.data.map Char.toLower)

/-- Python `str.replace(old, new)` for the single-character patterns the
code uses (`':'` and `'/'`, migration.py:638). -/
def pyReplaceChar (old repl : Char) (s : String) : String :=
  String.mk (s.data.map fun c => if c == old then repl else c)

/-- Python `str.endswith(suffix)`. -/
def pyEndsWith (s suffix : String) : Bool :=
  suffix.data.isSuffixOf s.data

/-- Python `str.startswith(prefix)`. -/
def pyStartsWith (s pre : String) : Bool :=
  pre.data.isPrefixOf s.data

/-- `summary and summary.strip().lower() == "dummy"` (migration.py:135,259). -/
def isDummySummary : Option String → Bool
  | none => false
  | some s => !(s == "") && (pyLower (pyStrip s) == "dummy")

/-- The dry-run dummy counting probes `event.instance`, which lazily fetches
the payload; a fetch failure makes `hasattr` return `False`, so the event is
not counted (migration.py:131-138). -/
def Item.isDummy (e : Item) : Bool :=
  !e.fetchFails && isDummySummary e.summary

/-- `props.get(..., 'Unnamed Calendar')` (migration.py:92,108). -/
def calName (c : Collection) : String :=
  c.displayname.getD "Unnamed Calendar"

/-- `props.get(..., 'Unnamed Address Book')` (migration.py:327,343). -/
def abName (c : Collection) : String :=
  c.displayname.getD "Unnamed Address Book"

/-- `mapping.get(name, name)` (migration.py:113,348). -/
def dictGet (m : List (String × String)) (k : String) : String :=
  (m.lookup k).getD k

/-- The destination dedup set (migration.py:219-228, 581-590): each
destination item contributes its extracted UID; an item whose payload fetch
or attribute probing fails contributes nothing. -/
def existingUids (items : List Item) : List String :=
  items.filterMap fun e => if e.fetchFails then none else e.uid

/-- `get_calendar_by_name` / `get_addressbook_by_name`
(caldav_client.py:192-210, 322-340): first collection whose properties load
and whose displayname is present and equal to `name`. -/
def findByName (cols : List Collection) (name : String) : Option Collection :=
  cols.find? fun c => !c.propsFail && c.displayname == some name

/-- Python `rstrip('/')` (migration.py:629). -/
def rstripSlash (s : String) : String :=
  String.mk ((s.data.reverse.dropWhile (· == '/')).reverse)

/-- `vcard_uid.replace(':', '_').replace('/', '_')` (migration.py:638). -/
def safeUid (u : String) : String :=
  pyReplaceChar '/' '_' (pyReplaceChar ':' '_' u)

/-- PUT URL derivation for a contact (migration.py:629,642-645): the
addressbook URL with trailing slashes stripped; a fixed `/personal/` segment
is inserted exactly when that URL ends with `/Contacts`. -/
def vcardPutUrl (abUrl : String) (safe : String) : String :=
  let base := rstripSlash abUrl
  if pyEndsWith base "/Contacts" then base ++ "/personal/" ++ safe ++ ".vcf"
  else base ++ "/" ++ safe ++ ".vcf"

/-- The vCard UID used for the PUT resource name (migration.py:632-635):
the `contact.uid` attribute if present and non-empty (Python truthiness),
else the `UID:` regex match on the payload, else a fresh uuid4. -/
def contactPutUid (eng : MigrationEngine) (c : Item) : String :=
  match c.uidAttr with
  | some u => if u == "" then c.dataUid.getD eng.uuid4 else u
  | none => c.dataUid.getD eng.uuid4

/-- Append an item to the first collection carrying the given URL. -/
def addItemByUrl : List Collection → String → Item → List Collection
  | [], _, _ => []
  | c :: cs, url, e =>
      if c.url == url then { c with items := c.items ++ [e] } :: cs
      else c :: addItemByUrl cs url e

/-- Effect of a destination write on the destination server state.  A saved
event / PUT contact becomes a new resource in the target collection whose
extracted fields are those of the written payload (the payload is copied
verbatim, so re-parsing it yields the same extractions). -/
def applyWrite (d : DestServer) : WriteOp → DestServer
  | .createCalendar n =>
      { d with calendars :=
          d.calendars ++ [⟨some n, d.newCalUrl n, [], false, false⟩] }
  | .saveEvent url e => { d with calendars := addItemByUrl d.calendars url e }
  | .putContact abUrl _ c =>
      { d with addressbooks := addItemByUrl d.addressbooks abUrl c }

def recordWrite (w : WriteOp) (s : EngineState) : EngineState :=
  { s with writes := s.writes ++ [w], dest := applyWrite s.dest w }

/-- `try: self.progress_callback({...}) except Exception: pass`
(migration.py:246-250 and friends): the callback is invoked when configured;
its result — including a raised exception — is discarded. -/
def invokeCb (cb : Option (CbPayload → Except Unit Unit)) (info : CbPayload)
    (s : EngineState) : EngineState :=
  match cb with
  | none => s
  | some f =>
      let _ := f info
      { s with cbs := s.cbs ++ [info] }

/-! ## Counter bumps -/

def bumpCalendarsMigrated (s : EngineState) : EngineState :=
  { s with stats := { s.stats with calendars_migrated := s.stats.calendars_migrated + 1 } }

def bumpCalendarsFailed (s : EngineState) : EngineState :=
  { s with stats := { s.stats with calendars_failed := s.stats.calendars_failed + 1 } }

def bumpEventsMigrated (s : EngineState) : EngineState :=
  { s with stats := { s.stats with events_migrated := s.stats.events_migrated + 1 } }

def bumpEventsFailed (s : EngineState) : EngineState :=
  { s with stats := { s.stats with events_failed := s.stats.events_failed + 1 } }

def bumpEventsSkipped (s : EngineState) : EngineState :=
  { s with stats := { s.stats with events_skipped := s.stats.events_skipped + 1 } }

def bumpAbMigrated (s : EngineState) : EngineState :=
  { s with stats := { s.stats with addressbooks_migrated := s.stats.addressbooks_migrated + 1 } }

def bumpAbFailed (s : EngineState) : EngineState :=
  { s with stats := { s.stats with addressbooks_failed := s.stats.addressbooks_failed + 1 } }

def bumpContactsMigrated (s : EngineState) : EngineState :=
  { s with stats := { s.stats with contacts_migrated := s.stats.contacts_migrated + 1 } }

def bumpContactsFailed (s : EngineState) : EngineState :=
  { s with stats := { s.stats with contacts_failed := s.stats.contacts_failed + 1 } }

def bumpContactsSkipped (s : EngineState) : EngineState :=
  { s with stats := { s.stats with contacts_skipped := s.stats.contacts_skipped + 1 } }

/-! ## The calendar-event item loop (`_migrate_calendar_events`, migration.py:233-286) -/

/-- One iteration of the per-event loop.  The accumulator carries the engine
state and the local `processed` counter (migration.py:233).  Branches in
source order: payload fetch failure (caught at :278), duplicate-UID skip
(:241, with Python truthiness on the UID), dummy-summary skip (:254-262 —
note: no `processed` increment and no callback), write failure (caught at
:278), successful `save_event` (:267). -/
def eventStep (eng : MigrationEngine) (cb : Option (CbPayload → Except Unit Unit))
    (existing : List String) (total : Nat) (dcUrl : String)
    (acc : EngineState × Nat) (e : Item) : EngineState × Nat :=
  let s := acc.1
  let p := acc.2
  if e.fetchFails then
    let p := p + 1
    let s := bumpEventsFailed s
    (invokeCb cb ⟨"calendars", p, total, s.stats.events_skipped⟩ s, p)
  else if (match e.uid with
           | some u => !(u == "") && existing.contains u
           | none => false) then
    let p := p + 1
    let s := bumpEventsSkipped s
    (invokeCb cb ⟨"calendars", p, total, s.stats.events_skipped⟩ s, p)
  else if eng.skip_dummy_events && isDummySummary e.summary then
    (bumpEventsSkipped s, p)
  else if e.saveFails then
    let p := p + 1
    let s := bumpEventsFailed s
    (invokeCb cb ⟨"calendars", p, total, s.stats.events_skipped⟩ s, p)
  else
    let p := p + 1
    let s := recordWrite (.saveEvent dcUrl e) (bumpEventsMigrated s)
    (invokeCb cb ⟨"calendars", p, total, s.stats.events_skipped⟩ s, p)

/-- `_migrate_calendar_events` (migration.py:175-293).  `c` is the source
calendar, `dc` the destination calendar object handed in by the caller.  A
failing `events()` enumeration is caught at :292 and only logged.  In
dry-run mode the function records a detail entry and returns before the
dedup set is built — the write call site is never reached.  (The
`dest_calendar_name` reference at :290 raises `NameError` after the loop;
it is caught at :292 and has no effect on state.) -/
def _migrate_calendar_events (eng : MigrationEngine)
    (cb : Option (CbPayload → Except Unit Unit)) (c : Collection)
    (dc : Collection) (s : EngineState) : EngineState :=
  if c.itemsFail then s
  else
    let events := c.items
    let total := events.length
    if eng.dry_run then
      if c.propsFail then s
      else
        let dummy := if eng.skip_dummy_events then (events.filter Item.isDummy).length else 0
        { s with detailsCal := s.detailsCal ++ [⟨calName c, total, dummy, c.url⟩] }
    else
      let existing := if dc.itemsFail then [] else existingUids dc.items
      (events.foldl (eventStep eng cb existing total dc.url) (s, 0)).1

/-- Body of the per-calendar loop of `migrate_calendars`
(migration.py:104-170).  A `get_properties` failure at :107 is caught at
:168 and counted as a failed calendar.  The destination lookup reads the
current destination state; a missing destination calendar is created
(non-dry-run) or merely counted (dry-run) when `create_if_missing`, else
counted failed. -/
def processCalendar (eng : MigrationEngine)
    (cb : Option (CbPayload → Except Unit Unit)) (createIfMissing : Bool)
    (s : EngineState) (c : Collection) : EngineState :=
  if c.propsFail then bumpCalendarsFailed s
  else
    let name := calName c
    let s := { s with processedCal := s.processedCal ++ [name] }
    let destName := dictGet eng.calendar_mapping name
    let s := { s with lookupsCal := s.lookupsCal ++ [destName] }
    match findByName s.dest.calendars destName with
    | some dc => bumpCalendarsMigrated (_migrate_calendar_events eng cb c dc s)
    | none =>
      if createIfMissing then
        if eng.dry_run then
          if c.itemsFail then bumpCalendarsFailed s
          else
            let total := c.items.length
            let dummy := if eng.skip_dummy_events then (c.items.filter Item.isDummy).length else 0
            bumpCalendarsMigrated
              { s with detailsCal := s.detailsCal ++ [⟨destName, total, dummy, c.url⟩] }
        else
          if s.dest.createCalOk then
            let newCal : Collection := ⟨some destName, s.dest.newCalUrl destName, [], false, false⟩
            let s := recordWrite (.createCalendar destName) s
            bumpCalendarsMigrated (_migrate_calendar_events eng cb c newCal s)
          else bumpCalendarsFailed s
      else bumpCalendarsFailed s

/-- `migrate_calendars` (migration.py:62-173).  `src` is the result of
`source.get_calendars()`.  The returned boolean records whether an exception
escaped the phase: the only uncaught call is `get_properties` inside the
selection-filter loop (:91), which runs exactly when a non-empty selection
is configured. -/
def migrate_calendars (eng : MigrationEngine)
    (cb : Option (CbPayload → Except Unit Unit)) (src : List Collection)
    (createIfMissing : Bool) (s : EngineState) : EngineState × Bool :=
  if src.isEmpty then (s, false)
  else
    match eng.selected_calendars with
    | none => (src.foldl (processCalendar eng cb createIfMissing) s, false)
    | some sel =>
      if sel.isEmpty then (s, false)
      else if src.any (·.propsFail) then (s, true)
      else
        let filtered := src.filter fun c => sel.contains (calName c)
        if filtered.isEmpty then (s, false)
        else (filtered.foldl (processCalendar eng cb createIfMissing) s, false)

/-! ## The contact item loop (`_migrate_addressbook_contacts`, migration.py:473-684) -/

/-- One iteration of the per-contact loop (migration.py:596-679).  `dab` is
`none` when `migrate_contacts` fell through with `dest_addressbook = None`
(missing destination addressbook with `create_if_missing` false — there is
no else-branch at :356 for that case): then `str(dest_addressbook.url)` at
:629 raises and the contact is counted failed. -/
def contactStep (eng : MigrationEngine) (cb : Option (CbPayload → Except Unit Unit))
    (existing : List String) (total : Nat) (dab : Option Collection)
    (acc : EngineState × Nat) (c : Item) : EngineState × Nat :=
  let s := acc.1
  let p := acc.2
  if c.fetchFails then
    let p := p + 1
    let s := bumpContactsFailed s
    (invokeCb cb ⟨"contacts", p, total, s.stats.contacts_skipped⟩ s, p)
  else if (match c.uid with
           | some u => !(u == "") && existing.contains u
           | none => false) then
    let p := p + 1
    let s := bumpContactsSkipped s
    (invokeCb cb ⟨"contacts", p, total, s.stats.contacts_skipped⟩ s, p)
  else
    match dab with
    | none =>
      let p := p + 1
      let s := bumpContactsFailed s
      (invokeCb cb ⟨"contacts", p, total, s.stats.contacts_skipped⟩ s, p)
    | some d =>
      if c.saveFails then
        let p := p + 1
        let s := bumpContactsFailed s
        (invokeCb cb ⟨"contacts", p, total, s.stats.contacts_skipped⟩ s, p)
      else
        let putUrl := vcardPutUrl d.url (safeUid (contactPutUid eng c))
        let p := p + 1
        let s := recordWrite (.putContact d.url putUrl c) (bumpContactsMigrated s)
        (invokeCb cb ⟨"contacts", p, total, s.stats.contacts_skipped⟩ s, p)

/-- `_migrate_addressbook_contacts` (migration.py:473-684).  The contact
enumeration chain (PROPFIND, `objects()`, `search`, sync token) ends with an
empty list when every strategy fails (:563) — it never raises.  In dry-run
mode only a detail entry is recorded.  The dedup enumeration on a `None`
or failing destination addressbook is caught at :592, leaving the dedup set
empty.  (The `dest_addressbook_name` reference at :681 raises `NameError`
after the loop; caught at :683, no state effect.) -/
def _migrate_addressbook_contacts (eng : MigrationEngine)
    (cb : Option (CbPayload → Except Unit Unit)) (ab : Collection)
    (dab : Option Collection) (s : EngineState) : EngineState :=
  let contacts := if ab.itemsFail then [] else ab.items
  let total := contacts.length
  if eng.dry_run then
    if ab.propsFail then s
    else { s with detailsAb := s.detailsAb ++ [⟨abName ab, total, 0, ab.url⟩] }
  else
    let existing := match dab with
      | none => []
      | some d => if d.itemsFail then [] else existingUids d.items
    (contacts.foldl (contactStep eng cb existing total dab) (s, 0)).1

/-- Body of the per-addressbook loop of `migrate_contacts`
(migration.py:339-464).  When the destination addressbook is missing and
`create_if_missing` holds: dry-run counts the source contacts; the real path
calls `destination.find_addressbook` (:431), which does not exist on
`CalDAVClient`, so `AttributeError` is caught at :466 and the addressbook is
counted failed.  When `create_if_missing` is false and the addressbook is
missing, control falls through to :463 with `dest_addressbook = None`. -/
def processAddressbook (eng : MigrationEngine)
    (cb : Option (CbPayload → Except Unit Unit)) (createIfMissing : Bool)
    (s : EngineState) (ab : Collection) : EngineState :=
  if ab.propsFail then bumpAbFailed s
  else
    let name := abName ab
    let s := { s with processedAb := s.processedAb ++ [name] }
    let destName := dictGet eng.addressbook_mapping name
    let s := { s with lookupsAb := s.lookupsAb ++ [destName] }
    match findByName s.dest.addressbooks destName with
    | some dab => bumpAbMigrated (_migrate_addressbook_contacts eng cb ab (some dab) s)
    | none =>
      if createIfMissing then
        if eng.dry_run then
          let cnt := if ab.itemsFail then 0 else ab.items.length
          bumpAbMigrated { s with detailsAb := s.detailsAb ++ [⟨destName, cnt, 0, ab.url⟩] }
        else bumpAbFailed s
      else bumpAbMigrated (_migrate_addressbook_contacts eng cb ab none s)

/-- `migrate_contacts` (migration.py:295-471).  The empty-selection check
precedes the source enumeration (:310-313).  As for calendars, the only
exception that can escape the phase is `get_properties` in the
selection-filter loop (:326). -/
def migrate_contacts (eng : MigrationEngine)
    (cb : Option (CbPayload → Except Unit Unit)) (src : List Collection)
    (createIfMissing : Bool) (s : EngineState) : EngineState × Bool :=
  match eng.selected_addressbooks with
  | some sel =>
    if sel.isEmpty then (s, false)
    else if src.isEmpty then (s, false)
    else if src.any (·.propsFail) then (s, true)
    else
      let filtered := src.filter fun c => sel.contains (abName c)
      if filtered.isEmpty then (s, false)
      else (filtered.foldl (processAddressbook eng cb createIfMissing) s, false)
  | none =>
    if src.isEmpty then (s, false)
    else (src.foldl (processAddressbook eng cb createIfMissing) s, false)

/-- Both phases as the worker invokes them, calendars first
(worker.py:231-245), on a shared engine state. -/
def runBothPhases (eng : MigrationEngine)
    (cb : Option (CbPayload → Except Unit Unit))
    (srcCals srcAbs : List Collection) (createIfMissing : Bool)
    (dest : DestServer) : EngineState × Bool :=
  let r1 := migrate_calendars eng cb srcCals createIfMissing (EngineState.init dest)
  if r1.2 then r1
  else migrate_contacts eng cb srcAbs createIfMissing r1.1

/-! ## Collection discovery (`caldav_client.py`) -/

/-- A `caldav.Calendar` handle as constructed at caldav_client.py:177/307: a
client reference plus a URL (possibly `None` when the href element was
empty). -/
structure CalObj where
  url : Option String
deriving Repr, DecidableEq

/-- One `<d:response>` element of the parsed PROPFIND multistatus
(caldav_client.py:161-184).  `hasHref`/`hrefText` model the presence of the
`<d:href>` element and its text (`None` for an empty element);
`hasResourcetype` the presence of `<d:resourcetype>`; `isCalendarType` /
`isAddressbookType` whether the resourcetype contains the namespaced
`calendar` / `addressbook` child; `displayname` the `<d:displayname>`
text. -/
structure PFEntry where
  hasHref : Bool
  hrefText : Option String
  hasResourcetype : Bool
  isCalendarType : Bool
  isAddressbookType : Bool
  displayname : Option String
deriving Repr, DecidableEq

/-- The PROPFIND fallback loop of `get_calendars`
(caldav_client.py:161-185): keep entries with an href whose resourcetype
contains `c:calendar`; resolve a non-empty relative href (Python truthiness
plus `startswith('http')`) against the principal URL with `urljoin`. -/
def propfindCalendarScan (urljoin : String → String → String)
    (principalUrl : String) (entries : List PFEntry) : List CalObj :=
  entries.foldl (fun acc en =>
    if !en.hasHref then acc
    else if en.hasResourcetype && en.isCalendarType then
      let url := match en.hrefText with
        | none => none
        | some h =>
          if !(h == "") && !(pyStartsWith h "http") then some (urljoin principalUrl h)
          else some h
      acc ++ [⟨url⟩]
    else acc) []

/-- The PROPFIND fallback loop of `get_addressbooks`
(caldav_client.py:291-315), keeping `card:addressbook` resourcetypes. -/
def propfindAddressbookScan (urljoin : String → String → String)
    (principalUrl : String) (entries : List PFEntry) : List CalObj :=
  entries.foldl (fun acc en =>
    if !en.hasHref then acc
    else if en.hasResourcetype && en.isAddressbookType then
      let url := match en.hrefText with
        | none => none
        | some h =>
          if !(h == "") && !(pyStartsWith h "http") then some (urljoin principalUrl h)
          else some h
      acc ++ [⟨url⟩]
    else acc) []

/-- `get_calendars` (caldav_client.py:102-190).  `native` is the outcome of
`self.principal.calendars()` (any exception is caught at :122 and the list
reset to empty); `principal` is the principal URL when a principal object
exists, else `self.url` is used; `propfindResp` is the outcome of the raw
PROPFIND request plus XML parse (an exception is caught at :187, returning
the empty list accumulated so far). -/
def get_calendars (native : Except Unit (List CalObj))
    (principal : Option String) (selfUrl : String)
    (propfindResp : Except Unit (List PFEntry))
    (urljoin : String → String → String) : List CalObj :=
  let calendars := match native with
    | .ok cs => cs
    | .error _ => []
  if calendars.isEmpty then
    let principalUrl := principal.getD selfUrl
    match propfindResp with
    | .error _ => []
    | .ok entries => propfindCalendarScan urljoin principalUrl entries
  else calendars

/-- `get_addressbooks` (caldav_client.py:231-320), same structure as
`get_calendars` with the native call `self.principal.addressbooks()`. -/
def get_addressbooks (native : Except Unit (List CalObj))
    (principal : Option String) (selfUrl : String)
    (propfindResp : Except Unit (List PFEntry))
    (urljoin : String → String → String) : List CalObj :=
  let addressbooks := match native with
    | .ok cs => cs
    | .error _ => []
  if addressbooks.isEmpty then
    let principalUrl := principal.getD selfUrl
    match propfindResp with
    | .error _ => []
    | .ok entries => propfindAddressbookScan urljoin principalUrl entries
  else addressbooks

/-! ## The worker (`worker.py`) -/

/-- A `SyncJob` row as the worker reads it (models.py:90-117 plus the
selective-sync fields the API layer stores on the job, app.py:301-357). -/
structure Job where
  migrate_calendars : Bool
  migrate_contacts : Bool
  create_collections : Bool
  dry_run : Bool
  skip_dummy_events : Bool
  selected_calendars : Option (List String)
  selected_addressbooks : Option (List String)
  calendar_mapping : List (String × String)
  addressbook_mapping : List (String × String)

/-- `MigrationEngine.__init__` as a callable with Python defaults
(migration.py:16): the selection sets default to `None` and the mapping
dicts to `None`, normalised with `or {}`. -/
def mkEngine (dry_run skip_dummy_events : Bool)
    (selected_calendars selected_addressbooks : Option (List String))
    (calendar_mapping addressbook_mapping : Option (List (String × String)))
    (uuid4 : String) : MigrationEngine :=
  { dry_run := dry_run, skip_dummy_events := skip_dummy_events,
    selected_calendars := selected_calendars,
    selected_addressbooks := selected_addressbooks,
    calendar_mapping := calendar_mapping.getD [],
    addressbook_mapping := addressbook_mapping.getD [],
    uuid4 := uuid4 }

/-- The engine the worker constructs (worker.py:218-224): only
source/destination, the two boolean flags and the progress callback are
passed; every selection and mapping argument is left at its default. -/
def workerEngine (job : Job) (uuid4 : String) : MigrationEngine :=
  mkEngine job.dry_run job.skip_dummy_events none none none none uuid4

/-- Stage-to-percentage mapping of the worker progress callback
(worker.py:179-192).  Python computes `base + int(rng * (processed /
total))`; for the argument ranges that occur (`processed ≤ total`, small
numbers) this equals natural floor division. -/
def pctOf (stage : String) (processed total : Nat) : Nat :=
  let base := if stage == "calendars" then 20 else if stage == "contacts" then 60 else 0
  let rng := if stage == "calendars" then 40 else if stage == "contacts" then 30 else 100
  if 0 < total then base + rng * processed / total else base

/-- One progress-callback invocation acting on the stored job progress
(worker.py:195-201): the new percentage is committed when it differs from
the stored value or the item is the final one.  The accumulator carries the
stored progress and the list of committed writes. -/
def progressStep (acc : Nat × List Nat) (i : CbPayload) : Nat × List Nat :=
  let pct := pctOf i.stage i.processed i.total
  if !(pct == acc.1) || i.processed == i.total then (pct, acc.2 ++ [pct])
  else acc

/-- Outcome of `_process_job` (worker.py:124-309). `engineStats` are the
engine counters at job termination; `statsSaved` whether
`job.update_stats` ran (:286 — skipped on the failure path);
`cancelChecks` the checkpoints at which `self.cancel_current` was read;
`cbWrites` the job-progress values committed by the progress callback. -/
structure JobOutcome where
  status : String
  error_message : Option String
  progress : Nat
  engineStats : Stats
  statsSaved : Bool
  writes : List WriteOp
  cancelChecks : List String
  cbWrites : List Nat

/-- `_process_job` (worker.py:124-309).  `srcConnect`/`destConnect` are the
outcomes of the two `connect()` calls; `cancel1`/`cancel2` the value of the
cooperative cancel flag at the moment of the checkpoint read at :232 and
:240.  The progress callback only mutates job progress and logs, which the
engine never reads, so the run is modelled as the engine run followed by a
fold of the callback trace through `progressStep` (calendars trace from the
stored value 20, contacts trace from 60 after the direct write at :236, or
20 when the calendars phase was disabled). -/
def process_job (job : Job) (srcConnect destConnect cancel1 cancel2 : Bool)
    (srcCals srcAbs : List Collection) (dest : DestServer) (uuid4 : String) :
    JobOutcome :=
  if !srcConnect then
    { status := "failed", error_message := some "Failed to connect to source",
      progress := 0, engineStats := {}, statsSaved := false, writes := [],
      cancelChecks := [], cbWrites := [] }
  else if !destConnect then
    { status := "failed", error_message := some "Failed to connect to destination",
      progress := 10, engineStats := {}, statsSaved := false, writes := [],
      cancelChecks := [], cbWrites := [] }
  else
    let eng := workerEngine job uuid4
    let cb : Option (CbPayload → Except Unit Unit) := some fun _ => Except.ok ()
    let s0 := EngineState.init dest
    if job.migrate_calendars && cancel1 then
      { status := "failed", error_message := some "Job cancelled by user",
        progress := 20, engineStats := s0.stats, statsSaved := false,
        writes := s0.writes, cancelChecks := ["pre-calendars"], cbWrites := [] }
    else
      let checks1 : List String := if job.migrate_calendars then ["pre-calendars"] else []
      let r1 := if job.migrate_calendars
        then migrate_calendars eng cb srcCals job.create_collections s0
        else (s0, false)
      if r1.2 then
        -- unreachable for the worker engine: no selection set is configured,
        -- so the selection-filter loop (the only uncaught call) never runs
        { status := "failed", error_message := some "unhandled exception in calendars phase",
          progress := 20, engineStats := r1.1.stats, statsSaved := false,
          writes := r1.1.writes, cancelChecks := checks1, cbWrites := [] }
      else
        let s1 := r1.1
        let w1 := (s1.cbs.foldl progressStep (20, [])).2
        let prog1 := if job.migrate_calendars then 60 else 20
        if job.migrate_contacts && cancel2 then
          { status := "failed", error_message := some "Job cancelled by user",
            progress := prog1, engineStats := s1.stats, statsSaved := false,
            writes := s1.writes, cancelChecks := checks1 ++ ["pre-contacts"],
            cbWrites := w1 }
        else
          let checks2 := checks1 ++ (if job.migrate_contacts then ["pre-contacts"] else [])
          let r2 := if job.migrate_contacts
            then migrate_contacts eng cb srcAbs job.create_collections s1
            else (s1, false)
          if r2.2 then
            { status := "failed", error_message := some "unhandled exception in contacts phase",
              progress := prog1, engineStats := r2.1.stats, statsSaved := false,
              writes := r2.1.writes, cancelChecks := checks2, cbWrites := w1 }
          else
            let s2 := r2.1
            let w2 := ((s2.cbs.drop s1.cbs.length).foldl progressStep (prog1, [])).2
            { status := "completed", error_message := none, progress := 100,
              engineStats := s2.stats, statsSaved := true, writes := s2.writes,
              cancelChecks := checks2, cbWrites := w1 ++ w2 }

/-! # Supporting lemmas -/

/-- A projection preserved by every fold step is preserved by the fold. -/
theorem foldl_pres {α β : Type} (g : EngineState → β)
    (f : EngineState → α → EngineState) (h : ∀ s a, g (f s a) = g s) :
    ∀ (l : List α) (s : EngineState), g (l.foldl f s) = g s := by
  intro l
  induction l with
  | nil => intro s; rfl
  | cons a t ih => intro s; rw [List.foldl_cons, ih, h]

theorem _migrate_calendar_events_dry (eng : MigrationEngine) (cb) (c dc : Collection)
    (s : EngineState) (h : eng.dry_run = true) :
    (_migrate_calendar_events eng cb c dc s).writes = s.writes ∧
    (_migrate_calendar_events eng cb c dc s).dest = s.dest := by
  unfold _migrate_calendar_events
  split
  · exact ⟨rfl, rfl⟩
  · simp only [h, if_true]
    split
    · exact ⟨rfl, rfl⟩
    · exact ⟨rfl, rfl⟩

theorem processCalendar_dry (eng : MigrationEngine) (cb) (ci : Bool)
    (s : EngineState) (c : Collection) (h : eng.dry_run = true) :
    (processCalendar eng cb ci s c).writes = s.writes ∧
    (processCalendar eng cb ci s c).dest = s.dest := by
  unfold processCalendar
  dsimp only
  repeat' split
  all_goals
    first
      | exact ⟨rfl, rfl⟩
      | exact ⟨(_migrate_calendar_events_dry eng cb _ _ _ h).1,
          (_migrate_calendar_events_dry eng cb _ _ _ h).2⟩
      | simp_all

theorem _migrate_addressbook_contacts_dry (eng : MigrationEngine) (cb)
    (ab : Collection) (dab : Option Collection) (s : EngineState)
    (h : eng.dry_run = true) :
    (_migrate_addressbook_contacts eng cb ab dab s).writes = s.writes ∧
    (_migrate_addressbook_contacts eng cb ab dab s).dest = s.dest := by
  unfold _migrate_addressbook_contacts
  simp only [h, if_true]
  split
  · exact ⟨rfl, rfl⟩
  · exact ⟨rfl, rfl⟩

theorem processAddressbook_dry (eng : MigrationEngine) (cb) (ci : Bool)
    (s : EngineState) (ab : Collection) (h : eng.dry_run = true) :
    (processAddressbook eng cb ci s ab).writes = s.writes ∧
    (processAddressbook eng cb ci s ab).dest = s.dest := by
  unfold processAddressbook
  dsimp only
  repeat' split
  all_goals
    first
      | exact ⟨rfl, rfl⟩
      | exact ⟨(_migrate_addressbook_contacts_dry eng cb _ _ _ h).1,
          (_migrate_addressbook_contacts_dry eng cb _ _ _ h).2⟩
      | simp_all

theorem migrate_calendars_dry (eng : MigrationEngine) (cb)
    (src : List Collection) (ci : Bool) (s : EngineState)
    (h : eng.dry_run = true) :
    (migrate_calendars eng cb src ci s).1.writes = s.writes ∧
    (migrate_calendars eng cb src ci s).1.dest = s.dest := by
  unfold migrate_calendars
  dsimp only
  repeat' split
  all_goals
    first
      | exact ⟨rfl, rfl⟩
      | exact ⟨foldl_pres (fun t => t.writes) _
            (fun t a => (processCalendar_dry eng cb ci t a h).1) _ s,
          foldl_pres (fun t => t.dest) _
            (fun t a => (processCalendar_dry eng cb ci t a h).2) _ s⟩

theorem migrate_contacts_dry (eng : MigrationEngine) (cb)
    (src : List Collection) (ci : Bool) (s : EngineState)
    (h : eng.dry_run = true) :
    (migrate_contacts eng cb src ci s).1.writes = s.writes ∧
    (migrate_contacts eng cb src ci s).1.dest = s.dest := by
  unfold migrate_contacts
  dsimp only
  repeat' split
  all_goals
    first
      | exact ⟨rfl, rfl⟩
      | exact ⟨foldl_pres (fun t => t.writes) _
            (fun t a => (processAddressbook_dry eng cb ci t a h).1) _ s,
          foldl_pres (fun t => t.dest) _
            (fun t a => (processAddressbook_dry eng cb ci t a h).2) _ s⟩

/-! # Claim C1 -/

/-- C1: dry-run purity.  For any engine with `dry_run = true`, regardless of
the other flags, selections and mappings, neither migration phase performs
any destination write: the write trace (which records every `save_event`
call, every contact HTTP PUT and every destination collection creation) and
the destination server state are unchanged; the phases only count and record
dry-run detail entries.  Likewise a worker job with `dry_run = true` ends
with an empty write trace. -/
theorem C1_dry_run_purity
    (eng : MigrationEngine) (cb : Option (CbPayload → Except Unit Unit))
    (srcC srcA : List Collection) (ci : Bool) (s : EngineState)
    (job : Job) (sc dc c1 c2 : Bool) (jsrcC jsrcA : List Collection)
    (dest : DestServer) (u : String)
    (h : eng.dry_run = true) (hj : job.dry_run = true) :
    ((migrate_calendars eng cb srcC ci s).1.writes = s.writes ∧
     (migrate_calendars eng cb srcC ci s).1.dest = s.dest) ∧
    ((migrate_contacts eng cb srcA ci s).1.writes = s.writes ∧
     (migrate_contacts eng cb srcA ci s).1.dest = s.dest) ∧
    (process_job job sc dc c1 c2 jsrcC jsrcA dest u).writes = [] := by
  have hw : (workerEngine job u).dry_run = true := hj
  refine ⟨⟨(migrate_calendars_dry eng cb srcC ci s h).1,
    (migrate_calendars_dry eng cb srcC ci s h).2⟩,
    ⟨(migrate_contacts_dry eng cb srcA ci s h).1,
     (migrate_contacts_dry eng cb srcA ci s h).2⟩, ?_⟩
  have hr1 : ∀ t : EngineState,
      (if job.migrate_calendars then
        migrate_calendars (workerEngine job u) (some fun _ => Except.ok ())
          jsrcC job.create_collections t
       else (t, false)).1.writes = t.writes := by
    intro t
    by_cases hb : job.migrate_calendars = true
    · rw [if_pos hb]
      exact (migrate_calendars_dry _ _ _ _ _ hw).1
    · rw [if_neg hb]
  have hr2 : ∀ t : EngineState,
      (if job.migrate_contacts then
        migrate_contacts (workerEngine job u) (some fun _ => Except.ok ())
          jsrcA job.create_collections t
       else (t, false)).1.writes = t.writes := by
    intro t
    by_cases hb : job.migrate_contacts = true
    · rw [if_pos hb]
      exact (migrate_contacts_dry _ _ _ _ _ hw).1
    · rw [if_neg hb]
  unfold process_job
  by_cases hsc : (!sc) = true
  · rw [if_pos hsc]
  · rw [if_neg hsc]
    by_cases hdc : (!dc) = true
    · rw [if_pos hdc]
    · rw [if_neg hdc]
      dsimp only
      by_cases hc1 : (job.migrate_calendars && c1) = true
      · rw [if_pos hc1]
        rfl
      · rw [if_neg hc1]
        by_cases hmc : job.migrate_calendars = true
        · rw [if_pos hmc]
          repeat' split
          all_goals
            first
              | rfl
              | exact ((migrate_calendars_dry _ _ _ _ _ hw).1).trans rfl
              | exact ((migrate_contacts_dry _ _ _ _ _ hw).1).trans
                  (((migrate_calendars_dry _ _ _ _ _ hw).1).trans rfl)
        · rw [if_neg hmc]
          repeat' split
          all_goals
            first
              | rfl
              | exact ((migrate_contacts_dry _ _ _ _ _ hw).1).trans rfl

/-- Witness for C1 at a concrete dry-run engine, job and fixture. -/
theorem C1_dry_run_purity_witness :
    let eng : MigrationEngine :=
      { dry_run := true, skip_dummy_events := true,
        selected_calendars := some ["Work"], selected_addressbooks := none,
        calendar_mapping := [("Work", "W2")], addressbook_mapping := [],
        uuid4 := "u-0" }
    let item : Item :=
      { data := "BEGIN:VEVENT", uid := some "e1", summary := some "Meet",
        uidAttr := none, dataUid := none, fetchFails := false, saveFails := false }
    let cal : Collection :=
      { displayname := some "Work", url := "https://src/cal/", items := [item],
        itemsFail := false, propsFail := false }
    let dest : DestServer :=
      { calendars := [], addressbooks := [], createCalOk := true,
        newCalUrl := fun n => "https://dst/" ++ n ++ "/", server_type := none }
    let job : Job :=
      { migrate_calendars := true, migrate_contacts := true,
        create_collections := true, dry_run := true, skip_dummy_events := false,
        selected_calendars := none, selected_addressbooks := none,
        calendar_mapping := [], addressbook_mapping := [] }
    ((migrate_calendars eng none [cal] true (EngineState.init dest)).1.writes =
        (EngineState.init dest).writes ∧
     (migrate_calendars eng none [cal] true (EngineState.init dest)).1.dest =
        (EngineState.init dest).dest) ∧
    ((migrate_contacts eng none [cal] true (EngineState.init dest)).1.writes =
        (EngineState.init dest).writes ∧
     (migrate_contacts eng none [cal] true (EngineState.init dest)).1.dest =
        (EngineState.init dest).dest) ∧
    (process_job job true true false false [cal] [] dest "u-0").writes = [] := by
  intro eng item cal dest job
  exact C1_dry_run_purity eng none [cal] [cal] true (EngineState.init dest)
    job true true false false [cal] [] dest "u-0" rfl rfl

/-! # Claim C3 -/

/-- A projection preserved by every step of a pair-accumulator fold. -/
theorem foldl_pres_pair {α β : Type} (g : EngineState → β)
    (f : (EngineState × Nat) → α → (EngineState × Nat))
    (h : ∀ acc a, g (f acc a).1 = g acc.1) :
    ∀ (l : List α) (acc : EngineState × Nat), g ((l.foldl f acc).1) = g acc.1 := by
  intro l
  induction l with
  | nil => intro acc; rfl
  | cons a t ih => intro acc; rw [List.foldl_cons, ih, h]

theorem eventStep_trace_pres (eng : MigrationEngine) (cb) (ex : List String)
    (tot : Nat) (url : String) (acc : EngineState × Nat) (e : Item) :
    (eventStep eng cb ex tot url acc e).1.processedCal = acc.1.processedCal ∧
    (eventStep eng cb ex tot url acc e).1.lookupsCal = acc.1.lookupsCal ∧
    (eventStep eng cb ex tot url acc e).1.processedAb = acc.1.processedAb ∧
    (eventStep eng cb ex tot url acc e).1.lookupsAb = acc.1.lookupsAb := by
  unfold eventStep invokeCb recordWrite bumpEventsFailed bumpEventsSkipped bumpEventsMigrated
  repeat' split
  all_goals exact ⟨rfl, rfl, rfl, rfl⟩

theorem contactStep_trace_pres (eng : MigrationEngine) (cb) (ex : List String)
    (tot : Nat) (dab : Option Collection) (acc : EngineState × Nat) (c : Item) :
    (contactStep eng cb ex tot dab acc c).1.processedCal = acc.1.processedCal ∧
    (contactStep eng cb ex tot dab acc c).1.lookupsCal = acc.1.lookupsCal ∧
    (contactStep eng cb ex tot dab acc c).1.processedAb = acc.1.processedAb ∧
    (contactStep eng cb ex tot dab acc c).1.lookupsAb = acc.1.lookupsAb := by
  unfold contactStep invokeCb recordWrite bumpContactsFailed bumpContactsSkipped bumpContactsMigrated
  repeat' split
  all_goals exact ⟨rfl, rfl, rfl, rfl⟩

theorem _mce_trace_pres (eng : MigrationEngine) (cb) (c dc : Collection)
    (s : EngineState) :
    (_migrate_calendar_events eng cb c dc s).processedCal = s.processedCal ∧
    (_migrate_calendar_events eng cb c dc s).lookupsCal = s.lookupsCal := by
  unfold _migrate_calendar_events
  repeat' split
  all_goals
    first
      | exact ⟨rfl, rfl⟩
      | exact ⟨foldl_pres_pair (fun t => t.processedCal) _
            (fun acc a => (eventStep_trace_pres eng cb _ _ _ acc a).1) _ _,
          foldl_pres_pair (fun t => t.lookupsCal) _
            (fun acc a => (eventStep_trace_pres eng cb _ _ _ acc a).2.1) _ _⟩

theorem _mac_trace_pres (eng : MigrationEngine) (cb) (ab : Collection)
    (dab : Option Collection) (s : EngineState) :
    (_migrate_addressbook_contacts eng cb ab dab s).processedAb = s.processedAb ∧
    (_migrate_addressbook_contacts eng cb ab dab s).lookupsAb = s.lookupsAb := by
  unfold _migrate_addressbook_contacts
  repeat' split
  all_goals
    first
      | exact ⟨rfl, rfl⟩
      | exact ⟨foldl_pres_pair (fun t => t.processedAb) _
            (fun acc a => (contactStep_trace_pres eng cb _ _ _ acc a).2.2.1) _ _,
          foldl_pres_pair (fun t => t.lookupsAb) _
            (fun acc a => (contactStep_trace_pres eng cb _ _ _ acc a).2.2.2) _ _⟩

/-- A calendar whose properties load is recorded in the processed trace, and
its mapped name is passed to the destination lookup. -/
theorem processCalendar_trace (eng : MigrationEngine) (cb) (ci : Bool)
    (s : EngineState) (c : Collection) (h : c.propsFail = false) :
    (processCalendar eng cb ci s c).processedCal = s.processedCal ++ [calName c] ∧
    (processCalendar eng cb ci s c).lookupsCal =
      s.lookupsCal ++ [dictGet eng.calendar_mapping (calName c)] := by
  unfold processCalendar
  rw [if_neg (by simp [h])]
  dsimp only
  repeat' split
  all_goals
    first
      | exact ⟨rfl, rfl⟩
      | exact ⟨((_mce_trace_pres eng cb _ _ _).1).trans rfl,
          ((_mce_trace_pres eng cb _ _ _).2).trans rfl⟩

theorem processAddressbook_trace (eng : MigrationEngine) (cb) (ci : Bool)
    (s : EngineState) (ab : Collection) (h : ab.propsFail = false) :
    (processAddressbook eng cb ci s ab).processedAb = s.processedAb ++ [abName ab] ∧
    (processAddressbook eng cb ci s ab).lookupsAb =
      s.lookupsAb ++ [dictGet eng.addressbook_mapping (abName ab)] := by
  unfold processAddressbook
  rw [if_neg (by simp [h])]
  dsimp only
  repeat' split
  all_goals
    first
      | exact ⟨rfl, rfl⟩
      | exact ⟨((_mac_trace_pres eng cb _ _ _).1).trans rfl,
          ((_mac_trace_pres eng cb _ _ _).2).trans rfl⟩

theorem foldl_processCalendar_trace (eng : MigrationEngine) (cb) (ci : Bool) :
    ∀ (l : List Collection) (s : EngineState), (∀ c ∈ l, c.propsFail = false) →
    (l.foldl (processCalendar eng cb ci) s).processedCal =
      s.processedCal ++ l.map calName ∧
    (l.foldl (processCalendar eng cb ci) s).lookupsCal =
      s.lookupsCal ++ l.map (fun c => dictGet eng.calendar_mapping (calName c)) := by
  intro l
  induction l with
  | nil => intro s _; simp
  | cons a t ih =>
    intro s h
    have ha := processCalendar_trace eng cb ci s a (h a (List.mem_cons_self a t))
    have ht := ih (processCalendar eng cb ci s a)
      (fun c hc => h c (List.mem_cons_of_mem a hc))
    rw [List.foldl_cons, List.map_cons, List.map_cons]
    constructor
    · rw [ht.1, ha.1, List.append_assoc]
      rfl
    · rw [ht.2, ha.2, List.append_assoc]
      rfl

theorem foldl_processAddressbook_trace (eng : MigrationEngine) (cb) (ci : Bool) :
    ∀ (l : List Collection) (s : EngineState), (∀ c ∈ l, c.propsFail = false) →
    (l.foldl (processAddressbook eng cb ci) s).processedAb =
      s.processedAb ++ l.map abName ∧
    (l.foldl (processAddressbook eng cb ci) s).lookupsAb =
      s.lookupsAb ++ l.map (fun c => dictGet eng.addressbook_mapping (abName c)) := by
  intro l
  induction l with
  | nil => intro s _; simp
  | cons a t ih =>
    intro s h
    have ha := processAddressbook_trace eng cb ci s a (h a (List.mem_cons_self a t))
    have ht := ih (processAddressbook eng cb ci s a)
      (fun c hc => h c (List.mem_cons_of_mem a hc))
    rw [List.foldl_cons, List.map_cons, List.map_cons]
    constructor
    · rw [ht.1, ha.1, List.append_assoc]
      rfl
    · rw [ht.2, ha.2, List.append_assoc]
      rfl

/-- C3: selection semantics.  (i) A configured-but-empty calendar selection
makes `migrate_calendars` return its input state untouched: starting from a
fresh run, `calendars_migrated` stays 0 and no source calendar enters the
per-calendar loop; similarly for an empty addressbook selection.
(ii) With a configured non-empty selection (and loadable properties, since
the filter loop reads them unguarded), exactly the source collections whose
display name belongs to the selection are processed, in order.
(iii) With no configured selection, all source collections are processed. -/
theorem C3_selection_semantics (eng engE : MigrationEngine) (cb)
    (src : List Collection) (ci : Bool) (s : EngineState) (dest : DestServer)
    (sel : List String)
    (hE1 : engE.selected_calendars = some [])
    (hE2 : engE.selected_addressbooks = some [])
    (hprops : ∀ c ∈ src, c.propsFail = false) :
    (migrate_calendars engE cb src ci s = (s, false) ∧
     migrate_contacts engE cb src ci s = (s, false) ∧
     (migrate_calendars engE cb src ci
        (EngineState.init dest)).1.stats.calendars_migrated = 0 ∧
     (migrate_calendars engE cb src ci (EngineState.init dest)).1.processedCal = []) ∧
    (eng.selected_calendars = some sel → sel ≠ [] →
      (migrate_calendars eng cb src ci s).1.processedCal =
        s.processedCal ++ (src.filter fun c => sel.contains (calName c)).map calName) ∧
    (eng.selected_addressbooks = some sel → sel ≠ [] →
      (migrate_contacts eng cb src ci s).1.processedAb =
        s.processedAb ++ (src.filter fun c => sel.contains (abName c)).map abName) ∧
    (eng.selected_calendars = none →
      (migrate_calendars eng cb src ci s).1.processedCal =
        s.processedCal ++ src.map calName) ∧
    (eng.selected_addressbooks = none →
      (migrate_contacts eng cb src ci s).1.processedAb =
        s.processedAb ++ src.map abName) := by
  have hempty : ∀ (t : EngineState), migrate_calendars engE cb src ci t = (t, false) := by
    intro t
    unfold migrate_calendars
    split
    · rfl
    · rw [hE1]
      rfl
  have hemptyAb : ∀ (t : EngineState), migrate_contacts engE cb src ci t = (t, false) := by
    intro t
    unfold migrate_contacts
    rw [hE2]
    rfl
  have hany : ¬((src.any fun x => x.propsFail) = true) := by
    simp only [List.any_eq_true, not_exists, not_and, Bool.not_eq_true]
    intro c hc
    exact hprops c hc
  refine ⟨⟨hempty s, hemptyAb s, by rw [hempty]; rfl, by rw [hempty]; rfl⟩, ?_, ?_, ?_, ?_⟩
  · intro hsel hne
    have hne2 : ¬(List.isEmpty sel = true) := by simp [List.isEmpty_iff, hne]
    unfold migrate_calendars
    split
    · rename_i hsrc
      simp only [List.isEmpty_iff] at hsrc
      subst hsrc
      simp
    · rw [hsel]
      dsimp only
      rw [if_neg hne2]
      split
      · rename_i hfil
        simp only [List.isEmpty_iff] at hfil
        rw [hfil]
        simp
      · exact (foldl_processCalendar_trace eng cb ci _ s
          (fun c hc => hprops c (List.mem_of_mem_filter hc))).1
  · intro hsel hne
    have hne2 : ¬(List.isEmpty sel = true) := by simp [List.isEmpty_iff, hne]
    unfold migrate_contacts
    rw [hsel]
    dsimp only
    rw [if_neg hne2]
    split
    · rename_i hsrc
      simp only [List.isEmpty_iff] at hsrc
      subst hsrc
      simp
    · split
      · rename_i hfil
        simp only [List.isEmpty_iff] at hfil
        rw [hfil]
        simp
      · exact (foldl_processAddressbook_trace eng cb ci _ s
          (fun c hc => hprops c (List.mem_of_mem_filter hc))).1
  · intro hsel
    unfold migrate_calendars
    split
    · rename_i hsrc
      simp only [List.isEmpty_iff] at hsrc
      subst hsrc
      simp
    · rw [hsel]
      dsimp only
      exact (foldl_processCalendar_trace eng cb ci src s hprops).1
  · intro hsel
    unfold migrate_contacts
    rw [hsel]
    dsimp only
    split
    · rename_i hsrc
      simp only [List.isEmpty_iff] at hsrc
      subst hsrc
      simp
    · exact (foldl_processAddressbook_trace eng cb ci src s hprops).1

/-- Witness for C3 at concrete engines and a concrete two-calendar source. -/
theorem C3_selection_semantics_witness :
    let eng : MigrationEngine :=
      { dry_run := false, skip_dummy_events := false,
        selected_calendars := some ["Work"], selected_addressbooks := some ["Work"],
        calendar_mapping := [], addressbook_mapping := [], uuid4 := "u-0" }
    let engE : MigrationEngine :=
      { dry_run := false, skip_dummy_events := false,
        selected_calendars := some [], selected_addressbooks := some [],
        calendar_mapping := [], addressbook_mapping := [], uuid4 := "u-0" }
    let cA : Collection :=
      { displayname := some "Work", url := "https://src/a/", items := [],
        itemsFail := false, propsFail := false }
    let cB : Collection :=
      { displayname := some "Home", url := "https://src/b/", items := [],
        itemsFail := false, propsFail := false }
    let dest : DestServer :=
      { calendars := [], addressbooks := [], createCalOk := true,
        newCalUrl := fun n => "https://dst/" ++ n ++ "/", server_type := none }
    let s := EngineState.init dest
    (migrate_calendars engE none [cA, cB] true s = (s, false) ∧
     migrate_contacts engE none [cA, cB] true s = (s, false) ∧
     (migrate_calendars engE none [cA, cB] true
        (EngineState.init dest)).1.stats.calendars_migrated = 0 ∧
     (migrate_calendars engE none [cA, cB] true (EngineState.init dest)).1.processedCal = []) ∧
    (eng.selected_calendars = some ["Work"] → ["Work"] ≠ [] →
      (migrate_calendars eng none [cA, cB] true s).1.processedCal =
        s.processedCal ++
          (([cA, cB].filter fun c => ["Work"].contains (calName c)).map calName)) ∧
    (eng.selected_addressbooks = some ["Work"] → ["Work"] ≠ [] →
      (migrate_contacts eng none [cA, cB] true s).1.processedAb =
        s.processedAb ++
          (([cA, cB].filter fun c => ["Work"].contains (abName c)).map abName)) ∧
    (eng.selected_calendars = none →
      (migrate_calendars eng none [cA, cB] true s).1.processedCal =
        s.processedCal ++ [cA, cB].map calName) ∧
    (eng.selected_addressbooks = none →
      (migrate_contacts eng none [cA, cB] true s).1.processedAb =
        s.processedAb ++ [cA, cB].map abName) := by
  intro eng engE cA cB dest s
  exact C3_selection_semantics eng engE none [cA, cB] true s dest ["Work"] rfl rfl
    (by intro c hc; fin_cases hc <;> rfl)

/-! # Claim C4 -/

/-- C4: the worker builds the `MigrationEngine` without the job's selection
sets or name mappings (worker.py:218-224 passes only the two boolean flags
and the callback), so (i) the whole job outcome is unchanged under arbitrary
modification of the selection/mapping fields stored on the job, (ii) the
constructed engine has `selected_calendars = selected_addressbooks = None`
and empty mapping dicts, and (iii) a worker-run phase therefore considers
every source collection and looks each one up on the destination under its
own (identity-mapped) display name. -/
theorem C4_worker_ignores_selections (job : Job)
    (sc sa : Option (List String)) (cm am : List (String × String))
    (conn1 conn2 c1 c2 : Bool) (srcC srcA : List Collection)
    (dest : DestServer) (u : String)
    (cb : Option (CbPayload → Except Unit Unit)) (src : List Collection)
    (ci : Bool) (s : EngineState)
    (hprops : ∀ c ∈ src, c.propsFail = false) :
    process_job
        { job with
            selected_calendars := sc
            selected_addressbooks := sa
            calendar_mapping := cm
            addressbook_mapping := am }
        conn1 conn2 c1 c2 srcC srcA dest u =
      process_job job conn1 conn2 c1 c2 srcC srcA dest u ∧
    (workerEngine job u).selected_calendars = none ∧
    (workerEngine job u).selected_addressbooks = none ∧
    (workerEngine job u).calendar_mapping = [] ∧
    (workerEngine job u).addressbook_mapping = [] ∧
    ((migrate_calendars (workerEngine job u) cb src ci s).1.processedCal =
        s.processedCal ++ src.map calName ∧
     (migrate_calendars (workerEngine job u) cb src ci s).1.lookupsCal =
        s.lookupsCal ++ src.map calName ∧
     (migrate_calendars (workerEngine job u) cb src ci s).2 = false) ∧
    ((migrate_contacts (workerEngine job u) cb src ci s).1.processedAb =
        s.processedAb ++ src.map abName ∧
     (migrate_contacts (workerEngine job u) cb src ci s).1.lookupsAb =
        s.lookupsAb ++ src.map abName ∧
     (migrate_contacts (workerEngine job u) cb src ci s).2 = false) := by
  refine ⟨rfl, rfl, rfl, rfl, rfl, ⟨?_, ?_, ?_⟩, ⟨?_, ?_, ?_⟩⟩
  · unfold migrate_calendars
    split
    · rename_i hsrc
      simp only [List.isEmpty_iff] at hsrc
      subst hsrc
      simp
    · exact (foldl_processCalendar_trace (workerEngine job u) cb ci src s hprops).1
  · unfold migrate_calendars
    split
    · rename_i hsrc
      simp only [List.isEmpty_iff] at hsrc
      subst hsrc
      simp
    · exact (foldl_processCalendar_trace (workerEngine job u) cb ci src s hprops).2
  · unfold migrate_calendars
    split
    · rfl
    · rfl
  · unfold migrate_contacts
    split
    · rename_i sel heq
      exact absurd heq (by simp [workerEngine, mkEngine])
    · split
      · rename_i hsrc
        simp only [List.isEmpty_iff] at hsrc
        subst hsrc
        simp
      · exact (foldl_processAddressbook_trace (workerEngine job u) cb ci src s hprops).1
  · unfold migrate_contacts
    split
    · rename_i sel heq
      exact absurd heq (by simp [workerEngine, mkEngine])
    · split
      · rename_i hsrc
        simp only [List.isEmpty_iff] at hsrc
        subst hsrc
        simp
      · exact (foldl_processAddressbook_trace (workerEngine job u) cb ci src s hprops).2
  · unfold migrate_contacts
    split
    · rename_i sel heq
      exact absurd heq (by simp [workerEngine, mkEngine])
    · split
      · rfl
      · rfl

/-- Witness for C4 at a concrete job, source list and fixture. -/
theorem C4_worker_ignores_selections_witness :
    let job : Job :=
      { migrate_calendars := true, migrate_contacts := true,
        create_collections := true, dry_run := false, skip_dummy_events := false,
        selected_calendars := none, selected_addressbooks := none,
        calendar_mapping := [], addressbook_mapping := [] }
    let cA : Collection :=
      { displayname := some "Work", url := "https://src/a/", items := [],
        itemsFail := false, propsFail := false }
    let dest : DestServer :=
      { calendars := [], addressbooks := [], createCalOk := true,
        newCalUrl := fun n => "https://dst/" ++ n ++ "/", server_type := none }
    let s := EngineState.init dest
    process_job
        { job with
            selected_calendars := some ["X"]
            selected_addressbooks := some []
            calendar_mapping := [("Work", "W")]
            addressbook_mapping := [("A", "B")] }
        true true false false [cA] [cA] dest "u-0" =
      process_job job true true false false [cA] [cA] dest "u-0" ∧
    (workerEngine job "u-0").selected_calendars = none ∧
    (workerEngine job "u-0").selected_addressbooks = none ∧
    (workerEngine job "u-0").calendar_mapping = [] ∧
    (workerEngine job "u-0").addressbook_mapping = [] ∧
    ((migrate_calendars (workerEngine job "u-0") none [cA] true s).1.processedCal =
        s.processedCal ++ [cA].map calName ∧
     (migrate_calendars (workerEngine job "u-0") none [cA] true s).1.lookupsCal =
        s.lookupsCal ++ [cA].map calName ∧
     (migrate_calendars (workerEngine job "u-0") none [cA] true s).2 = false) ∧
    ((migrate_contacts (workerEngine job "u-0") none [cA] true s).1.processedAb =
        s.processedAb ++ [cA].map abName ∧
     (migrate_contacts (workerEngine job "u-0") none [cA] true s).1.lookupsAb =
        s.lookupsAb ++ [cA].map abName ∧
     (migrate_contacts (workerEngine job "u-0") none [cA] true s).2 = false) := by
  intro job cA dest s
  exact C4_worker_ignores_selections job (some ["X"]) (some []) [("Work", "W")]
    [("A", "B")] true true false false [cA] [cA] dest "u-0" none [cA] true s
    (by intro c hc; fin_cases hc <;> rfl)

/-! # Claim C8 -/

/-- The five contact-side counters as one projection. -/
def contactStats (s : EngineState) : Nat × Nat × Nat × Nat × Nat :=
  (s.stats.addressbooks_migrated, s.stats.addressbooks_failed,
   s.stats.contacts_migrated, s.stats.contacts_failed, s.stats.contacts_skipped)

theorem eventStep_contactStats (eng : MigrationEngine) (cb) (ex : List String)
    (tot : Nat) (url : String) (acc : EngineState × Nat) (e : Item) :
    contactStats (eventStep eng cb ex tot url acc e).1 = contactStats acc.1 := by
  unfold eventStep invokeCb recordWrite bumpEventsFailed bumpEventsSkipped bumpEventsMigrated
  repeat' split
  all_goals rfl

theorem _mce_contactStats (eng : MigrationEngine) (cb) (c dc : Collection)
    (s : EngineState) :
    contactStats (_migrate_calendar_events eng cb c dc s) = contactStats s := by
  unfold _migrate_calendar_events
  repeat' split
  all_goals
    first
      | rfl
      | exact foldl_pres_pair contactStats _
          (fun acc a => eventStep_contactStats eng cb _ _ _ acc a) _ _

theorem processCalendar_contactStats (eng : MigrationEngine) (cb) (ci : Bool)
    (s : EngineState) (c : Collection) :
    contactStats (processCalendar eng cb ci s c) = contactStats s := by
  unfold processCalendar
  dsimp only
  repeat' split
  all_goals
    first
      | rfl
      | exact (_mce_contactStats eng cb _ _ _).trans rfl

theorem migrate_calendars_contactStats (eng : MigrationEngine) (cb)
    (src : List Collection) (ci : Bool) (s : EngineState) :
    contactStats (migrate_calendars eng cb src ci s).1 = contactStats s := by
  unfold migrate_calendars
  dsimp only
  repeat' split
  all_goals
    first
      | rfl
      | exact foldl_pres contactStats _
          (fun t a => processCalendar_contactStats eng cb ci t a) _ s

/-- The worker engine configures no selection set, so the calendars phase
never lets an exception escape (the selection-filter loop at migration.py:91
is the only uncaught call). -/
theorem workerCal_noRaise (job : Job) (u : String) (cb) (src : List Collection)
    (ci : Bool) (s : EngineState) :
    (migrate_calendars (workerEngine job u) cb src ci s).2 = false := by
  unfold migrate_calendars
  split
  · rfl
  · rfl

theorem workerCon_noRaise (job : Job) (u : String) (cb) (src : List Collection)
    (ci : Bool) (s : EngineState) :
    (migrate_contacts (workerEngine job u) cb src ci s).2 = false := by
  unfold migrate_contacts
  split
  · rename_i sel heq
    exact absurd heq (by simp [workerEngine, mkEngine])
  · split
    · rfl
    · rfl

/-- C8: cooperative cancellation.  For a job with both phases enabled and
connected clients: (a) in an uncancelled run the cancel flag is read at
exactly two checkpoints — before the calendars phase and before the contacts
phase, in that order; (b) a cancel observed at the first checkpoint
terminates the job with status `failed` and the message
`Job cancelled by user`, with no second checkpoint read, no engine activity
and no destination write; (c) a cancel observed at the second checkpoint
likewise fails the job with the cancellation message and leaves every
contact and addressbook counter at zero. -/
theorem C8_cancellation (job : Job) (u : String) (srcC srcA : List Collection)
    (dest : DestServer)
    (hmc : job.migrate_calendars = true) (hmcc : job.migrate_contacts = true) :
    (process_job job true true false false srcC srcA dest u).cancelChecks =
      ["pre-calendars", "pre-contacts"] ∧
    (∀ c2 : Bool,
      (process_job job true true true c2 srcC srcA dest u).status = "failed" ∧
      (process_job job true true true c2 srcC srcA dest u).error_message =
        some "Job cancelled by user" ∧
      (process_job job true true true c2 srcC srcA dest u).cancelChecks =
        ["pre-calendars"] ∧
      (process_job job true true true c2 srcC srcA dest u).engineStats = {} ∧
      (process_job job true true true c2 srcC srcA dest u).writes = []) ∧
    ((process_job job true true false true srcC srcA dest u).status = "failed" ∧
     (process_job job true true false true srcC srcA dest u).error_message =
       some "Job cancelled by user" ∧
     (process_job job true true false true srcC srcA dest u).cancelChecks =
       ["pre-calendars", "pre-contacts"] ∧
     contactStats
       { stats := (process_job job true true false true srcC srcA dest u).engineStats,
         dest := dest, writes := [], cbs := [], detailsCal := [], detailsAb := [],
         processedCal := [], processedAb := [], lookupsCal := [], lookupsAb := [] } =
       (0, 0, 0, 0, 0)) := by
  have hcal := workerCal_noRaise job u (some fun _ => Except.ok ()) srcC
    job.create_collections (EngineState.init dest)
  have hcon := workerCon_noRaise job u (some fun _ => Except.ok ()) srcA
    job.create_collections
    (migrate_calendars (workerEngine job u) (some fun _ => Except.ok ()) srcC
      job.create_collections (EngineState.init dest)).1
  refine ⟨?_, ?_, ?_⟩
  · unfold process_job
    simp [hmc, hmcc, hcal, hcon]
  · intro c2
    unfold process_job
    simp [hmc]
    exact ⟨rfl, rfl⟩
  · unfold process_job
    simp only [hmc, hmcc]
    norm_num
    simp only [hcal]
    norm_num
    exact (migrate_calendars_contactStats (workerEngine job u) _ srcC
      job.create_collections (EngineState.init dest)).trans rfl

/-- Witness for C8 at a concrete job and fixture. -/
theorem C8_cancellation_witness :
    let job : Job :=
      { migrate_calendars := true, migrate_contacts := true,
        create_collections := true, dry_run := false, skip_dummy_events := false,
        selected_calendars := none, selected_addressbooks := none,
        calendar_mapping := [], addressbook_mapping := [] }
    let dest : DestServer :=
      { calendars := [], addressbooks := [], createCalOk := true,
        newCalUrl := fun n => "https://dst/" ++ n ++ "/", server_type := none }
    (process_job job true true false false [] [] dest "u-0").cancelChecks =
      ["pre-calendars", "pre-contacts"] ∧
    (∀ c2 : Bool,
      (process_job job true true true c2 [] [] dest "u-0").status = "failed" ∧
      (process_job job true true true c2 [] [] dest "u-0").error_message =
        some "Job cancelled by user" ∧
      (process_job job true true true c2 [] [] dest "u-0").cancelChecks =
        ["pre-calendars"] ∧
      (process_job job true true true c2 [] [] dest "u-0").engineStats = {} ∧
      (process_job job true true true c2 [] [] dest "u-0").writes = []) ∧
    ((process_job job true true false true [] [] dest "u-0").status = "failed" ∧
     (process_job job true true false true [] [] dest "u-0").error_message =
       some "Job cancelled by user" ∧
     (process_job job true true false true [] [] dest "u-0").cancelChecks =
       ["pre-calendars", "pre-contacts"] ∧
     contactStats
       { stats := (process_job job true true false true [] [] dest "u-0").engineStats,
         dest := dest, writes := [], cbs := [], detailsCal := [], detailsAb := [],
         processedCal := [], processedAb := [], lookupsCal := [], lookupsAb := [] } =
       (0, 0, 0, 0, 0)) := by
  intro job dest
  exact C8_cancellation job "u-0" [] [] dest rfl rfl

/-! # Claim C9 -/

/-- C9 counterexample: the claim says every exception raised while
processing one collection increments that unit's failure counter.  Take one
source calendar whose `events()` enumeration raises
(migration.py:185, modelled by `itemsFail = true`) and whose destination
calendar exists.  The exception is caught at migration.py:292 and only
logged: no failure counter is incremented, and the calendar is even counted
as migrated (migration.py:166). -/
theorem C9_counterexample :
    let eng : MigrationEngine :=
      { dry_run := false, skip_dummy_events := false,
        selected_calendars := none, selected_addressbooks := none,
        calendar_mapping := [], addressbook_mapping := [], uuid4 := "u-0" }
    let cal : Collection :=
      { displayname := some "Work", url := "https://src/cal/", items := [],
        itemsFail := true, propsFail := false }
    let destCal : Collection :=
      { displayname := some "Work", url := "https://dst/cal/", items := [],
        itemsFail := false, propsFail := false }
    let dest : DestServer :=
      { calendars := [destCal], addressbooks := [], createCalOk := true,
        newCalUrl := fun n => "https://dst/" ++ n ++ "/", server_type := none }
    (migrate_calendars eng none [cal] true (EngineState.init dest)).1.stats =
      { calendars_migrated := 1, calendars_failed := 0, events_migrated := 0,
        events_failed := 0, events_skipped := 0, addressbooks_migrated := 0,
        addressbooks_failed := 0, contacts_migrated := 0, contacts_failed := 0,
        contacts_skipped := 0 } := by
  intro eng cal destCal dest
  rfl

theorem eventStep_fetchFails (eng : MigrationEngine) (cb) (ex : List String)
    (tot : Nat) (url : String) (acc : EngineState × Nat) (e : Item)
    (h : e.fetchFails = true) :
    (eventStep eng cb ex tot url acc e).1.stats.events_failed =
      acc.1.stats.events_failed + 1 ∧
    (eventStep eng cb ex tot url acc e).1.stats.events_migrated =
      acc.1.stats.events_migrated ∧
    (eventStep eng cb ex tot url acc e).1.stats.events_skipped =
      acc.1.stats.events_skipped ∧
    (eventStep eng cb ex tot url acc e).1.writes = acc.1.writes := by
  unfold eventStep
  rw [if_pos h]
  cases cb with
  | none => exact ⟨rfl, rfl, rfl, rfl⟩
  | some f => exact ⟨rfl, rfl, rfl, rfl⟩

theorem contactStep_fetchFails (eng : MigrationEngine) (cb) (ex : List String)
    (tot : Nat) (dab : Option Collection) (acc : EngineState × Nat) (e : Item)
    (h : e.fetchFails = true) :
    (contactStep eng cb ex tot dab acc e).1.stats.contacts_failed =
      acc.1.stats.contacts_failed + 1 ∧
    (contactStep eng cb ex tot dab acc e).1.stats.contacts_migrated =
      acc.1.stats.contacts_migrated ∧
    (contactStep eng cb ex tot dab acc e).1.stats.contacts_skipped =
      acc.1.stats.contacts_skipped ∧
    (contactStep eng cb ex tot dab acc e).1.writes = acc.1.writes := by
  unfold contactStep
  rw [if_pos h]
  cases cb with
  | none => exact ⟨rfl, rfl, rfl, rfl⟩
  | some f => exact ⟨rfl, rfl, rfl, rfl⟩

/-- C9 amended: exceptions raised in the per-collection loop body (the
unprotected `get_properties` call) are caught and increment the collection
failure counter; exceptions while processing one item are caught and
increment the item failure counter; in both cases processing continues with
the next unit — the collection and item loops decompose sequentially around
the failing unit, so a single failure never aborts the enclosing loop or
phase.  However an exception while retrieving a collection's item list is
caught and only logged: `_migrate_calendar_events` returns the state
unchanged (no failure counter), and the caller still counts the collection
as migrated. -/
theorem C9_error_isolation_amended
    (eng : MigrationEngine) (cb) (ci : Bool) (s : EngineState) (c : Collection)
    (ex : List String) (tot : Nat) (url : String) (acc : EngineState × Nat)
    (e : Item) (l1 l2 : List Collection) (i1 i2 : List Item)
    (dab : Option Collection)
    (hprops : c.propsFail = true) (hfetch : e.fetchFails = true) :
    processCalendar eng cb ci s c = bumpCalendarsFailed s ∧
    processAddressbook eng cb ci s c = bumpAbFailed s ∧
    ((l1 ++ c :: l2).foldl (processCalendar eng cb ci) s =
      l2.foldl (processCalendar eng cb ci)
        (processCalendar eng cb ci (l1.foldl (processCalendar eng cb ci) s) c)) ∧
    ((i1 ++ e :: i2).foldl (eventStep eng cb ex tot url) acc =
      i2.foldl (eventStep eng cb ex tot url)
        (eventStep eng cb ex tot url (i1.foldl (eventStep eng cb ex tot url) acc) e)) ∧
    (eventStep eng cb ex tot url acc e).1.stats.events_failed =
      acc.1.stats.events_failed + 1 ∧
    (eventStep eng cb ex tot url acc e).1.stats.events_migrated =
      acc.1.stats.events_migrated ∧
    (contactStep eng cb ex tot dab acc e).1.stats.contacts_failed =
      acc.1.stats.contacts_failed + 1 ∧
    (contactStep eng cb ex tot dab acc e).1.stats.contacts_migrated =
      acc.1.stats.contacts_migrated ∧
    (c.itemsFail = true → ∀ dc, _migrate_calendar_events eng cb c dc s = s) := by
  refine ⟨?_, ?_, ?_, ?_, (eventStep_fetchFails eng cb ex tot url acc e hfetch).1,
    (eventStep_fetchFails eng cb ex tot url acc e hfetch).2.1,
    (contactStep_fetchFails eng cb ex tot dab acc e hfetch).1,
    (contactStep_fetchFails eng cb ex tot dab acc e hfetch).2.1, ?_⟩
  · unfold processCalendar
    rw [if_pos hprops]
  · unfold processAddressbook
    rw [if_pos hprops]
  · rw [List.foldl_append, List.foldl_cons]
  · rw [List.foldl_append, List.foldl_cons]
  · intro hitems dc
    unfold _migrate_calendar_events
    rw [if_pos hitems]

/-- Witness for the amended C9 at concrete failing units. -/
theorem C9_error_isolation_amended_witness :
    let eng : MigrationEngine :=
      { dry_run := false, skip_dummy_events := false,
        selected_calendars := none, selected_addressbooks := none,
        calendar_mapping := [], addressbook_mapping := [], uuid4 := "u-0" }
    let bad : Collection :=
      { displayname := some "Broken", url := "https://src/bad/", items := [],
        itemsFail := true, propsFail := true }
    let badItem : Item :=
      { data := "X", uid := some "u1", summary := none, uidAttr := none,
        dataUid := none, fetchFails := true, saveFails := false }
    let dest : DestServer :=
      { calendars := [], addressbooks := [], createCalOk := true,
        newCalUrl := fun n => "https://dst/" ++ n ++ "/", server_type := none }
    let s := EngineState.init dest
    processCalendar eng none true s bad = bumpCalendarsFailed s ∧
    processAddressbook eng none true s bad = bumpAbFailed s ∧
    (([] ++ bad :: []).foldl (processCalendar eng none true) s =
      [].foldl (processCalendar eng none true)
        (processCalendar eng none true ([].foldl (processCalendar eng none true) s) bad)) ∧
    (([] ++ badItem :: []).foldl (eventStep eng none [] 1 "https://dst/c/") (s, 0) =
      [].foldl (eventStep eng none [] 1 "https://dst/c/")
        (eventStep eng none [] 1 "https://dst/c/"
          ([].foldl (eventStep eng none [] 1 "https://dst/c/") (s, 0)) badItem)) ∧
    (eventStep eng none [] 1 "https://dst/c/" (s, 0) badItem).1.stats.events_failed =
      (s, 0).1.stats.events_failed + 1 ∧
    (eventStep eng none [] 1 "https://dst/c/" (s, 0) badItem).1.stats.events_migrated =
      (s, 0).1.stats.events_migrated ∧
    (contactStep eng none [] 1 none (s, 0) badItem).1.stats.contacts_failed =
      (s, 0).1.stats.contacts_failed + 1 ∧
    (contactStep eng none [] 1 none (s, 0) badItem).1.stats.contacts_migrated =
      (s, 0).1.stats.contacts_migrated ∧
    (bad.itemsFail = true → ∀ dc, _migrate_calendar_events eng none bad dc s = s) := by
  intro eng bad badItem dest s
  exact C9_error_isolation_amended eng none true s bad [] 1 "https://dst/c/"
    (s, 0) badItem [] [] [] [] none rfl rfl

/-! # Claim C10 -/

set_option maxHeartbeats 1000000 in
/-- C10 counterexample: the claim says the resource-path shape under the
addressbook root is a configurable per-server-type override.  In the code
(migration.py:640-645) the `/personal/` segment is inserted purely because
the destination addressbook URL ends with `/Contacts`: two destinations
that differ only in their configured `server_type` (`Carbonio` vs `SOGo`)
receive byte-identical PUT URLs, and the `/personal/` shape is applied even
for the non-SOGo server type.  Nothing in the per-server-type configuration
influences the choice. -/
theorem C10_counterexample :
    let eng : MigrationEngine :=
      { dry_run := false, skip_dummy_events := false,
        selected_calendars := none, selected_addressbooks := none,
        calendar_mapping := [], addressbook_mapping := [], uuid4 := "u-0" }
    let contact : Item :=
      { data := "BEGIN:VCARD", uid := some "c1", summary := none,
        uidAttr := some "c1", dataUid := some "c1", fetchFails := false,
        saveFails := false }
    let srcAb : Collection :=
      { displayname := some "Contacts", url := "https://src/ab/",
        items := [contact], itemsFail := false, propsFail := false }
    let dstAb : Collection :=
      { displayname := some "Contacts", url := "https://dst/dav/u/Contacts",
        items := [], itemsFail := false, propsFail := false }
    let destA : DestServer :=
      { calendars := [], addressbooks := [dstAb], createCalOk := true,
        newCalUrl := fun n => "https://dst/" ++ n ++ "/",
        server_type := some "Carbonio" }
    let destB : DestServer :=
      { calendars := [], addressbooks := [dstAb], createCalOk := true,
        newCalUrl := fun n => "https://dst/" ++ n ++ "/",
        server_type := some "SOGo" }
    (migrate_contacts eng none [srcAb] true (EngineState.init destA)).1.writes =
      (migrate_contacts eng none [srcAb] true (EngineState.init destB)).1.writes ∧
    (migrate_contacts eng none [srcAb] true (EngineState.init destA)).1.writes =
      [WriteOp.putContact "https://dst/dav/u/Contacts"
        "https://dst/dav/u/Contacts/personal/c1.vcf" contact] := by
  intro eng contact srcAb dstAb destA destB
  exact ⟨by decide, by decide⟩

/-- C10 amended: the contact PUT URL is derived from the destination
collection URL and the contact's UID alone — the addressbook URL with
trailing slashes stripped, the sanitised UID and a `.vcf` suffix, with a
fixed `/personal/` segment inserted exactly when the stripped URL ends with
`/Contacts`.  The shape is the same hardcoded rule for every server type,
not a configurable per-server-type override: the successful write path
records exactly this URL, which mentions no server-type input. -/
theorem C10_put_url_amended (abUrl safe : String)
    (eng : MigrationEngine) (cb) (ex : List String) (tot : Nat)
    (d : Collection) (acc : EngineState × Nat) (c : Item)
    (hfetch : c.fetchFails = false)
    (hdup : (match c.uid with
             | some u => !(u == "") && ex.contains u
             | none => false) = false)
    (hsave : c.saveFails = false) :
    (pyEndsWith (rstripSlash abUrl) "/Contacts" = true →
      vcardPutUrl abUrl safe = rstripSlash abUrl ++ "/personal/" ++ safe ++ ".vcf") ∧
    (pyEndsWith (rstripSlash abUrl) "/Contacts" = false →
      vcardPutUrl abUrl safe = rstripSlash abUrl ++ "/" ++ safe ++ ".vcf") ∧
    (contactStep eng cb ex tot (some d) acc c).1.writes =
      acc.1.writes ++
        [WriteOp.putContact d.url
          (vcardPutUrl d.url (safeUid (contactPutUid eng c))) c] := by
  refine ⟨?_, ?_, ?_⟩
  · intro h
    unfold vcardPutUrl
    rw [if_pos h]
  · intro h
    unfold vcardPutUrl
    rw [if_neg (by simp [h])]
  · unfold contactStep
    rw [if_neg (by simp [hfetch])]
    rw [if_neg (show ¬((match c.uid with
        | some u => !(u == "") && ex.contains u
        | none => false) = true) by rw [hdup]; simp)]
    dsimp only
    rw [if_neg (by simp [hsave])]
    cases cb with
    | none => rfl
    | some f => rfl

/-- Witness for the amended C10 at a concrete URL and contact. -/
theorem C10_put_url_amended_witness :
    let eng : MigrationEngine :=
      { dry_run := false, skip_dummy_events := false,
        selected_calendars := none, selected_addressbooks := none,
        calendar_mapping := [], addressbook_mapping := [], uuid4 := "u-0" }
    let contact : Item :=
      { data := "BEGIN:VCARD", uid := some "c1", summary := none,
        uidAttr := some "c1", dataUid := some "c1", fetchFails := false,
        saveFails := false }
    let dstAb : Collection :=
      { displayname := some "Contacts", url := "https://dst/dav/u/Contacts",
        items := [], itemsFail := false, propsFail := false }
    let dest : DestServer :=
      { calendars := [], addressbooks := [dstAb], createCalOk := true,
        newCalUrl := fun n => "https://dst/" ++ n ++ "/", server_type := none }
    let s := EngineState.init dest
    ((pyEndsWith (rstripSlash "https://dst/dav/u/Contacts") "/Contacts" = true →
      vcardPutUrl "https://dst/dav/u/Contacts" "c1" =
        rstripSlash "https://dst/dav/u/Contacts" ++ "/personal/" ++ "c1" ++ ".vcf") ∧
    (pyEndsWith (rstripSlash "https://dst/dav/u/Contacts") "/Contacts" = false →
      vcardPutUrl "https://dst/dav/u/Contacts" "c1" =
        rstripSlash "https://dst/dav/u/Contacts" ++ "/" ++ "c1" ++ ".vcf") ∧
    (contactStep eng none [] 1 (some dstAb) (s, 0) contact).1.writes =
      (s, 0).1.writes ++
        [WriteOp.putContact dstAb.url
          (vcardPutUrl dstAb.url (safeUid (contactPutUid eng contact))) contact]) := by
  intro eng contact dstAb dest s
  exact C10_put_url_amended "https://dst/dav/u/Contacts" "c1" eng none [] 1
    dstAb (s, 0) contact rfl rfl rfl

/-! # Claim C6 -/

/-- Duplicate-check discriminant of the item loops (Python truthiness of
the UID plus membership in the dedup set). -/
def dupHit (ex : List String) (uid : Option String) : Bool :=
  match uid with
  | some u => !(u == "") && ex.contains u
  | none => false

/-- Exactly one of the three event counters advances by one. -/
def ExactlyOneEventBump (a b : Stats) : Prop :=
  b = { a with events_migrated := a.events_migrated + 1 } ∨
  b = { a with events_skipped := a.events_skipped + 1 } ∨
  b = { a with events_failed := a.events_failed + 1 }

/-- Exactly one of the three contact counters advances by one. -/
def ExactlyOneContactBump (a b : Stats) : Prop :=
  b = { a with contacts_migrated := a.contacts_migrated + 1 } ∨
  b = { a with contacts_skipped := a.contacts_skipped + 1 } ∨
  b = { a with contacts_failed := a.contacts_failed + 1 }

/-- The content-filter skip path of the event loop (migration.py:254-262):
payload fetched, not a duplicate, `skip_dummy_events` set and the summary is
a trimmed case-insensitive "dummy". -/
def eventFilterSkip (eng : MigrationEngine) (existing : List String) (e : Item) : Bool :=
  !e.fetchFails && !(dupHit existing e.uid) &&
  (eng.skip_dummy_events && isDummySummary e.summary)

theorem eventStep_eq_fetch (eng : MigrationEngine) (cb) (ex : List String)
    (tot : Nat) (url : String) (acc : EngineState × Nat) (e : Item)
    (h1 : e.fetchFails = true) :
    eventStep eng cb ex tot url acc e =
      (invokeCb cb ⟨"calendars", acc.2 + 1, tot,
        (bumpEventsFailed acc.1).stats.events_skipped⟩ (bumpEventsFailed acc.1),
       acc.2 + 1) := by
  unfold eventStep
  rw [if_pos h1]

theorem eventStep_eq_dup (eng : MigrationEngine) (cb) (ex : List String)
    (tot : Nat) (url : String) (acc : EngineState × Nat) (e : Item)
    (h1 : e.fetchFails = false) (h2 : dupHit ex e.uid = true) :
    eventStep eng cb ex tot url acc e =
      (invokeCb cb ⟨"calendars", acc.2 + 1, tot,
        (bumpEventsSkipped acc.1).stats.events_skipped⟩ (bumpEventsSkipped acc.1),
       acc.2 + 1) := by
  unfold eventStep
  rw [if_neg (by simp [h1]), if_pos (by exact h2)]

theorem eventStep_eq_dummy (eng : MigrationEngine) (cb) (ex : List String)
    (tot : Nat) (url : String) (acc : EngineState × Nat) (e : Item)
    (h1 : e.fetchFails = false) (h2 : dupHit ex e.uid = false)
    (h3 : (eng.skip_dummy_events && isDummySummary e.summary) = true) :
    eventStep eng cb ex tot url acc e = (bumpEventsSkipped acc.1, acc.2) := by
  unfold eventStep
  rw [if_neg (by simp [h1]),
    if_neg (show ¬((match e.uid with
      | some u => !(u == "") && ex.contains u
      | none => false) = true) by rw [show (match e.uid with
        | some u => !(u == "") && ex.contains u
        | none => false) = dupHit ex e.uid from rfl, h2]; simp),
    if_pos h3]

theorem eventStep_eq_savefail (eng : MigrationEngine) (cb) (ex : List String)
    (tot : Nat) (url : String) (acc : EngineState × Nat) (e : Item)
    (h1 : e.fetchFails = false) (h2 : dupHit ex e.uid = false)
    (h3 : (eng.skip_dummy_events && isDummySummary e.summary) = false)
    (h4 : e.saveFails = true) :
    eventStep eng cb ex tot url acc e =
      (invokeCb cb ⟨"calendars", acc.2 + 1, tot,
        (bumpEventsFailed acc.1).stats.events_skipped⟩ (bumpEventsFailed acc.1),
       acc.2 + 1) := by
  unfold eventStep
  rw [if_neg (by simp [h1]),
    if_neg (show ¬((match e.uid with
      | some u => !(u == "") && ex.contains u
      | none => false) = true) by rw [show (match e.uid with
        | some u => !(u == "") && ex.contains u
        | none => false) = dupHit ex e.uid from rfl, h2]; simp),
    if_neg (by simp [h3]), if_pos h4]

theorem eventStep_eq_ok (eng : MigrationEngine) (cb) (ex : List String)
    (tot : Nat) (url : String) (acc : EngineState × Nat) (e : Item)
    (h1 : e.fetchFails = false) (h2 : dupHit ex e.uid = false)
    (h3 : (eng.skip_dummy_events && isDummySummary e.summary) = false)
    (h4 : e.saveFails = false) :
    eventStep eng cb ex tot url acc e =
      (invokeCb cb ⟨"calendars", acc.2 + 1, tot,
        (recordWrite (.saveEvent url e) (bumpEventsMigrated acc.1)).stats.events_skipped⟩
        (recordWrite (.saveEvent url e) (bumpEventsMigrated acc.1)),
       acc.2 + 1) := by
  unfold eventStep
  rw [if_neg (by simp [h1]),
    if_neg (show ¬((match e.uid with
      | some u => !(u == "") && ex.contains u
      | none => false) = true) by rw [show (match e.uid with
        | some u => !(u == "") && ex.contains u
        | none => false) = dupHit ex e.uid from rfl, h2]; simp),
    if_neg (by simp [h3]), if_neg (by simp [h4])]

theorem contactStep_eq_fetch (eng : MigrationEngine) (cb) (ex : List String)
    (tot : Nat) (dab : Option Collection) (acc : EngineState × Nat) (c : Item)
    (h1 : c.fetchFails = true) :
    contactStep eng cb ex tot dab acc c =
      (invokeCb cb ⟨"contacts", acc.2 + 1, tot,
        (bumpContactsFailed acc.1).stats.contacts_skipped⟩ (bumpContactsFailed acc.1),
       acc.2 + 1) := by
  unfold contactStep
  rw [if_pos h1]

theorem contactStep_eq_dup (eng : MigrationEngine) (cb) (ex : List String)
    (tot : Nat) (dab : Option Collection) (acc : EngineState × Nat) (c : Item)
    (h1 : c.fetchFails = false) (h2 : dupHit ex c.uid = true) :
    contactStep eng cb ex tot dab acc c =
      (invokeCb cb ⟨"contacts", acc.2 + 1, tot,
        (bumpContactsSkipped acc.1).stats.contacts_skipped⟩ (bumpContactsSkipped acc.1),
       acc.2 + 1) := by
  unfold contactStep
  rw [if_neg (by simp [h1]), if_pos (by exact h2)]

theorem contactStep_eq_noneDab (eng : MigrationEngine) (cb) (ex : List String)
    (tot : Nat) (acc : EngineState × Nat) (c : Item)
    (h1 : c.fetchFails = false) (h2 : dupHit ex c.uid = false) :
    contactStep eng cb ex tot none acc c =
      (invokeCb cb ⟨"contacts", acc.2 + 1, tot,
        (bumpContactsFailed acc.1).stats.contacts_skipped⟩ (bumpContactsFailed acc.1),
       acc.2 + 1) := by
  unfold contactStep
  rw [if_neg (by simp [h1]),
    if_neg (show ¬((match c.uid with
      | some u => !(u == "") && ex.contains u
      | none => false) = true) by rw [show (match c.uid with
        | some u => !(u == "") && ex.contains u
        | none => false) = dupHit ex c.uid from rfl, h2]; simp)]

theorem contactStep_eq_savefail (eng : MigrationEngine) (cb) (ex : List String)
    (tot : Nat) (d : Collection) (acc : EngineState × Nat) (c : Item)
    (h1 : c.fetchFails = false) (h2 : dupHit ex c.uid = false)
    (h4 : c.saveFails = true) :
    contactStep eng cb ex tot (some d) acc c =
      (invokeCb cb ⟨"contacts", acc.2 + 1, tot,
        (bumpContactsFailed acc.1).stats.contacts_skipped⟩ (bumpContactsFailed acc.1),
       acc.2 + 1) := by
  unfold contactStep
  rw [if_neg (by simp [h1]),
    if_neg (show ¬((match c.uid with
      | some u => !(u == "") && ex.contains u
      | none => false) = true) by rw [show (match c.uid with
        | some u => !(u == "") && ex.contains u
        | none => false) = dupHit ex c.uid from rfl, h2]; simp)]
  dsimp only
  rw [if_pos h4]

theorem contactStep_eq_ok (eng : MigrationEngine) (cb) (ex : List String)
    (tot : Nat) (d : Collection) (acc : EngineState × Nat) (c : Item)
    (h1 : c.fetchFails = false) (h2 : dupHit ex c.uid = false)
    (h4 : c.saveFails = false) :
    contactStep eng cb ex tot (some d) acc c =
      (invokeCb cb ⟨"contacts", acc.2 + 1, tot,
        (recordWrite (.putContact d.url
            (vcardPutUrl d.url (safeUid (contactPutUid eng c))) c)
          (bumpContactsMigrated acc.1)).stats.contacts_skipped⟩
        (recordWrite (.putContact d.url
            (vcardPutUrl d.url (safeUid (contactPutUid eng c))) c)
          (bumpContactsMigrated acc.1)),
       acc.2 + 1) := by
  unfold contactStep
  rw [if_neg (by simp [h1]),
    if_neg (show ¬((match c.uid with
      | some u => !(u == "") && ex.contains u
      | none => false) = true) by rw [show (match c.uid with
        | some u => !(u == "") && ex.contains u
        | none => false) = dupHit ex c.uid from rfl, h2]; simp)]
  dsimp only
  rw [if_neg (by simp [h4])]

theorem eventStep_accounting (eng : MigrationEngine)
    (f : CbPayload → Except Unit Unit) (ex : List String) (tot : Nat)
    (url : String) (acc : EngineState × Nat) (e : Item) :
    ExactlyOneEventBump acc.1.stats (eventStep eng (some f) ex tot url acc e).1.stats ∧
    (eventFilterSkip eng ex e = false →
      (eventStep eng (some f) ex tot url acc e).1.cbs =
        acc.1.cbs ++ [⟨"calendars", acc.2 + 1, tot,
          (eventStep eng (some f) ex tot url acc e).1.stats.events_skipped⟩] ∧
      (eventStep eng (some f) ex tot url acc e).2 = acc.2 + 1) ∧
    (eventFilterSkip eng ex e = true →
      (eventStep eng (some f) ex tot url acc e).1.cbs = acc.1.cbs ∧
      (eventStep eng (some f) ex tot url acc e).2 = acc.2) ∧
    (∀ g, eventStep eng (some f) ex tot url acc e =
      eventStep eng (some g) ex tot url acc e) := by
  by_cases h1 : e.fetchFails = true
  · rw [eventStep_eq_fetch eng (some f) ex tot url acc e h1]
    refine ⟨Or.inr (Or.inr rfl), fun hf => ⟨rfl, rfl⟩,
      fun ht => absurd ht (by simp [eventFilterSkip, h1]), fun g => ?_⟩
    rw [eventStep_eq_fetch eng (some g) ex tot url acc e h1]
    rfl
  · have h1f : e.fetchFails = false := Bool.eq_false_iff.mpr h1
    by_cases h2 : dupHit ex e.uid = true
    · rw [eventStep_eq_dup eng (some f) ex tot url acc e h1f h2]
      refine ⟨Or.inr (Or.inl rfl), fun hf => ⟨rfl, rfl⟩,
        fun ht => absurd ht (by simp [eventFilterSkip, h2]), fun g => ?_⟩
      rw [eventStep_eq_dup eng (some g) ex tot url acc e h1f h2]
      rfl
    · have h2f : dupHit ex e.uid = false := Bool.eq_false_iff.mpr h2
      by_cases h3 : (eng.skip_dummy_events && isDummySummary e.summary) = true
      · rw [eventStep_eq_dummy eng (some f) ex tot url acc e h1f h2f h3]
        refine ⟨Or.inr (Or.inl rfl),
          fun hf => absurd hf (by simp [eventFilterSkip, h1f, h2f, h3]),
          fun ht => ⟨rfl, rfl⟩, fun g => ?_⟩
        rw [eventStep_eq_dummy eng (some g) ex tot url acc e h1f h2f h3]
      · have h3f : (eng.skip_dummy_events && isDummySummary e.summary) = false :=
          Bool.eq_false_iff.mpr h3
        by_cases h4 : e.saveFails = true
        · rw [eventStep_eq_savefail eng (some f) ex tot url acc e h1f h2f h3f h4]
          refine ⟨Or.inr (Or.inr rfl), fun hf => ⟨rfl, rfl⟩,
            fun ht => absurd ht (by simp [eventFilterSkip, h3f]), fun g => ?_⟩
          rw [eventStep_eq_savefail eng (some g) ex tot url acc e h1f h2f h3f h4]
          rfl
        · have h4f : e.saveFails = false := Bool.eq_false_iff.mpr h4
          rw [eventStep_eq_ok eng (some f) ex tot url acc e h1f h2f h3f h4f]
          refine ⟨Or.inl rfl, fun hf => ⟨rfl, rfl⟩,
            fun ht => absurd ht (by simp [eventFilterSkip, h3f]), fun g => ?_⟩
          rw [eventStep_eq_ok eng (some g) ex tot url acc e h1f h2f h3f h4f]
          rfl

theorem contactStep_accounting (eng : MigrationEngine)
    (f : CbPayload → Except Unit Unit) (ex : List String) (tot : Nat)
    (dab : Option Collection) (acc : EngineState × Nat) (c : Item) :
    ExactlyOneContactBump acc.1.stats (contactStep eng (some f) ex tot dab acc c).1.stats ∧
    ((contactStep eng (some f) ex tot dab acc c).1.cbs =
      acc.1.cbs ++ [⟨"contacts", acc.2 + 1, tot,
        (contactStep eng (some f) ex tot dab acc c).1.stats.contacts_skipped⟩] ∧
     (contactStep eng (some f) ex tot dab acc c).2 = acc.2 + 1) ∧
    (∀ g, contactStep eng (some f) ex tot dab acc c =
      contactStep eng (some g) ex tot dab acc c) := by
  by_cases h1 : c.fetchFails = true
  · rw [contactStep_eq_fetch eng (some f) ex tot dab acc c h1]
    refine ⟨Or.inr (Or.inr rfl), ⟨rfl, rfl⟩, fun g => ?_⟩
    rw [contactStep_eq_fetch eng (some g) ex tot dab acc c h1]
    rfl
  · have h1f : c.fetchFails = false := Bool.eq_false_iff.mpr h1
    by_cases h2 : dupHit ex c.uid = true
    · rw [contactStep_eq_dup eng (some f) ex tot dab acc c h1f h2]
      refine ⟨Or.inr (Or.inl rfl), ⟨rfl, rfl⟩, fun g => ?_⟩
      rw [contactStep_eq_dup eng (some g) ex tot dab acc c h1f h2]
      rfl
    · have h2f : dupHit ex c.uid = false := Bool.eq_false_iff.mpr h2
      cases dab with
      | none =>
        rw [contactStep_eq_noneDab eng (some f) ex tot acc c h1f h2f]
        refine ⟨Or.inr (Or.inr rfl), ⟨rfl, rfl⟩, fun g => ?_⟩
        rw [contactStep_eq_noneDab eng (some g) ex tot acc c h1f h2f]
        rfl
      | some d =>
        by_cases h4 : c.saveFails = true
        · rw [contactStep_eq_savefail eng (some f) ex tot d acc c h1f h2f h4]
          refine ⟨Or.inr (Or.inr rfl), ⟨rfl, rfl⟩, fun g => ?_⟩
          rw [contactStep_eq_savefail eng (some g) ex tot d acc c h1f h2f h4]
          rfl
        · have h4f : c.saveFails = false := Bool.eq_false_iff.mpr h4
          rw [contactStep_eq_ok eng (some f) ex tot d acc c h1f h2f h4f]
          refine ⟨Or.inl rfl, ⟨rfl, rfl⟩, fun g => ?_⟩
          rw [contactStep_eq_ok eng (some g) ex tot d acc c h1f h2f h4f]
          rfl

set_option maxHeartbeats 1000000 in
/-- C6 counterexample: the claim says every processed item invokes the
progress callback.  For a non-dry-run with `skip_dummy_events = true` and a
single event whose summary is "Dummy", the event is counted in
`events_skipped` (one counter incremented) but the callback is never
invoked and the local `processed` counter is not advanced
(migration.py:259-262 `continue`s before the callback call sites). -/
theorem C6_counterexample :
    let eng : MigrationEngine :=
      { dry_run := false, skip_dummy_events := true,
        selected_calendars := none, selected_addressbooks := none,
        calendar_mapping := [], addressbook_mapping := [], uuid4 := "u-0" }
    let dummyEvent : Item :=
      { data := "BEGIN:VEVENT", uid := some "e1", summary := some "Dummy",
        uidAttr := none, dataUid := none, fetchFails := false, saveFails := false }
    let cal : Collection :=
      { displayname := some "Work", url := "https://src/cal/",
        items := [dummyEvent], itemsFail := false, propsFail := false }
    let dcal : Collection :=
      { displayname := some "Work", url := "https://dst/cal/", items := [],
        itemsFail := false, propsFail := false }
    let dest : DestServer :=
      { calendars := [dcal], addressbooks := [], createCalOk := true,
        newCalUrl := fun n => "https://dst/" ++ n ++ "/", server_type := none }
    (migrate_calendars eng (some fun _ => Except.ok ()) [cal] true
        (EngineState.init dest)).1.cbs = [] ∧
    (migrate_calendars eng (some fun _ => Except.ok ()) [cal] true
        (EngineState.init dest)).1.stats.events_skipped = 1 := by
  intro eng dummyEvent cal dcal dest
  exact ⟨by decide, by decide⟩

/-- C6 amended: in a non-dry-run item loop, every item advances exactly one
of the counters (migrated / skipped / failed — the two skip reasons share
one counter) by one.  The progress callback is invoked with
`{stage, processed, total, skipped}` for the duplicate-skip, migrated and
failed outcomes, but not for the content-filter (dummy) skip, which also
leaves the local `processed` count unchanged; contacts, which have no
content filter, invoke the callback for every item.  The callback's result
— including a raised exception — never influences the engine: the step is
identical for any callback function. -/
theorem C6_per_item_accounting_amended (eng : MigrationEngine)
    (f : CbPayload → Except Unit Unit) (ex : List String) (tot : Nat)
    (url : String) (dab : Option Collection) (acc : EngineState × Nat)
    (e c : Item) :
    (ExactlyOneEventBump acc.1.stats (eventStep eng (some f) ex tot url acc e).1.stats ∧
     (eventFilterSkip eng ex e = false →
       (eventStep eng (some f) ex tot url acc e).1.cbs =
         acc.1.cbs ++ [⟨"calendars", acc.2 + 1, tot,
           (eventStep eng (some f) ex tot url acc e).1.stats.events_skipped⟩] ∧
       (eventStep eng (some f) ex tot url acc e).2 = acc.2 + 1) ∧
     (eventFilterSkip eng ex e = true →
       (eventStep eng (some f) ex tot url acc e).1.cbs = acc.1.cbs ∧
       (eventStep eng (some f) ex tot url acc e).2 = acc.2) ∧
     (∀ g, eventStep eng (some f) ex tot url acc e =
       eventStep eng (some g) ex tot url acc e)) ∧
    (ExactlyOneContactBump acc.1.stats (contactStep eng (some f) ex tot dab acc c).1.stats ∧
     ((contactStep eng (some f) ex tot dab acc c).1.cbs =
       acc.1.cbs ++ [⟨"contacts", acc.2 + 1, tot,
         (contactStep eng (some f) ex tot dab acc c).1.stats.contacts_skipped⟩] ∧
      (contactStep eng (some f) ex tot dab acc c).2 = acc.2 + 1) ∧
     (∀ g, contactStep eng (some f) ex tot dab acc c =
       contactStep eng (some g) ex tot dab acc c)) :=
  ⟨eventStep_accounting eng f ex tot url acc e,
   contactStep_accounting eng f ex tot dab acc c⟩

/-- Witness for the amended C6 at a concrete item and state. -/
theorem C6_per_item_accounting_amended_witness :
    let eng : MigrationEngine :=
      { dry_run := false, skip_dummy_events := false,
        selected_calendars := none, selected_addressbooks := none,
        calendar_mapping := [], addressbook_mapping := [], uuid4 := "u-0" }
    let e : Item :=
      { data := "BEGIN:VEVENT", uid := some "e1", summary := some "Meet",
        uidAttr := none, dataUid := none, fetchFails := false, saveFails := false }
    let dest : DestServer :=
      { calendars := [], addressbooks := [], createCalOk := true,
        newCalUrl := fun n => "https://dst/" ++ n ++ "/", server_type := none }
    let acc : EngineState × Nat := (EngineState.init dest, 0)
    let f : CbPayload → Except Unit Unit := fun _ => Except.error ()
    (ExactlyOneEventBump acc.1.stats (eventStep eng (some f) [] 1 "u" acc e).1.stats ∧
     (eventFilterSkip eng [] e = false →
       (eventStep eng (some f) [] 1 "u" acc e).1.cbs =
         acc.1.cbs ++ [⟨"calendars", acc.2 + 1, 1,
           (eventStep eng (some f) [] 1 "u" acc e).1.stats.events_skipped⟩] ∧
       (eventStep eng (some f) [] 1 "u" acc e).2 = acc.2 + 1) ∧
     (eventFilterSkip eng [] e = true →
       (eventStep eng (some f) [] 1 "u" acc e).1.cbs = acc.1.cbs ∧
       (eventStep eng (some f) [] 1 "u" acc e).2 = acc.2) ∧
     (∀ g, eventStep eng (some f) [] 1 "u" acc e =
       eventStep eng (some g) [] 1 "u" acc e)) ∧
    (ExactlyOneContactBump acc.1.stats (contactStep eng (some f) [] 1 none acc e).1.stats ∧
     ((contactStep eng (some f) [] 1 none acc e).1.cbs =
       acc.1.cbs ++ [⟨"contacts", acc.2 + 1, 1,
         (contactStep eng (some f) [] 1 none acc e).1.stats.contacts_skipped⟩] ∧
      (contactStep eng (some f) [] 1 none acc e).2 = acc.2 + 1) ∧
     (∀ g, contactStep eng (some f) [] 1 none acc e =
       contactStep eng (some g) [] 1 none acc e)) := by
  intro eng e dest acc f
  exact C6_per_item_accounting_amended eng f [] 1 "u" none acc e e

/-! # Claim C2 -/

/-- C2: discovery fallback.  (i) Whenever the native enumeration raises or
returns an empty list — an empty-but-successful result included — both
`get_calendars` and `get_addressbooks` run the raw PROPFIND fallback
against the principal URL (the result is exactly the fallback scan's
result, the empty list when the PROPFIND itself fails).  (ii) For a source
whose native calendar enumeration returns the empty list and whose PROPFIND
multistatus contains exactly one entry carrying a resourcetype with the
CalDAV `calendar` element and a non-empty relative href, `get_calendars`
returns exactly that one collection, its href resolved against the
principal URL with `urljoin`. -/
theorem C2_discovery_fallback
    (native : Except Unit (List CalObj)) (pf : Except Unit (List PFEntry))
    (principal : Option String) (selfUrl : String)
    (urljoin : String → String → String) (en : PFEntry) (h : String)
    (hnative : native = .ok [] ∨ native = .error ())
    (hhref : en.hasHref = true) (htext : en.hrefText = some h)
    (hrt : en.hasResourcetype = true) (hcal : en.isCalendarType = true)
    (hne : (h == "") = false) (hrel : pyStartsWith h "http" = false) :
    (get_calendars native principal selfUrl pf urljoin =
      (match pf with
       | .error _ => []
       | .ok entries =>
          propfindCalendarScan urljoin (principal.getD selfUrl) entries)) ∧
    (get_addressbooks native principal selfUrl pf urljoin =
      (match pf with
       | .error _ => []
       | .ok entries =>
          propfindAddressbookScan urljoin (principal.getD selfUrl) entries)) ∧
    get_calendars native principal selfUrl (.ok [en]) urljoin =
      [⟨some (urljoin (principal.getD selfUrl) h)⟩] := by
  have hscan : propfindCalendarScan urljoin (principal.getD selfUrl) [en] =
      [⟨some (urljoin (principal.getD selfUrl) h)⟩] := by
    simp [propfindCalendarScan, hhref, htext, hrt, hcal, hne, hrel]
    intro he
    subst he
    simp at hne
  rcases hnative with hn | hn <;> subst hn
  · exact ⟨rfl, rfl, hscan⟩
  · exact ⟨rfl, rfl, hscan⟩

/-- Witness for C2 at a concrete empty native result and one-entry
multistatus. -/
theorem C2_discovery_fallback_witness :
    let urljoin : String → String → String := fun base rel => base ++ "!" ++ rel
    let en : PFEntry :=
      { hasHref := true, hrefText := some "/dav/u/cal1/",
        hasResourcetype := true, isCalendarType := true,
        isAddressbookType := false, displayname := some "Cal One" }
    (get_calendars (.ok []) (some "https://h/dav/u/") "https://h"
        (.ok [en]) urljoin =
      (match (Except.ok [en] : Except Unit (List PFEntry)) with
       | .error _ => []
       | .ok entries =>
          propfindCalendarScan urljoin
            ((some "https://h/dav/u/").getD "https://h") entries)) ∧
    (get_addressbooks (.ok []) (some "https://h/dav/u/") "https://h"
        (.ok [en]) urljoin =
      (match (Except.ok [en] : Except Unit (List PFEntry)) with
       | .error _ => []
       | .ok entries =>
          propfindAddressbookScan urljoin
            ((some "https://h/dav/u/").getD "https://h") entries)) ∧
    get_calendars (.ok []) (some "https://h/dav/u/") "https://h"
        (.ok [en]) urljoin =
      [⟨some (urljoin ((some "https://h/dav/u/").getD "https://h") "/dav/u/cal1/")⟩] := by
  intro urljoin en
  exact C2_discovery_fallback (.ok []) (.ok [en]) (some "https://h/dav/u/")
    "https://h" urljoin en "/dav/u/cal1/" (Or.inl rfl) rfl rfl rfl rfl
    (by decide) (by decide)

/-! # Claim C7 -/

/-- The job percentage induced by one callback payload (worker.py:190-192). -/
def cbPct (i : CbPayload) : Nat := pctOf i.stage i.processed i.total

/-- Shape of the callbacks emitted while copying one collection: fixed
stage and total, processed bounded below and nondecreasing. -/
def cbShape (stage : String) (tot : Nat) : Nat → List CbPayload → Prop
  | _, [] => True
  | lo, i :: t =>
      i.stage = stage ∧ i.total = tot ∧ lo ≤ i.processed ∧
      cbShape stage tot i.processed t

theorem cbShape_weaken (stage : String) (tot : Nat) :
    ∀ (l : List CbPayload) (lo hi : Nat), lo ≤ hi →
      cbShape stage tot hi l → cbShape stage tot lo l := by
  intro l
  cases l with
  | nil => intro lo hi _ _; trivial
  | cons i t =>
    intro lo hi hle hshape
    exact ⟨hshape.1, hshape.2.1, le_trans hle hshape.2.2.1, hshape.2.2.2⟩

/-- The percentage list induced by a callback list is nondecreasing, with
lower bound `lo`. -/
def pctsMono : Nat → List CbPayload → Prop
  | _, [] => True
  | lo, i :: t => lo ≤ cbPct i ∧ pctsMono (cbPct i) t

theorem pctsMono_weaken : ∀ (l : List CbPayload) (lo hi : Nat), lo ≤ hi →
    pctsMono hi l → pctsMono lo l := by
  intro l
  cases l with
  | nil => intro lo hi _ _; trivial
  | cons i t => intro lo hi hle hm; exact ⟨le_trans hle hm.1, hm.2⟩

theorem pct_mono (stage : String) (t : Nat) :
    ∀ p q : Nat, p ≤ q → pctOf stage p t ≤ pctOf stage q t := by
  intro p q h
  unfold pctOf
  dsimp only
  split
  · exact Nat.add_le_add_left (Nat.div_le_div_right (Nat.mul_le_mul_left _ h)) _
  · exact le_refl _

theorem pct_base_cal (p t : Nat) : 20 ≤ pctOf "calendars" p t := by
  unfold pctOf
  simp only [beq_self_eq_true, if_true]
  split
  · exact Nat.le_add_right 20 _
  · exact le_refl 20

theorem cbShape_pctsMono (tot : Nat) :
    ∀ (l : List CbPayload) (lo : Nat), cbShape "calendars" tot lo l →
      pctsMono (pctOf "calendars" lo tot) l := by
  intro l
  induction l with
  | nil => intro lo _; trivial
  | cons i t ih =>
    intro lo hshape
    obtain ⟨hs, htot, hlo, hrest⟩ := hshape
    have hpct : cbPct i = pctOf "calendars" i.processed tot := by
      unfold cbPct
      rw [hs, htot]
    constructor
    · rw [hpct]
      exact pct_mono "calendars" tot lo i.processed hlo
    · rw [hpct]
      exact ih i.processed hrest

/-- Sorted list of committed progress values, all bounded by the stored
value. -/
def SortedUpTo (ws : List Nat) (b : Nat) : Prop :=
  List.Chain' (· ≤ ·) ws ∧ ∀ x ∈ ws, x ≤ b

theorem progressStep_sorted (acc : Nat × List Nat) (i : CbPayload)
    (h : SortedUpTo acc.2 acc.1) (hp : acc.1 ≤ cbPct i) :
    SortedUpTo (progressStep acc i).2 (progressStep acc i).1 ∧
    acc.1 ≤ (progressStep acc i).1 ∧
    (progressStep acc i).1 ≤ cbPct i := by
  unfold progressStep
  dsimp only
  split
  · refine ⟨⟨?_, ?_⟩, hp, le_refl _⟩
    · refine List.Chain'.append h.1 (List.chain'_singleton _) ?_
      intro x hx y hy
      simp only [List.head?_cons, Option.mem_some_iff] at hy
      subst hy
      exact le_trans (h.2 x (List.mem_of_mem_getLast? hx)) hp
    · intro x hx
      rcases List.mem_append.mp hx with hx | hx
      · exact le_trans (h.2 x hx) hp
      · simp only [List.mem_singleton] at hx
        subst hx
        exact le_refl _
  · exact ⟨h, le_refl _, hp⟩

theorem progressFold_sorted :
    ∀ (l : List CbPayload) (acc : Nat × List Nat),
      SortedUpTo acc.2 acc.1 → pctsMono acc.1 l →
      SortedUpTo (l.foldl progressStep acc).2 (l.foldl progressStep acc).1 := by
  intro l
  induction l with
  | nil => intro acc h _; exact h
  | cons i t ih =>
    intro acc h hm
    rw [List.foldl_cons]
    have hstep := progressStep_sorted acc i h hm.1
    exact ih _ hstep.1 (pctsMono_weaken t _ _ hstep.2.2 hm.2)

/-- The event loop of one calendar emits callbacks with fixed stage
"calendars", fixed total, and nondecreasing processed values. -/
theorem eventFold_cbShape (eng : MigrationEngine)
    (f : CbPayload → Except Unit Unit) (ex : List String) (tot : Nat)
    (url : String) :
    ∀ (items : List Item) (acc : EngineState × Nat),
      ∃ l, (items.foldl (eventStep eng (some f) ex tot url) acc).1.cbs =
            acc.1.cbs ++ l ∧
          cbShape "calendars" tot (acc.2 + 1) l := by
  intro items
  induction items with
  | nil => intro acc; exact ⟨[], by simp, trivial⟩
  | cons e rest ih =>
    intro acc
    rw [List.foldl_cons]
    by_cases h1 : e.fetchFails = true
    · rw [eventStep_eq_fetch eng (some f) ex tot url acc e h1]
      obtain ⟨l', hcbs, hshape⟩ := ih _
      refine ⟨⟨"calendars", acc.2 + 1, tot,
        (bumpEventsFailed acc.1).stats.events_skipped⟩ :: l', ?_, ?_⟩
      · rw [hcbs]
        simp [invokeCb, bumpEventsFailed, bumpEventsSkipped]
      · exact ⟨rfl, rfl, le_refl _,
          cbShape_weaken "calendars" tot l' _ _ (Nat.le_succ _) hshape⟩
    · have h1f : e.fetchFails = false := Bool.eq_false_iff.mpr h1
      by_cases h2 : dupHit ex e.uid = true
      · rw [eventStep_eq_dup eng (some f) ex tot url acc e h1f h2]
        obtain ⟨l', hcbs, hshape⟩ := ih _
        refine ⟨⟨"calendars", acc.2 + 1, tot,
          (bumpEventsSkipped acc.1).stats.events_skipped⟩ :: l', ?_, ?_⟩
        · rw [hcbs]
          simp [invokeCb, bumpEventsFailed, bumpEventsSkipped]
        · exact ⟨rfl, rfl, le_refl _,
            cbShape_weaken "calendars" tot l' _ _ (Nat.le_succ _) hshape⟩
      · have h2f : dupHit ex e.uid = false := Bool.eq_false_iff.mpr h2
        by_cases h3 : (eng.skip_dummy_events && isDummySummary e.summary) = true
        · rw [eventStep_eq_dummy eng (some f) ex tot url acc e h1f h2f h3]
          obtain ⟨l', hcbs, hshape⟩ := ih _
          exact ⟨l', hcbs, hshape⟩
        · have h3f : (eng.skip_dummy_events && isDummySummary e.summary) = false :=
            Bool.eq_false_iff.mpr h3
          by_cases h4 : e.saveFails = true
          · rw [eventStep_eq_savefail eng (some f) ex tot url acc e h1f h2f h3f h4]
            obtain ⟨l', hcbs, hshape⟩ := ih _
            refine ⟨⟨"calendars", acc.2 + 1, tot,
              (bumpEventsFailed acc.1).stats.events_skipped⟩ :: l', ?_, ?_⟩
            · rw [hcbs]
              simp [invokeCb, bumpEventsFailed]
            · exact ⟨rfl, rfl, le_refl _,
                cbShape_weaken "calendars" tot l' _ _ (Nat.le_succ _) hshape⟩
          · have h4f : e.saveFails = false := Bool.eq_false_iff.mpr h4
            rw [eventStep_eq_ok eng (some f) ex tot url acc e h1f h2f h3f h4f]
            obtain ⟨l', hcbs, hshape⟩ := ih _
            refine ⟨⟨"calendars", acc.2 + 1, tot,
              (recordWrite (.saveEvent url e) (bumpEventsMigrated acc.1)).stats.events_skipped⟩ :: l',
              ?_, ?_⟩
            · rw [hcbs]
              simp [invokeCb, recordWrite, bumpEventsMigrated]
            · exact ⟨rfl, rfl, le_refl _,
                cbShape_weaken "calendars" tot l' _ _ (Nat.le_succ _) hshape⟩

set_option maxHeartbeats 1000000 in
/-- C7 counterexample: with two source calendars (one event, then two
events), the worker's progress callback commits the sequence
`[60, 40, 60]` — it is not non-decreasing, and the committed value 40
neither increases the stored percentage (60) nor completes the stage: the
commit condition is `pct != j.progress or processed == total`
(worker.py:199), and the per-collection `processed` counter resets for
every calendar, mapping the second calendar's first event back to 40. -/
theorem C7_counterexample :
    let evA : Item :=
      { data := "E1", uid := some "a1", summary := some "A",
        uidAttr := none, dataUid := none, fetchFails := false, saveFails := false }
    let evB1 : Item :=
      { data := "E2", uid := some "b1", summary := some "B",
        uidAttr := none, dataUid := none, fetchFails := false, saveFails := false }
    let evB2 : Item :=
      { data := "E3", uid := some "b2", summary := some "C",
        uidAttr := none, dataUid := none, fetchFails := false, saveFails := false }
    let calA : Collection :=
      { displayname := some "A", url := "https://s/a/",
        items := [evA], itemsFail := false, propsFail := false }
    let calB : Collection :=
      { displayname := some "B", url := "https://s/b/",
        items := [evB1, evB2], itemsFail := false, propsFail := false }
    let dcalA : Collection :=
      { displayname := some "A", url := "https://d/a/",
        items := [], itemsFail := false, propsFail := false }
    let dcalB : Collection :=
      { displayname := some "B", url := "https://d/b/",
        items := [], itemsFail := false, propsFail := false }
    let dest : DestServer :=
      { calendars := [dcalA, dcalB], addressbooks := [],
        createCalOk := true, newCalUrl := fun n => "https://d/" ++ n ++ "/",
        server_type := none }
    let job : Job :=
      { migrate_calendars := true, migrate_contacts := false,
        create_collections := true, dry_run := false, skip_dummy_events := false,
        selected_calendars := none, selected_addressbooks := none,
        calendar_mapping := [], addressbook_mapping := [] }
    (process_job job true true false false [calA, calB] [] dest "u-0").cbWrites =
      [60, 40, 60] ∧
    ¬ List.Chain' (· ≤ ·)
      (process_job job true true false false [calA, calB] [] dest "u-0").cbWrites := by
  intro evA evB1 evB2 calA calB dcalA dcalB dest job
  have h : (process_job job true true false false [calA, calB] [] dest "u-0").cbWrites =
      [60, 40, 60] := by decide
  refine ⟨h, ?_⟩
  rw [h]
  intro hch
  rw [List.chain'_cons] at hch
  exact absurd hch.1 (by omega)

/-- C7 amended: the stage-to-percentage map is monotone in `processed` for
a fixed stage and total, and for a phase with `0 < total` it reaches the
phase's upper bound (60 for calendars, 90 for contacts) exactly when
`processed = total`.  The sequence of progress values committed by the
worker's callback is non-decreasing over the callbacks of a single
collection (starting from the stored value 20); across multiple
collections in one phase the per-collection `processed` reset can lower the
committed value, and a write is committed whenever the mapped percentage
merely differs from the stored value (or the final item is reached), not
only when it increases. -/
theorem C7_progress_amended (stage : String) (p q t : Nat)
    (eng : MigrationEngine) (f : CbPayload → Except Unit Unit)
    (c dc : Collection) (s : EngineState)
    (hpq : p ≤ q) (ht : 0 < t) (hp : p ≤ t) (hcbs : s.cbs = []) :
    pctOf stage p t ≤ pctOf stage q t ∧
    (pctOf "calendars" p t = 60 ↔ p = t) ∧
    (pctOf "contacts" p t = 90 ↔ p = t) ∧
    List.Chain' (· ≤ ·)
      (((_migrate_calendar_events eng (some f) c dc s).cbs).foldl
        progressStep (20, [])).2 := by
  have hdiv : ∀ r : Nat, 0 < r → (r * p / t = r ↔ p = t) := by
    intro r hr
    constructor
    · intro hd
      refine le_antisymm hp ?_
      have h1 : r ≤ r * p / t := le_of_eq hd.symm
      have h2 : r * t ≤ r * p := (Nat.le_div_iff_mul_le ht).mp h1
      exact Nat.le_of_mul_le_mul_left h2 hr
    · intro hd
      subst hd
      rw [Nat.mul_div_assoc r (Nat.dvd_refl p), Nat.div_self ht, Nat.mul_one]
  have hredCal : pctOf "calendars" p t = if 0 < t then 20 + 40 * p / t else 20 := rfl
  have hredCon : pctOf "contacts" p t = if 0 < t then 60 + 30 * p / t else 60 := rfl
  refine ⟨pct_mono stage t p q hpq, ?_, ?_, ?_⟩
  · rw [hredCal, if_pos ht]
    constructor
    · intro h
      exact (hdiv 40 (by decide)).mp (by omega)
    · intro h
      have := (hdiv 40 (by decide)).mpr h
      omega
  · rw [hredCon, if_pos ht]
    constructor
    · intro h
      exact (hdiv 30 (by decide)).mp (by omega)
    · intro h
      have := (hdiv 30 (by decide)).mpr h
      omega
  · unfold _migrate_calendar_events
    split
    · rw [hcbs]
      exact List.chain'_nil
    · split
      · split
        · rw [hcbs]
          exact List.chain'_nil
        · have hch : List.Chain' (· ≤ ·) ((s.cbs.foldl progressStep (20, [])).2) := by
            rw [hcbs]
            exact List.chain'_nil
          exact hch
      · obtain ⟨l, hl, hshape⟩ := eventFold_cbShape eng f
          (if dc.itemsFail then [] else existingUids dc.items)
          c.items.length dc.url c.items (s, 0)
        rw [hl]
        rw [show (s, 0).1.cbs = s.cbs from rfl, hcbs]
        simp only [List.nil_append]
        have hm : pctsMono (pctOf "calendars" 1 c.items.length) l :=
          cbShape_pctsMono c.items.length l 1 hshape
        have hm20 : pctsMono 20 l :=
          pctsMono_weaken l 20 _ (pct_base_cal 1 c.items.length) hm
        exact (progressFold_sorted l (20, []) ⟨List.chain'_nil, by simp⟩ hm20).1

/-- Witness for the amended C7 at a concrete single-calendar copy. -/
theorem C7_progress_amended_witness :
    let eng : MigrationEngine :=
      { dry_run := false, skip_dummy_events := false,
        selected_calendars := none, selected_addressbooks := none,
        calendar_mapping := [], addressbook_mapping := [], uuid4 := "u-0" }
    let ev : Item :=
      { data := "E1", uid := some "a1", summary := some "A",
        uidAttr := none, dataUid := none, fetchFails := false, saveFails := false }
    let c : Collection :=
      { displayname := some "A", url := "https://s/a/",
        items := [ev], itemsFail := false, propsFail := false }
    let dc : Collection :=
      { displayname := some "A", url := "https://d/a/",
        items := [], itemsFail := false, propsFail := false }
    let dest : DestServer :=
      { calendars := [dc], addressbooks := [], createCalOk := true,
        newCalUrl := fun n => "https://d/" ++ n ++ "/", server_type := none }
    let s := EngineState.init dest
    pctOf "calendars" 1 2 ≤ pctOf "calendars" 2 2 ∧
    (pctOf "calendars" 1 2 = 60 ↔ 1 = 2) ∧
    (pctOf "contacts" 1 2 = 90 ↔ 1 = 2) ∧
    List.Chain' (· ≤ ·)
      (((_migrate_calendar_events eng (some fun _ => Except.ok ()) c dc s).cbs).foldl
        progressStep (20, [])).2 := by
  intro eng ev c dc dest s
  exact C7_progress_amended "calendars" 1 2 2 eng (fun _ => Except.ok ()) c dc s
    (by decide) (by decide) (by decide) rfl


/-! # Claim C5 -/

/-! # Claim C5 -/

/-- The lookup- and enumeration-relevant fields of a destination collection:
everything `get_calendar_by_name` / `get_addressbook_by_name` and the
dedup-set guard consult apart from the item payloads themselves. -/
def shapeC (c : Collection) : Option String × String × Bool × Bool :=
  (c.displayname, c.url, c.propsFail, c.itemsFail)

/-- The UID dedup set visible under a collection name: what the item loops
would build as `existing_uids` after the by-name lookup
(migration.py:218-228, 580-590). -/
def colUids (cols : List Collection) (n : String) : List String :=
  match findByName cols n with
  | some dc => existingUids dc.items
  | none => []

/-- Python-truthy extractable UID. -/
def hasGoodUid (e : Item) : Bool :=
  match e.uid with
  | some u => !(u == "")
  | none => false

/-- A well-behaved source item: payload fetch and save succeed and the
extracted UID is truthy. -/
def itemOkSrc (e : Item) : Bool :=
  !e.fetchFails && !e.saveFails && hasGoodUid e

/-- A destination item whose UID extraction succeeds and yields a truthy
UID. -/
def itemOkDest (e : Item) : Bool :=
  !e.fetchFails && hasGoodUid e

/-- A well-behaved source collection: properties load, item enumeration
succeeds, and every item is well-behaved. -/
def srcColOk (c : Collection) : Bool :=
  !c.propsFail && !c.itemsFail && c.items.all itemOkSrc

/-- The by-name destination lookup succeeds and the found collection's item
enumeration succeeds. -/
def destFound (cols : List Collection) (n : String) : Bool :=
  match findByName cols n with
  | some dc => !dc.itemsFail
  | none => false

/-- The calendars the phase iterates over after the selection filter
(migration.py:76-101). -/
def selectedCals (eng : MigrationEngine) (src : List Collection) : List Collection :=
  match eng.selected_calendars with
  | none => src
  | some sel =>
      if sel.isEmpty then [] else src.filter fun c => sel.contains (calName c)

/-- The addressbooks the phase iterates over after the selection filter
(migration.py:310-335). -/
def selectedAbs (eng : MigrationEngine) (src : List Collection) : List Collection :=
  match eng.selected_addressbooks with
  | none => src
  | some sel =>
      if sel.isEmpty then [] else src.filter fun c => sel.contains (abName c)

theorem mem_selectedCals (eng : MigrationEngine) (src : List Collection)
    (c : Collection) (h : c ∈ selectedCals eng src) : c ∈ src := by
  unfold selectedCals at h
  split at h
  · exact h
  · split at h
    · simp at h
    · exact (List.mem_filter.mp h).1

theorem mem_selectedAbs (eng : MigrationEngine) (src : List Collection)
    (a : Collection) (h : a ∈ selectedAbs eng src) : a ∈ src := by
  unfold selectedAbs at h
  split at h
  · exact h
  · split at h
    · simp at h
    · exact (List.mem_filter.mp h).1

theorem colUids_eq_some (cols : List Collection) (n : String) (dc : Collection)
    (h : findByName cols n = some dc) :
    colUids cols n = existingUids dc.items := by
  unfold colUids
  rw [h]

theorem colUids_eq_none (cols : List Collection) (n : String)
    (h : findByName cols n = none) : colUids cols n = [] := by
  unfold colUids
  rw [h]

theorem addItemByUrl_shapes (l : List Collection) (url : String) (e : Item) :
    (addItemByUrl l url e).map shapeC = l.map shapeC := by
  induction l with
  | nil => rfl
  | cons c cs ih =>
    unfold addItemByUrl
    by_cases h : (c.url == url) = true
    · rw [if_pos h]
      rfl
    · rw [if_neg h]
      simp only [List.map_cons, ih]

theorem addItemByUrl_urls (l : List Collection) (url : String) (e : Item) :
    (addItemByUrl l url e).map (fun c => c.url) = l.map (fun c => c.url) := by
  induction l with
  | nil => rfl
  | cons c cs ih =>
    unfold addItemByUrl
    by_cases h : (c.url == url) = true
    · rw [if_pos h]
      rfl
    · rw [if_neg h]
      simp only [List.map_cons, ih]

theorem existingUids_append (a b : List Item) :
    existingUids (a ++ b) = existingUids a ++ existingUids b := by
  simp [existingUids, List.filterMap_append]

/-- A destination item without an extractable UID (no UID, or a payload that
cannot be fetched) contributes nothing to the dedup set. -/
theorem existingUids_noUid (items : List Item) (it : Item)
    (h : it.uid = none ∨ it.fetchFails = true) :
    existingUids (items ++ [it]) = existingUids items := by
  rw [existingUids_append]
  rcases h with h | h
  · simp [existingUids, h]
  · simp [existingUids, h]

theorem findByName_cons (c : Collection) (cs : List Collection) (n : String) :
    findByName (c :: cs) n =
      if (!c.propsFail && c.displayname == some n) = true then some c
      else findByName cs n := by
  unfold findByName
  rw [List.find?_cons]
  cases h : (!c.propsFail && c.displayname == some n) with
  | true => simp [h]
  | false => simp [h]

theorem findByName_addItemByUrl (l : List Collection) (url : String) (e : Item)
    (n : String) (hnd : (l.map (fun c => c.url)).Nodup) :
    findByName (addItemByUrl l url e) n =
      (findByName l n).map fun d =>
        if d.url == url then { d with items := d.items ++ [e] } else d := by
  induction l with
  | nil => rfl
  | cons c cs ih =>
    rw [List.map_cons, List.nodup_cons] at hnd
    obtain ⟨hcnot, hnd'⟩ := hnd
    have ihs := ih hnd'
    by_cases hu : (c.url == url) = true
    · have hcu : c.url = url := by simpa using hu
      rw [show addItemByUrl (c :: cs) url e
            = { c with items := c.items ++ [e] } :: cs by
          unfold addItemByUrl
          rw [if_pos hu]]
      rw [findByName_cons, findByName_cons]
      by_cases hm : (!c.propsFail && c.displayname == some n) = true
      · rw [if_pos (by simpa using hm), if_pos hm]
        simp only [Option.map_some']
        rw [if_pos hu]
      · rw [if_neg (by simpa using hm), if_neg hm]
        cases hf : findByName cs n with
        | none => rfl
        | some d =>
          have hd : d ∈ cs := List.mem_of_find?_eq_some hf
          have hdu : (d.url == url) = false := by
            rw [beq_eq_false_iff_ne]
            intro hde
            apply hcnot
            rw [hcu, ← hde]
            exact List.mem_map_of_mem (fun x => x.url) hd
          simp only [Option.map_some']
          rw [if_neg (by simp [hdu])]
    · rw [show addItemByUrl (c :: cs) url e = c :: addItemByUrl cs url e by
          rw [addItemByUrl.eq_2, if_neg hu]]
      rw [findByName_cons, findByName_cons]
      by_cases hm : (!c.propsFail && c.displayname == some n) = true
      · rw [if_pos hm, if_pos hm]
        simp only [Option.map_some']
        rw [if_neg hu]
      · rw [if_neg hm, if_neg hm, ihs]

theorem findByName_shapes (l : List Collection) :
    ∀ (l' : List Collection), l.map shapeC = l'.map shapeC → ∀ (n : String),
      (findByName l n).map shapeC = (findByName l' n).map shapeC := by
  induction l with
  | nil =>
    intro l' h n
    cases l' with
    | nil => rfl
    | cons c cs => simp at h
  | cons c cs ih =>
    intro l' h n
    cases l' with
    | nil => simp at h
    | cons c' cs' =>
      rw [List.map_cons, List.map_cons] at h
      injection h with h1 h2
      have hdn : c.displayname = c'.displayname := congrArg (fun p => p.1) h1
      have hpf : c.propsFail = c'.propsFail := congrArg (fun p => p.2.2.1) h1
      rw [findByName_cons, findByName_cons]
      by_cases hm : (!c.propsFail && c.displayname == some n) = true
      · rw [if_pos hm, if_pos (by rw [← hdn, ← hpf]; exact hm)]
        simp [h1]
      · rw [if_neg hm, if_neg (by rw [← hdn, ← hpf]; exact hm)]
        exact ih cs' h2 n

theorem urls_of_shapes (l l' : List Collection)
    (h : l.map shapeC = l'.map shapeC) :
    l.map (fun c => c.url) = l'.map (fun c => c.url) := by
  have h2 := congrArg
    (List.map (fun p : Option String × String × Bool × Bool => p.2.1)) h
  rw [List.map_map, List.map_map] at h2
  exact h2

theorem destFound_shapes (l l' : List Collection)
    (h : l.map shapeC = l'.map shapeC) (n : String) :
    destFound l n = destFound l' n := by
  have hf := findByName_shapes l l' h n
  unfold destFound
  cases h1 : findByName l n with
  | none =>
    cases h2 : findByName l' n with
    | none => rfl
    | some d =>
      rw [h1, h2] at hf
      simp at hf
  | some d =>
    cases h2 : findByName l' n with
    | none =>
      rw [h1, h2] at hf
      simp at hf
    | some d' =>
      rw [h1, h2] at hf
      simp only [Option.map_some'] at hf
      have hi : d.itemsFail = d'.itemsFail := by
        have := congrArg (fun p : Option String × String × Bool × Bool => p.2.2.2)
          (Option.some.inj hf)
        exact this
      show (!d.itemsFail) = (!d'.itemsFail)
      rw [hi]

/-- Appending an item to the collection at `url` can only grow the dedup set
under any name. -/
theorem colUids_addItem_mono (cols : List Collection) (url : String) (e : Item)
    (hnd : (cols.map (fun c => c.url)).Nodup) (m : String) :
    ∀ u ∈ colUids cols m, u ∈ colUids (addItemByUrl cols url e) m := by
  intro u hu
  have hfa := findByName_addItemByUrl cols url e m hnd
  cases hf : findByName cols m with
  | none =>
    rw [colUids_eq_none cols m hf] at hu
    simp at hu
  | some dc =>
    rw [colUids_eq_some cols m dc hf] at hu
    rw [hf] at hfa
    simp only [Option.map_some'] at hfa
    by_cases hdu : (dc.url == url) = true
    · rw [if_pos hdu] at hfa
      rw [colUids_eq_some _ m _ hfa, existingUids_append]
      exact List.mem_append_left _ hu
    · rw [if_neg hdu] at hfa
      rw [colUids_eq_some _ m _ hfa]
      exact hu

/-- After writing an item into the collection found under `n`, its UID is in
the dedup set under `n`. -/
theorem colUids_addItem_self (cols : List Collection) (e : Item) (n : String)
    (dc : Collection) (hnd : (cols.map (fun c => c.url)).Nodup)
    (hf : findByName cols n = some dc) (hfe : e.fetchFails = false)
    (u : String) (hu : e.uid = some u) :
    u ∈ colUids (addItemByUrl cols dc.url e) n := by
  have hfa := findByName_addItemByUrl cols dc.url e n hnd
  rw [hf] at hfa
  simp only [Option.map_some'] at hfa
  rw [if_pos (beq_self_eq_true dc.url)] at hfa
  rw [colUids_eq_some _ n _ hfa, existingUids_append]
  apply List.mem_append_right
  simp [existingUids, hfe, hu]

theorem invokeCb_dest (cb : Option (CbPayload → Except Unit Unit))
    (i : CbPayload) (s : EngineState) : (invokeCb cb i s).dest = s.dest := by
  cases cb <;> rfl

theorem invokeCb_stats (cb : Option (CbPayload → Except Unit Unit))
    (i : CbPayload) (s : EngineState) : (invokeCb cb i s).stats = s.stats := by
  cases cb <;> rfl

theorem invokeCb_writes (cb : Option (CbPayload → Except Unit Unit))
    (i : CbPayload) (s : EngineState) : (invokeCb cb i s).writes = s.writes := by
  cases cb <;> rfl

/-- First-run behaviour of the event loop: the destination keeps its
collection shapes, addressbooks are untouched, dedup sets only grow, and
after the loop every processed item is either content-filtered, a duplicate
of the snapshot dedup set, or present in the dedup set under the target
name. -/
theorem eventFold_run1 (eng : MigrationEngine)
    (cb : Option (CbPayload → Except Unit Unit)) (ex : List String)
    (tot : Nat) (url n : String) :
    ∀ (items : List Item) (acc : EngineState × Nat),
      (∀ e ∈ items, e.fetchFails = false ∧ e.saveFails = false ∧
        hasGoodUid e = true) →
      ((acc.1.dest.calendars.map (fun c => c.url)).Nodup) →
      (∃ dc, findByName acc.1.dest.calendars n = some dc ∧ dc.url = url) →
      ((items.foldl (eventStep eng cb ex tot url) acc).1.dest.calendars.map shapeC
          = acc.1.dest.calendars.map shapeC) ∧
      (items.foldl (eventStep eng cb ex tot url) acc).1.dest.addressbooks
          = acc.1.dest.addressbooks ∧
      (∀ m, ∀ u ∈ colUids acc.1.dest.calendars m,
        u ∈ colUids (items.foldl (eventStep eng cb ex tot url) acc).1.dest.calendars m) ∧
      ∀ e ∈ items,
        (eng.skip_dummy_events && isDummySummary e.summary) = true ∨
        dupHit ex e.uid = true ∨
        (∃ u, e.uid = some u ∧
          u ∈ colUids (items.foldl (eventStep eng cb ex tot url) acc).1.dest.calendars n) := by
  intro items
  induction items with
  | nil =>
    intro acc hok hnd hf
    exact ⟨rfl, rfl, fun m u hu => hu, fun e he => absurd he (List.not_mem_nil e)⟩
  | cons e rest ih =>
    intro acc hok hnd hf
    obtain ⟨h1, h4, hg⟩ := hok e (List.mem_cons_self e rest)
    have hokr : ∀ x ∈ rest, x.fetchFails = false ∧ x.saveFails = false ∧
        hasGoodUid x = true := fun x hx => hok x (List.mem_cons_of_mem e hx)
    rw [List.foldl_cons]
    by_cases h2 : dupHit ex e.uid = true
    · have hstep := eventStep_eq_dup eng cb ex tot url acc e h1 h2
      have hdest : (eventStep eng cb ex tot url acc e).1.dest = acc.1.dest := by
        rw [hstep]
        exact invokeCb_dest cb _ _
      obtain ⟨i1, i2, i3, i4⟩ := ih (eventStep eng cb ex tot url acc e)
        hokr (by rw [hdest]; exact hnd) (by rw [hdest]; exact hf)
      rw [hdest] at i1 i2 i3
      refine ⟨i1, i2, i3, fun x hx => ?_⟩
      rcases List.mem_cons.mp hx with hxe | hxr
      · subst hxe
        exact Or.inr (Or.inl h2)
      · exact i4 x hxr
    · have h2f : dupHit ex e.uid = false := Bool.eq_false_iff.mpr h2
      by_cases h3 : (eng.skip_dummy_events && isDummySummary e.summary) = true
      · have hstep := eventStep_eq_dummy eng cb ex tot url acc e h1 h2f h3
        have hdest : (eventStep eng cb ex tot url acc e).1.dest = acc.1.dest := by
          rw [hstep]
          rfl
        obtain ⟨i1, i2, i3, i4⟩ := ih (eventStep eng cb ex tot url acc e)
          hokr (by rw [hdest]; exact hnd) (by rw [hdest]; exact hf)
        rw [hdest] at i1 i2 i3
        refine ⟨i1, i2, i3, fun x hx => ?_⟩
        rcases List.mem_cons.mp hx with hxe | hxr
        · subst hxe
          exact Or.inl h3
        · exact i4 x hxr
      · have h3f : (eng.skip_dummy_events && isDummySummary e.summary) = false :=
          Bool.eq_false_iff.mpr h3
        have hstep := eventStep_eq_ok eng cb ex tot url acc e h1 h2f h3f h4
        obtain ⟨dc, hfdc, hdcu⟩ := hf
        have hdest : (eventStep eng cb ex tot url acc e).1.dest =
            applyWrite acc.1.dest (.saveEvent url e) := by
          rw [hstep]
          rw [invokeCb_dest]
          rfl
        have hcal : (eventStep eng cb ex tot url acc e).1.dest.calendars =
            addItemByUrl acc.1.dest.calendars url e := by
          rw [hdest]
          rfl
        have hab : (eventStep eng cb ex tot url acc e).1.dest.addressbooks =
            acc.1.dest.addressbooks := by
          rw [hdest]
          rfl
        have hnd' : ((eventStep eng cb ex tot url acc e).1.dest.calendars.map
            (fun c => c.url)).Nodup := by
          rw [hcal, addItemByUrl_urls]
          exact hnd
        have hfa : findByName (addItemByUrl acc.1.dest.calendars url e) n =
            some { dc with items := dc.items ++ [e] } := by
          rw [findByName_addItemByUrl _ _ _ _ hnd, hfdc]
          simp only [Option.map_some']
          rw [if_pos (by rw [hdcu]; exact beq_self_eq_true url)]
        have hf' : ∃ dc2, findByName (eventStep eng cb ex tot url acc e).1.dest.calendars n
            = some dc2 ∧ dc2.url = url := by
          refine ⟨{ dc with items := dc.items ++ [e] }, ?_, hdcu⟩
          rw [hcal]
          exact hfa
        obtain ⟨i1, i2, i3, i4⟩ := ih (eventStep eng cb ex tot url acc e) hokr hnd' hf'
        have hmono : ∀ m, ∀ u ∈ colUids acc.1.dest.calendars m,
            u ∈ colUids (eventStep eng cb ex tot url acc e).1.dest.calendars m := by
          intro m u hu
          rw [hcal]
          exact colUids_addItem_mono acc.1.dest.calendars url e hnd m u hu
        refine ⟨?_, ?_, ?_, fun x hx => ?_⟩
        · rw [i1, hcal, addItemByUrl_shapes]
        · rw [i2, hab]
        · intro m u hu
          exact i3 m u (hmono m u hu)
        · rcases List.mem_cons.mp hx with hxe | hxr
          · subst hxe
            obtain ⟨u, hu⟩ : ∃ u, x.uid = some u := by
              unfold hasGoodUid at hg
              cases hxu : x.uid with
              | none => rw [hxu] at hg; exact absurd hg (by simp)
              | some u => exact ⟨u, rfl⟩
            refine Or.inr (Or.inr ⟨u, hu, ?_⟩)
            apply i3 n u
            rw [hcal, ← hdcu]
            exact colUids_addItem_self acc.1.dest.calendars x n dc hnd hfdc h1 u hu
          · exact i4 x hxr

theorem destFound_elim (cols : List Collection) (n : String)
    (h : destFound cols n = true) :
    ∃ dc, findByName cols n = some dc ∧ dc.itemsFail = false := by
  unfold destFound at h
  split at h
  · rename_i dc heq
    exact ⟨dc, heq, by simpa using h⟩
  · simp at h

theorem srcColOk_elim (c : Collection) (h : srcColOk c = true) :
    c.propsFail = false ∧ c.itemsFail = false ∧
    ∀ e ∈ c.items, e.fetchFails = false ∧ e.saveFails = false ∧
      hasGoodUid e = true := by
  simp only [srcColOk, Bool.and_eq_true, Bool.not_eq_true', List.all_eq_true] at h
  obtain ⟨⟨hp, hi⟩, hall⟩ := h
  refine ⟨hp, hi, fun e he => ?_⟩
  have h2 := hall e he
  simp only [itemOkSrc, Bool.and_eq_true, Bool.not_eq_true'] at h2
  exact ⟨h2.1.1, h2.1.2, h2.2⟩

/-- First-run behaviour of one calendar-loop body under a well-behaved
source calendar and a present destination calendar: shapes are preserved,
addressbooks untouched, dedup sets grow, and afterwards every source item is
either content-filtered or its UID is in the dedup set under the mapped
name. -/
theorem processCalendar_run1 (eng : MigrationEngine)
    (cb : Option (CbPayload → Except Unit Unit)) (ci : Bool)
    (s : EngineState) (c : Collection)
    (hdry : eng.dry_run = false)
    (hsrc : srcColOk c = true)
    (hnd : (s.dest.calendars.map (fun x => x.url)).Nodup)
    (hdf : destFound s.dest.calendars
      (dictGet eng.calendar_mapping (calName c)) = true) :
    ((processCalendar eng cb ci s c).dest.calendars.map shapeC
        = s.dest.calendars.map shapeC) ∧
    (processCalendar eng cb ci s c).dest.addressbooks = s.dest.addressbooks ∧
    (∀ m, ∀ u ∈ colUids s.dest.calendars m,
      u ∈ colUids (processCalendar eng cb ci s c).dest.calendars m) ∧
    ∀ e ∈ c.items,
      (eng.skip_dummy_events && isDummySummary e.summary) = true ∨
      ∃ u, e.uid = some u ∧
        u ∈ colUids (processCalendar eng cb ci s c).dest.calendars
          (dictGet eng.calendar_mapping (calName c)) := by
  obtain ⟨hp, hi, hall⟩ := srcColOk_elim c hsrc
  obtain ⟨dc, hfdc, hdcF⟩ := destFound_elim _ _ hdf
  have hpc : processCalendar eng cb ci s c =
      bumpCalendarsMigrated (_migrate_calendar_events eng cb c dc
        { s with
            processedCal := s.processedCal ++ [calName c]
            lookupsCal := s.lookupsCal ++
              [dictGet eng.calendar_mapping (calName c)] }) := by
    unfold processCalendar
    rw [if_neg (by simp [hp])]
    dsimp only
    simp only [hfdc]
  have hmce : _migrate_calendar_events eng cb c dc
      { s with
          processedCal := s.processedCal ++ [calName c]
          lookupsCal := s.lookupsCal ++
            [dictGet eng.calendar_mapping (calName c)] } =
      (c.items.foldl
        (eventStep eng cb (existingUids dc.items) c.items.length dc.url)
        ({ s with
            processedCal := s.processedCal ++ [calName c]
            lookupsCal := s.lookupsCal ++
              [dictGet eng.calendar_mapping (calName c)] }, 0)).1 := by
    unfold _migrate_calendar_events
    rw [if_neg (by simp [hi])]
    dsimp only
    rw [if_neg (by simp [hdry])]
    rw [if_neg (by simp [hdcF])]
  obtain ⟨i1, i2, i3, i4⟩ := eventFold_run1 eng cb (existingUids dc.items)
    c.items.length dc.url (dictGet eng.calendar_mapping (calName c)) c.items
    ({ s with
        processedCal := s.processedCal ++ [calName c]
        lookupsCal := s.lookupsCal ++
          [dictGet eng.calendar_mapping (calName c)] }, 0)
    hall (by exact hnd) ⟨dc, by exact hfdc, rfl⟩
  have hexcol : existingUids dc.items =
      colUids s.dest.calendars (dictGet eng.calendar_mapping (calName c)) :=
    (colUids_eq_some _ _ _ hfdc).symm
  rw [hpc, hmce]
  refine ⟨by exact i1, by exact i2, fun m u hu => by exact i3 m u hu,
    fun e he => ?_⟩
  rcases i4 e he with hd | hdup | hcov
  · exact Or.inl hd
  · cases hue : e.uid with
    | none =>
      rw [hue] at hdup
      simp [dupHit] at hdup
    | some u =>
      rw [hue] at hdup
      simp only [dupHit, Bool.and_eq_true] at hdup
      have hmem : u ∈ existingUids dc.items := by simpa using hdup.2
      refine Or.inr ⟨u, rfl, ?_⟩
      have hms : u ∈ colUids s.dest.calendars
          (dictGet eng.calendar_mapping (calName c)) := hexcol ▸ hmem
      exact i3 _ u hms
  · obtain ⟨u, hu, hmem⟩ := hcov
    exact Or.inr ⟨u, hu, by exact hmem⟩

/-- First-run behaviour of the whole calendar loop. -/
theorem calFold_run1 (eng : MigrationEngine)
    (cb : Option (CbPayload → Except Unit Unit)) (ci : Bool)
    (hdry : eng.dry_run = false) :
    ∀ (cols : List Collection) (s : EngineState),
      (∀ c ∈ cols, srcColOk c = true) →
      ((s.dest.calendars.map (fun x => x.url)).Nodup) →
      (∀ c ∈ cols, destFound s.dest.calendars
        (dictGet eng.calendar_mapping (calName c)) = true) →
      ((cols.foldl (processCalendar eng cb ci) s).dest.calendars.map shapeC
          = s.dest.calendars.map shapeC) ∧
      (cols.foldl (processCalendar eng cb ci) s).dest.addressbooks
          = s.dest.addressbooks ∧
      (∀ m, ∀ u ∈ colUids s.dest.calendars m,
        u ∈ colUids (cols.foldl (processCalendar eng cb ci) s).dest.calendars m) ∧
      ∀ c ∈ cols, ∀ e ∈ c.items,
        (eng.skip_dummy_events && isDummySummary e.summary) = true ∨
        ∃ u, e.uid = some u ∧
          u ∈ colUids (cols.foldl (processCalendar eng cb ci) s).dest.calendars
            (dictGet eng.calendar_mapping (calName c)) := by
  intro cols
  induction cols with
  | nil =>
    intro s hsrc hnd hdf
    exact ⟨rfl, rfl, fun m u hu => hu, fun c hc => absurd hc (List.not_mem_nil c)⟩
  | cons c cs ih =>
    intro s hsrc hnd hdf
    rw [List.foldl_cons]
    obtain ⟨p1, p2, p3, p4⟩ := processCalendar_run1 eng cb ci s c hdry
      (hsrc c (List.mem_cons_self c cs)) hnd (hdf c (List.mem_cons_self c cs))
    have hnd' : ((processCalendar eng cb ci s c).dest.calendars.map
        (fun x => x.url)).Nodup := by
      rw [urls_of_shapes _ _ p1]
      exact hnd
    have hdf' : ∀ x ∈ cs, destFound (processCalendar eng cb ci s c).dest.calendars
        (dictGet eng.calendar_mapping (calName x)) = true := by
      intro x hx
      rw [destFound_shapes _ _ p1]
      exact hdf x (List.mem_cons_of_mem c hx)
    obtain ⟨i1, i2, i3, i4⟩ := ih (processCalendar eng cb ci s c)
      (fun x hx => hsrc x (List.mem_cons_of_mem c hx)) hnd' hdf'
    refine ⟨by rw [i1, p1], by rw [i2, p2], fun m u hu => i3 m u (p3 m u hu),
      fun x hx e he => ?_⟩
    rcases List.mem_cons.mp hx with hxc | hxcs
    · subst hxc
      rcases p4 e he with hd | ⟨u, hu, hmem⟩
      · exact Or.inl hd
      · exact Or.inr ⟨u, hu, i3 _ u hmem⟩
    · exact i4 x hxcs e he

/-- First-run behaviour of the contact loop: calendars are untouched,
addressbook shapes are preserved, dedup sets only grow, and afterwards every
processed contact is a duplicate of the snapshot set or present in the dedup
set under the target name. -/
theorem contactFold_run1 (eng : MigrationEngine)
    (cb : Option (CbPayload → Except Unit Unit)) (ex : List String)
    (tot : Nat) (d : Collection) (n : String) :
    ∀ (items : List Item) (acc : EngineState × Nat),
      (∀ c ∈ items, c.fetchFails = false ∧ c.saveFails = false ∧
        hasGoodUid c = true) →
      ((acc.1.dest.addressbooks.map (fun x => x.url)).Nodup) →
      (∃ da, findByName acc.1.dest.addressbooks n = some da ∧ da.url = d.url) →
      ((items.foldl (contactStep eng cb ex tot (some d)) acc).1.dest.addressbooks.map shapeC
          = acc.1.dest.addressbooks.map shapeC) ∧
      (items.foldl (contactStep eng cb ex tot (some d)) acc).1.dest.calendars
          = acc.1.dest.calendars ∧
      (∀ m, ∀ u ∈ colUids acc.1.dest.addressbooks m,
        u ∈ colUids (items.foldl (contactStep eng cb ex tot (some d)) acc).1.dest.addressbooks m) ∧
      ∀ c ∈ items,
        dupHit ex c.uid = true ∨
        (∃ u, c.uid = some u ∧
          u ∈ colUids (items.foldl (contactStep eng cb ex tot (some d)) acc).1.dest.addressbooks n) := by
  intro items
  induction items with
  | nil =>
    intro acc hok hnd hf
    exact ⟨rfl, rfl, fun m u hu => hu, fun c hc => absurd hc (List.not_mem_nil c)⟩
  | cons c rest ih =>
    intro acc hok hnd hf
    obtain ⟨h1, h4, hg⟩ := hok c (List.mem_cons_self c rest)
    have hokr : ∀ x ∈ rest, x.fetchFails = false ∧ x.saveFails = false ∧
        hasGoodUid x = true := fun x hx => hok x (List.mem_cons_of_mem c hx)
    rw [List.foldl_cons]
    by_cases h2 : dupHit ex c.uid = true
    · have hstep := contactStep_eq_dup eng cb ex tot (some d) acc c h1 h2
      have hdest : (contactStep eng cb ex tot (some d) acc c).1.dest = acc.1.dest := by
        rw [hstep]
        exact invokeCb_dest cb _ _
      obtain ⟨i1, i2, i3, i4⟩ := ih (contactStep eng cb ex tot (some d) acc c)
        hokr (by rw [hdest]; exact hnd) (by rw [hdest]; exact hf)
      rw [hdest] at i1 i2 i3
      refine ⟨i1, i2, i3, fun x hx => ?_⟩
      rcases List.mem_cons.mp hx with hxe | hxr
      · subst hxe
        exact Or.inl h2
      · exact i4 x hxr
    · have h2f : dupHit ex c.uid = false := Bool.eq_false_iff.mpr h2
      have hstep := contactStep_eq_ok eng cb ex tot d acc c h1 h2f h4
      obtain ⟨da, hfda, hdau⟩ := hf
      have hdest : (contactStep eng cb ex tot (some d) acc c).1.dest =
          applyWrite acc.1.dest (.putContact d.url
            (vcardPutUrl d.url (safeUid (contactPutUid eng c))) c) := by
        rw [hstep]
        rw [invokeCb_dest]
        rfl
      have hab : (contactStep eng cb ex tot (some d) acc c).1.dest.addressbooks =
          addItemByUrl acc.1.dest.addressbooks d.url c := by
        rw [hdest]
        rfl
      have hcal : (contactStep eng cb ex tot (some d) acc c).1.dest.calendars =
          acc.1.dest.calendars := by
        rw [hdest]
        rfl
      have hnd' : ((contactStep eng cb ex tot (some d) acc c).1.dest.addressbooks.map
          (fun x => x.url)).Nodup := by
        rw [hab, addItemByUrl_urls]
        exact hnd
      have hfa : findByName (addItemByUrl acc.1.dest.addressbooks d.url c) n =
          some { da with items := da.items ++ [c] } := by
        rw [findByName_addItemByUrl _ _ _ _ hnd, hfda]
        simp only [Option.map_some']
        rw [if_pos (by rw [hdau]; exact beq_self_eq_true d.url)]
      have hf' : ∃ da2,
          findByName (contactStep eng cb ex tot (some d) acc c).1.dest.addressbooks n
            = some da2 ∧ da2.url = d.url := by
        refine ⟨{ da with items := da.items ++ [c] }, ?_, hdau⟩
        rw [hab]
        exact hfa
      obtain ⟨i1, i2, i3, i4⟩ := ih (contactStep eng cb ex tot (some d) acc c)
        hokr hnd' hf'
      have hmono : ∀ m, ∀ u ∈ colUids acc.1.dest.addressbooks m,
          u ∈ colUids (contactStep eng cb ex tot (some d) acc c).1.dest.addressbooks m := by
        intro m u hu
        rw [hab]
        exact colUids_addItem_mono acc.1.dest.addressbooks d.url c hnd m u hu
      refine ⟨?_, ?_, ?_, fun x hx => ?_⟩
      · rw [i1, hab, addItemByUrl_shapes]
      · rw [i2, hcal]
      · intro m u hu
        exact i3 m u (hmono m u hu)
      · rcases List.mem_cons.mp hx with hxe | hxr
        · subst hxe
          obtain ⟨u, hu⟩ : ∃ u, x.uid = some u := by
            unfold hasGoodUid at hg
            cases hxu : x.uid with
            | none => rw [hxu] at hg; exact absurd hg (by simp)
            | some u => exact ⟨u, rfl⟩
          refine Or.inr ⟨u, hu, ?_⟩
          apply i3 n u
          rw [hab, ← hdau]
          exact colUids_addItem_self acc.1.dest.addressbooks x n da hnd hfda h1 u hu
        · exact i4 x hxr

/-- First-run behaviour of one addressbook-loop body. -/
theorem processAddressbook_run1 (eng : MigrationEngine)
    (cb : Option (CbPayload → Except Unit Unit)) (ci : Bool)
    (s : EngineState) (ab : Collection)
    (hdry : eng.dry_run = false)
    (hsrc : srcColOk ab = true)
    (hnd : (s.dest.addressbooks.map (fun x => x.url)).Nodup)
    (hdf : destFound s.dest.addressbooks
      (dictGet eng.addressbook_mapping (abName ab)) = true) :
    ((processAddressbook eng cb ci s ab).dest.addressbooks.map shapeC
        = s.dest.addressbooks.map shapeC) ∧
    (processAddressbook eng cb ci s ab).dest.calendars = s.dest.calendars ∧
    (∀ m, ∀ u ∈ colUids s.dest.addressbooks m,
      u ∈ colUids (processAddressbook eng cb ci s ab).dest.addressbooks m) ∧
    ∀ c ∈ ab.items,
      ∃ u, c.uid = some u ∧
        u ∈ colUids (processAddressbook eng cb ci s ab).dest.addressbooks
          (dictGet eng.addressbook_mapping (abName ab)) := by
  obtain ⟨hp, hi, hall⟩ := srcColOk_elim ab hsrc
  obtain ⟨da, hfda, hdaF⟩ := destFound_elim _ _ hdf
  have hpa : processAddressbook eng cb ci s ab =
      bumpAbMigrated (_migrate_addressbook_contacts eng cb ab (some da)
        { s with
            processedAb := s.processedAb ++ [abName ab]
            lookupsAb := s.lookupsAb ++
              [dictGet eng.addressbook_mapping (abName ab)] }) := by
    unfold processAddressbook
    rw [if_neg (by simp [hp])]
    dsimp only
    simp only [hfda]
  have hmac : _migrate_addressbook_contacts eng cb ab (some da)
      { s with
          processedAb := s.processedAb ++ [abName ab]
          lookupsAb := s.lookupsAb ++
            [dictGet eng.addressbook_mapping (abName ab)] } =
      (ab.items.foldl
        (contactStep eng cb (existingUids da.items) ab.items.length (some da))
        ({ s with
            processedAb := s.processedAb ++ [abName ab]
            lookupsAb := s.lookupsAb ++
              [dictGet eng.addressbook_mapping (abName ab)] }, 0)).1 := by
    unfold _migrate_addressbook_contacts
    dsimp only
    rw [hi, hdry, hdaF]
    simp only [Bool.false_eq_true, ite_false]
  obtain ⟨i1, i2, i3, i4⟩ := contactFold_run1 eng cb (existingUids da.items)
    ab.items.length da (dictGet eng.addressbook_mapping (abName ab)) ab.items
    ({ s with
        processedAb := s.processedAb ++ [abName ab]
        lookupsAb := s.lookupsAb ++
          [dictGet eng.addressbook_mapping (abName ab)] }, 0)
    hall (by exact hnd) ⟨da, by exact hfda, rfl⟩
  have hexcol : existingUids da.items =
      colUids s.dest.addressbooks (dictGet eng.addressbook_mapping (abName ab)) :=
    (colUids_eq_some _ _ _ hfda).symm
  rw [hpa, hmac]
  refine ⟨by exact i1, by exact i2, fun m u hu => by exact i3 m u hu,
    fun c hc => ?_⟩
  rcases i4 c hc with hdup | hcov
  · cases hue : c.uid with
    | none =>
      rw [hue] at hdup
      simp [dupHit] at hdup
    | some u =>
      rw [hue] at hdup
      simp only [dupHit, Bool.and_eq_true] at hdup
      have hmem : u ∈ existingUids da.items := by simpa using hdup.2
      refine ⟨u, rfl, ?_⟩
      have hms : u ∈ colUids s.dest.addressbooks
          (dictGet eng.addressbook_mapping (abName ab)) := hexcol ▸ hmem
      exact i3 _ u hms
  · obtain ⟨u, hu, hmem⟩ := hcov
    exact ⟨u, hu, by exact hmem⟩

/-- First-run behaviour of the whole addressbook loop. -/
theorem abFold_run1 (eng : MigrationEngine)
    (cb : Option (CbPayload → Except Unit Unit)) (ci : Bool)
    (hdry : eng.dry_run = false) :
    ∀ (cols : List Collection) (s : EngineState),
      (∀ a ∈ cols, srcColOk a = true) →
      ((s.dest.addressbooks.map (fun x => x.url)).Nodup) →
      (∀ a ∈ cols, destFound s.dest.addressbooks
        (dictGet eng.addressbook_mapping (abName a)) = true) →
      ((cols.foldl (processAddressbook eng cb ci) s).dest.addressbooks.map shapeC
          = s.dest.addressbooks.map shapeC) ∧
      (cols.foldl (processAddressbook eng cb ci) s).dest.calendars
          = s.dest.calendars ∧
      (∀ m, ∀ u ∈ colUids s.dest.addressbooks m,
        u ∈ colUids (cols.foldl (processAddressbook eng cb ci) s).dest.addressbooks m) ∧
      ∀ a ∈ cols, ∀ c ∈ a.items,
        ∃ u, c.uid = some u ∧
          u ∈ colUids (cols.foldl (processAddressbook eng cb ci) s).dest.addressbooks
            (dictGet eng.addressbook_mapping (abName a)) := by
  intro cols
  induction cols with
  | nil =>
    intro s hsrc hnd hdf
    exact ⟨rfl, rfl, fun m u hu => hu, fun a ha => absurd ha (List.not_mem_nil a)⟩
  | cons a as ih =>
    intro s hsrc hnd hdf
    rw [List.foldl_cons]
    obtain ⟨p1, p2, p3, p4⟩ := processAddressbook_run1 eng cb ci s a hdry
      (hsrc a (List.mem_cons_self a as)) hnd (hdf a (List.mem_cons_self a as))
    have hnd' : ((processAddressbook eng cb ci s a).dest.addressbooks.map
        (fun x => x.url)).Nodup := by
      rw [urls_of_shapes _ _ p1]
      exact hnd
    have hdf' : ∀ x ∈ as, destFound (processAddressbook eng cb ci s a).dest.addressbooks
        (dictGet eng.addressbook_mapping (abName x)) = true := by
      intro x hx
      rw [destFound_shapes _ _ p1]
      exact hdf x (List.mem_cons_of_mem a hx)
    obtain ⟨i1, i2, i3, i4⟩ := ih (processAddressbook eng cb ci s a)
      (fun x hx => hsrc x (List.mem_cons_of_mem a hx)) hnd' hdf'
    refine ⟨by rw [i1, p1], by rw [i2, p2], fun m u hu => i3 m u (p3 m u hu),
      fun x hx c hc => ?_⟩
    rcases List.mem_cons.mp hx with hxa | hxas
    · subst hxa
      obtain ⟨u, hu, hmem⟩ := p4 c hc
      exact ⟨u, hu, i3 _ u hmem⟩
    · exact i4 x hxas c hc

/-- Second-run behaviour of the event loop: when every item is a duplicate
of the dedup set or content-filtered, the loop only counts skips — no write,
no destination change, no other counter. -/
theorem eventFold_run2 (eng : MigrationEngine)
    (cb : Option (CbPayload → Except Unit Unit)) (ex : List String)
    (tot : Nat) (url : String) :
    ∀ (items : List Item) (acc : EngineState × Nat),
      (∀ e ∈ items, e.fetchFails = false ∧
        (dupHit ex e.uid = true ∨
          (eng.skip_dummy_events && isDummySummary e.summary) = true)) →
      (items.foldl (eventStep eng cb ex tot url) acc).1.stats =
        { acc.1.stats with
            events_skipped := acc.1.stats.events_skipped + items.length } ∧
      (items.foldl (eventStep eng cb ex tot url) acc).1.writes = acc.1.writes ∧
      (items.foldl (eventStep eng cb ex tot url) acc).1.dest = acc.1.dest := by
  intro items
  induction items with
  | nil =>
    intro acc hok
    exact ⟨rfl, rfl, rfl⟩
  | cons e rest ih =>
    intro acc hok
    obtain ⟨h1, hd⟩ := hok e (List.mem_cons_self e rest)
    have hokr : ∀ x ∈ rest, x.fetchFails = false ∧
        (dupHit ex x.uid = true ∨
          (eng.skip_dummy_events && isDummySummary x.summary) = true) :=
      fun x hx => hok x (List.mem_cons_of_mem e hx)
    rw [List.foldl_cons, List.length_cons]
    have hbranch : (eventStep eng cb ex tot url acc e).1.stats =
        { acc.1.stats with
            events_skipped := acc.1.stats.events_skipped + 1 } ∧
        (eventStep eng cb ex tot url acc e).1.writes = acc.1.writes ∧
        (eventStep eng cb ex tot url acc e).1.dest = acc.1.dest := by
      by_cases h2 : dupHit ex e.uid = true
      · rw [eventStep_eq_dup eng cb ex tot url acc e h1 h2]
        exact ⟨by rw [invokeCb_stats]; rfl, by rw [invokeCb_writes]; rfl,
          by rw [invokeCb_dest]; rfl⟩
      · have h2f : dupHit ex e.uid = false := Bool.eq_false_iff.mpr h2
        have h3 : (eng.skip_dummy_events && isDummySummary e.summary) = true := by
          rcases hd with hdup | hdum
          · exact absurd hdup h2
          · exact hdum
        rw [eventStep_eq_dummy eng cb ex tot url acc e h1 h2f h3]
        exact ⟨rfl, rfl, rfl⟩
    obtain ⟨hb1, hb2, hb3⟩ := hbranch
    obtain ⟨i1, i2, i3⟩ := ih (eventStep eng cb ex tot url acc e) hokr
    refine ⟨?_, by rw [i2, hb2], by rw [i3, hb3]⟩
    rw [i1, hb1]
    show ({ acc.1.stats with
        events_skipped := acc.1.stats.events_skipped + 1 + rest.length }) =
      ({ acc.1.stats with
        events_skipped := acc.1.stats.events_skipped + (rest.length + 1) })
    rw [Nat.add_assoc, Nat.add_comm 1 rest.length]

/-- Second-run behaviour of the contact loop: all duplicates, so only the
skip counter advances. -/
theorem contactFold_run2 (eng : MigrationEngine)
    (cb : Option (CbPayload → Except Unit Unit)) (ex : List String)
    (tot : Nat) (dab : Option Collection) :
    ∀ (items : List Item) (acc : EngineState × Nat),
      (∀ c ∈ items, c.fetchFails = false ∧ dupHit ex c.uid = true) →
      (items.foldl (contactStep eng cb ex tot dab) acc).1.stats =
        { acc.1.stats with
            contacts_skipped := acc.1.stats.contacts_skipped + items.length } ∧
      (items.foldl (contactStep eng cb ex tot dab) acc).1.writes = acc.1.writes ∧
      (items.foldl (contactStep eng cb ex tot dab) acc).1.dest = acc.1.dest := by
  intro items
  induction items with
  | nil =>
    intro acc hok
    exact ⟨rfl, rfl, rfl⟩
  | cons c rest ih =>
    intro acc hok
    obtain ⟨h1, h2⟩ := hok c (List.mem_cons_self c rest)
    have hokr : ∀ x ∈ rest, x.fetchFails = false ∧ dupHit ex x.uid = true :=
      fun x hx => hok x (List.mem_cons_of_mem c hx)
    rw [List.foldl_cons, List.length_cons]
    have hb : (contactStep eng cb ex tot dab acc c).1.stats =
        { acc.1.stats with
            contacts_skipped := acc.1.stats.contacts_skipped + 1 } ∧
        (contactStep eng cb ex tot dab acc c).1.writes = acc.1.writes ∧
        (contactStep eng cb ex tot dab acc c).1.dest = acc.1.dest := by
      rw [contactStep_eq_dup eng cb ex tot dab acc c h1 h2]
      exact ⟨by rw [invokeCb_stats]; rfl, by rw [invokeCb_writes]; rfl,
          by rw [invokeCb_dest]; rfl⟩
    obtain ⟨hb1, hb2, hb3⟩ := hb
    obtain ⟨i1, i2, i3⟩ := ih (contactStep eng cb ex tot dab acc c) hokr
    refine ⟨?_, by rw [i2, hb2], by rw [i3, hb3]⟩
    rw [i1, hb1]
    show ({ acc.1.stats with
        contacts_skipped := acc.1.stats.contacts_skipped + 1 + rest.length }) =
      ({ acc.1.stats with
        contacts_skipped := acc.1.stats.contacts_skipped + (rest.length + 1) })
    rw [Nat.add_assoc, Nat.add_comm 1 rest.length]

/-- Second-run behaviour of one calendar-loop body: everything already
present, so the calendar is counted migrated, its items all counted skipped,
and nothing is written. -/
theorem processCalendar_run2 (eng : MigrationEngine)
    (cb : Option (CbPayload → Except Unit Unit)) (ci : Bool)
    (s : EngineState) (c : Collection)
    (hdry : eng.dry_run = false)
    (hsrc : srcColOk c = true)
    (hdf : destFound s.dest.calendars
      (dictGet eng.calendar_mapping (calName c)) = true)
    (hcov : ∀ e ∈ c.items,
      (eng.skip_dummy_events && isDummySummary e.summary) = true ∨
      ∃ u, e.uid = some u ∧
        u ∈ colUids s.dest.calendars (dictGet eng.calendar_mapping (calName c))) :
    (processCalendar eng cb ci s c).stats =
      { s.stats with
          calendars_migrated := s.stats.calendars_migrated + 1
          events_skipped := s.stats.events_skipped + c.items.length } ∧
    (processCalendar eng cb ci s c).writes = s.writes ∧
    (processCalendar eng cb ci s c).dest = s.dest := by
  obtain ⟨hp, hi, hall⟩ := srcColOk_elim c hsrc
  obtain ⟨dc, hfdc, hdcF⟩ := destFound_elim _ _ hdf
  have hpc : processCalendar eng cb ci s c =
      bumpCalendarsMigrated (_migrate_calendar_events eng cb c dc
        { s with
            processedCal := s.processedCal ++ [calName c]
            lookupsCal := s.lookupsCal ++
              [dictGet eng.calendar_mapping (calName c)] }) := by
    unfold processCalendar
    rw [if_neg (by simp [hp])]
    dsimp only
    simp only [hfdc]
  have hmce : _migrate_calendar_events eng cb c dc
      { s with
          processedCal := s.processedCal ++ [calName c]
          lookupsCal := s.lookupsCal ++
            [dictGet eng.calendar_mapping (calName c)] } =
      (c.items.foldl
        (eventStep eng cb (existingUids dc.items) c.items.length dc.url)
        ({ s with
            processedCal := s.processedCal ++ [calName c]
            lookupsCal := s.lookupsCal ++
              [dictGet eng.calendar_mapping (calName c)] }, 0)).1 := by
    unfold _migrate_calendar_events
    rw [if_neg (by simp [hi])]
    dsimp only
    rw [if_neg (by simp [hdry])]
    rw [if_neg (by simp [hdcF])]
  have hexcol : existingUids dc.items =
      colUids s.dest.calendars (dictGet eng.calendar_mapping (calName c)) :=
    (colUids_eq_some _ _ _ hfdc).symm
  have hok : ∀ e ∈ c.items, e.fetchFails = false ∧
      (dupHit (existingUids dc.items) e.uid = true ∨
        (eng.skip_dummy_events && isDummySummary e.summary) = true) := by
    intro e he
    obtain ⟨hfe, _, hg⟩ := hall e he
    refine ⟨hfe, ?_⟩
    rcases hcov e he with hdum | ⟨u, hu, hmem⟩
    · exact Or.inr hdum
    · refine Or.inl ?_
      have hgu : (!(u == "")) = true := by
        unfold hasGoodUid at hg
        rw [hu] at hg
        exact hg
      have hcont : (existingUids dc.items).contains u = true := by
        rw [hexcol]
        simpa using hmem
      rw [hu]
      simp only [dupHit]
      rw [Bool.and_eq_true]
      exact ⟨hgu, hcont⟩
  obtain ⟨i1, i2, i3⟩ := eventFold_run2 eng cb (existingUids dc.items)
    c.items.length dc.url c.items
    ({ s with
        processedCal := s.processedCal ++ [calName c]
        lookupsCal := s.lookupsCal ++
          [dictGet eng.calendar_mapping (calName c)] }, 0) hok
  rw [hpc, hmce]
  refine ⟨?_, by exact i2, by exact i3⟩
  show ({ (c.items.foldl
      (eventStep eng cb (existingUids dc.items) c.items.length dc.url)
      ({ s with
          processedCal := s.processedCal ++ [calName c]
          lookupsCal := s.lookupsCal ++
            [dictGet eng.calendar_mapping (calName c)] }, 0)).1.stats with
      calendars_migrated := (c.items.foldl
        (eventStep eng cb (existingUids dc.items) c.items.length dc.url)
        ({ s with
            processedCal := s.processedCal ++ [calName c]
            lookupsCal := s.lookupsCal ++
              [dictGet eng.calendar_mapping (calName c)] }, 0)).1.stats.calendars_migrated + 1 }) =
    ({ s.stats with
        calendars_migrated := s.stats.calendars_migrated + 1
        events_skipped := s.stats.events_skipped + c.items.length })
  rw [i1]

/-- Second-run behaviour of one addressbook-loop body. -/
theorem processAddressbook_run2 (eng : MigrationEngine)
    (cb : Option (CbPayload → Except Unit Unit)) (ci : Bool)
    (s : EngineState) (ab : Collection)
    (hdry : eng.dry_run = false)
    (hsrc : srcColOk ab = true)
    (hdf : destFound s.dest.addressbooks
      (dictGet eng.addressbook_mapping (abName ab)) = true)
    (hcov : ∀ c ∈ ab.items,
      ∃ u, c.uid = some u ∧
        u ∈ colUids s.dest.addressbooks (dictGet eng.addressbook_mapping (abName ab))) :
    (processAddressbook eng cb ci s ab).stats =
      { s.stats with
          addressbooks_migrated := s.stats.addressbooks_migrated + 1
          contacts_skipped := s.stats.contacts_skipped + ab.items.length } ∧
    (processAddressbook eng cb ci s ab).writes = s.writes ∧
    (processAddressbook eng cb ci s ab).dest = s.dest := by
  obtain ⟨hp, hi, hall⟩ := srcColOk_elim ab hsrc
  obtain ⟨da, hfda, hdaF⟩ := destFound_elim _ _ hdf
  have hpa : processAddressbook eng cb ci s ab =
      bumpAbMigrated (_migrate_addressbook_contacts eng cb ab (some da)
        { s with
            processedAb := s.processedAb ++ [abName ab]
            lookupsAb := s.lookupsAb ++
              [dictGet eng.addressbook_mapping (abName ab)] }) := by
    unfold processAddressbook
    rw [if_neg (by simp [hp])]
    dsimp only
    simp only [hfda]
  have hmac : _migrate_addressbook_contacts eng cb ab (some da)
      { s with
          processedAb := s.processedAb ++ [abName ab]
          lookupsAb := s.lookupsAb ++
            [dictGet eng.addressbook_mapping (abName ab)] } =
      (ab.items.foldl
        (contactStep eng cb (existingUids da.items) ab.items.length (some da))
        ({ s with
            processedAb := s.processedAb ++ [abName ab]
            lookupsAb := s.lookupsAb ++
              [dictGet eng.addressbook_mapping (abName ab)] }, 0)).1 := by
    unfold _migrate_addressbook_contacts
    dsimp only
    rw [hi, hdry, hdaF]
    simp only [Bool.false_eq_true, ite_false]
  have hexcol : existingUids da.items =
      colUids s.dest.addressbooks (dictGet eng.addressbook_mapping (abName ab)) :=
    (colUids_eq_some _ _ _ hfda).symm
  have hok : ∀ c ∈ ab.items, c.fetchFails = false ∧
      dupHit (existingUids da.items) c.uid = true := by
    intro c hc
    obtain ⟨hfe, _, hg⟩ := hall c hc
    obtain ⟨u, hu, hmem⟩ := hcov c hc
    refine ⟨hfe, ?_⟩
    have hgu : (!(u == "")) = true := by
      unfold hasGoodUid at hg
      rw [hu] at hg
      exact hg
    have hcont : (existingUids da.items).contains u = true := by
      rw [hexcol]
      simpa using hmem
    rw [hu]
    simp only [dupHit]
    rw [Bool.and_eq_true]
    exact ⟨hgu, hcont⟩
  obtain ⟨i1, i2, i3⟩ := contactFold_run2 eng cb (existingUids da.items)
    ab.items.length (some da) ab.items
    ({ s with
        processedAb := s.processedAb ++ [abName ab]
        lookupsAb := s.lookupsAb ++
          [dictGet eng.addressbook_mapping (abName ab)] }, 0) hok
  rw [hpa, hmac]
  refine ⟨?_, by exact i2, by exact i3⟩
  show ({ (ab.items.foldl
      (contactStep eng cb (existingUids da.items) ab.items.length (some da))
      ({ s with
          processedAb := s.processedAb ++ [abName ab]
          lookupsAb := s.lookupsAb ++
            [dictGet eng.addressbook_mapping (abName ab)] }, 0)).1.stats with
      addressbooks_migrated := (ab.items.foldl
        (contactStep eng cb (existingUids da.items) ab.items.length (some da))
        ({ s with
            processedAb := s.processedAb ++ [abName ab]
            lookupsAb := s.lookupsAb ++
              [dictGet eng.addressbook_mapping (abName ab)] }, 0)).1.stats.addressbooks_migrated + 1 }) =
    ({ s.stats with
        addressbooks_migrated := s.stats.addressbooks_migrated + 1
        contacts_skipped := s.stats.contacts_skipped + ab.items.length })
  rw [i1]

/-- Second-run behaviour of the whole calendar loop. -/
theorem calFold_run2 (eng : MigrationEngine)
    (cb : Option (CbPayload → Except Unit Unit)) (ci : Bool)
    (hdry : eng.dry_run = false) :
    ∀ (cols : List Collection) (s : EngineState),
      (∀ c ∈ cols, srcColOk c = true) →
      (∀ c ∈ cols, destFound s.dest.calendars
        (dictGet eng.calendar_mapping (calName c)) = true) →
      (∀ c ∈ cols, ∀ e ∈ c.items,
        (eng.skip_dummy_events && isDummySummary e.summary) = true ∨
        ∃ u, e.uid = some u ∧
          u ∈ colUids s.dest.calendars (dictGet eng.calendar_mapping (calName c))) →
      (cols.foldl (processCalendar eng cb ci) s).stats =
        { s.stats with
            calendars_migrated := s.stats.calendars_migrated + cols.length
            events_skipped := s.stats.events_skipped +
              ((cols.map (fun x : Collection => x.items.length)).sum) } ∧
      (cols.foldl (processCalendar eng cb ci) s).writes = s.writes ∧
      (cols.foldl (processCalendar eng cb ci) s).dest = s.dest := by
  intro cols
  induction cols with
  | nil =>
    intro s hsrc hdf hcov
    exact ⟨rfl, rfl, rfl⟩
  | cons c cs ih =>
    intro s hsrc hdf hcov
    rw [List.foldl_cons, List.length_cons, List.map_cons, List.sum_cons]
    obtain ⟨p1, p2, p3⟩ := processCalendar_run2 eng cb ci s c hdry
      (hsrc c (List.mem_cons_self c cs)) (hdf c (List.mem_cons_self c cs))
      (hcov c (List.mem_cons_self c cs))
    have hdf' : ∀ x ∈ cs, destFound (processCalendar eng cb ci s c).dest.calendars
        (dictGet eng.calendar_mapping (calName x)) = true := by
      intro x hx
      rw [p3]
      exact hdf x (List.mem_cons_of_mem c hx)
    have hcov' : ∀ x ∈ cs, ∀ e ∈ x.items,
        (eng.skip_dummy_events && isDummySummary e.summary) = true ∨
        ∃ u, e.uid = some u ∧
          u ∈ colUids (processCalendar eng cb ci s c).dest.calendars
            (dictGet eng.calendar_mapping (calName x)) := by
      intro x hx e he
      rw [p3]
      exact hcov x (List.mem_cons_of_mem c hx) e he
    obtain ⟨i1, i2, i3⟩ := ih (processCalendar eng cb ci s c)
      (fun x hx => hsrc x (List.mem_cons_of_mem c hx)) hdf' hcov'
    refine ⟨?_, by rw [i2, p2], by rw [i3, p3]⟩
    rw [i1, p1]
    show ({ s.stats with
        calendars_migrated := s.stats.calendars_migrated + 1 + cs.length
        events_skipped := s.stats.events_skipped + c.items.length +
          ((cs.map (fun x : Collection => x.items.length)).sum) }) =
      ({ s.stats with
        calendars_migrated := s.stats.calendars_migrated + (cs.length + 1)
        events_skipped := s.stats.events_skipped +
          (c.items.length + (cs.map (fun x : Collection => x.items.length)).sum) })
    rw [Nat.add_assoc s.stats.calendars_migrated 1 cs.length,
      Nat.add_comm 1 cs.length,
      Nat.add_assoc s.stats.events_skipped c.items.length
        ((cs.map (fun x : Collection => x.items.length)).sum)]

/-- Second-run behaviour of the whole addressbook loop. -/
theorem abFold_run2 (eng : MigrationEngine)
    (cb : Option (CbPayload → Except Unit Unit)) (ci : Bool)
    (hdry : eng.dry_run = false) :
    ∀ (cols : List Collection) (s : EngineState),
      (∀ a ∈ cols, srcColOk a = true) →
      (∀ a ∈ cols, destFound s.dest.addressbooks
        (dictGet eng.addressbook_mapping (abName a)) = true) →
      (∀ a ∈ cols, ∀ c ∈ a.items,
        ∃ u, c.uid = some u ∧
          u ∈ colUids s.dest.addressbooks (dictGet eng.addressbook_mapping (abName a))) →
      (cols.foldl (processAddressbook eng cb ci) s).stats =
        { s.stats with
            addressbooks_migrated := s.stats.addressbooks_migrated + cols.length
            contacts_skipped := s.stats.contacts_skipped +
              ((cols.map (fun x : Collection => x.items.length)).sum) } ∧
      (cols.foldl (processAddressbook eng cb ci) s).writes = s.writes ∧
      (cols.foldl (processAddressbook eng cb ci) s).dest = s.dest := by
  intro cols
  induction cols with
  | nil =>
    intro s hsrc hdf hcov
    exact ⟨rfl, rfl, rfl⟩
  | cons a as ih =>
    intro s hsrc hdf hcov
    rw [List.foldl_cons, List.length_cons, List.map_cons, List.sum_cons]
    obtain ⟨p1, p2, p3⟩ := processAddressbook_run2 eng cb ci s a hdry
      (hsrc a (List.mem_cons_self a as)) (hdf a (List.mem_cons_self a as))
      (hcov a (List.mem_cons_self a as))
    have hdf' : ∀ x ∈ as, destFound (processAddressbook eng cb ci s a).dest.addressbooks
        (dictGet eng.addressbook_mapping (abName x)) = true := by
      intro x hx
      rw [p3]
      exact hdf x (List.mem_cons_of_mem a hx)
    have hcov' : ∀ x ∈ as, ∀ c ∈ x.items,
        ∃ u, c.uid = some u ∧
          u ∈ colUids (processAddressbook eng cb ci s a).dest.addressbooks
            (dictGet eng.addressbook_mapping (abName x)) := by
      intro x hx c hc
      rw [p3]
      exact hcov x (List.mem_cons_of_mem a hx) c hc
    obtain ⟨i1, i2, i3⟩ := ih (processAddressbook eng cb ci s a)
      (fun x hx => hsrc x (List.mem_cons_of_mem a hx)) hdf' hcov'
    refine ⟨?_, by rw [i2, p2], by rw [i3, p3]⟩
    rw [i1, p1]
    show ({ s.stats with
        addressbooks_migrated := s.stats.addressbooks_migrated + 1 + as.length
        contacts_skipped := s.stats.contacts_skipped + a.items.length +
          ((as.map (fun x : Collection => x.items.length)).sum) }) =
      ({ s.stats with
        addressbooks_migrated := s.stats.addressbooks_migrated + (as.length + 1)
        contacts_skipped := s.stats.contacts_skipped +
          (a.items.length + (as.map (fun x : Collection => x.items.length)).sum) })
    rw [Nat.add_assoc s.stats.addressbooks_migrated 1 as.length,
      Nat.add_comm 1 as.length,
      Nat.add_assoc s.stats.contacts_skipped a.items.length
        ((as.map (fun x : Collection => x.items.length)).sum)]

/-- When no source calendar's `get_properties` raises, `migrate_calendars`
is the selection-filtered fold and never reports an escaped exception. -/
theorem migrate_calendars_eq_fold (eng : MigrationEngine)
    (cb : Option (CbPayload → Except Unit Unit)) (src : List Collection)
    (ci : Bool) (s : EngineState)
    (h : ∀ c ∈ src, c.propsFail = false) :
    migrate_calendars eng cb src ci s =
      ((selectedCals eng src).foldl (processCalendar eng cb ci) s, false) := by
  unfold migrate_calendars selectedCals
  by_cases hs : src.isEmpty = true
  · rw [if_pos hs]
    have hnil : src = [] := by
      cases src with
      | nil => rfl
      | cons a l => simp at hs
    subst hnil
    cases eng.selected_calendars with
    | none => rfl
    | some sel =>
      dsimp only
      by_cases hse : sel.isEmpty = true
      · rw [if_pos hse]
        rfl
      · rw [if_neg hse]
        rfl
  · rw [if_neg hs]
    cases eng.selected_calendars with
    | none => rfl
    | some sel =>
      dsimp only
      by_cases hse : sel.isEmpty = true
      · rw [if_pos hse, if_pos hse]
        rfl
      · rw [if_neg hse, if_neg hse]
        have hany : (src.any fun c => c.propsFail) = false := by
          cases hx : src.any fun c => c.propsFail
          · rfl
          · obtain ⟨x, hxm, hxp⟩ := List.any_eq_true.mp hx
            rw [h x hxm] at hxp
            simp at hxp
        rw [if_neg (by simp [hany])]
        by_cases hfil : (src.filter fun c => sel.contains (calName c)).isEmpty = true
        · rw [if_pos hfil]
          have hfnil : (src.filter fun c => sel.contains (calName c)) = [] := by
            cases hxx : src.filter fun c => sel.contains (calName c) with
            | nil => rfl
            | cons b l => rw [hxx] at hfil; simp at hfil
          rw [hfnil]
          rfl
        · rw [if_neg hfil]

/-- When no source addressbook's `get_properties` raises, `migrate_contacts`
is the selection-filtered fold and never reports an escaped exception. -/
theorem migrate_contacts_eq_fold (eng : MigrationEngine)
    (cb : Option (CbPayload → Except Unit Unit)) (src : List Collection)
    (ci : Bool) (s : EngineState)
    (h : ∀ a ∈ src, a.propsFail = false) :
    migrate_contacts eng cb src ci s =
      ((selectedAbs eng src).foldl (processAddressbook eng cb ci) s, false) := by
  unfold migrate_contacts selectedAbs
  cases eng.selected_addressbooks with
  | none =>
    dsimp only
    by_cases hs : src.isEmpty = true
    · rw [if_pos hs]
      have hnil : src = [] := by
        cases src with
        | nil => rfl
        | cons a l => simp at hs
      subst hnil
      rfl
    · rw [if_neg hs]
  | some sel =>
    dsimp only
    by_cases hse : sel.isEmpty = true
    · rw [if_pos hse, if_pos hse]
      rfl
    · rw [if_neg hse, if_neg hse]
      by_cases hs : src.isEmpty = true
      · rw [if_pos hs]
        have hnil : src = [] := by
          cases src with
          | nil => rfl
          | cons a l => simp at hs
        subst hnil
        rfl
      · rw [if_neg hs]
        have hany : (src.any fun c => c.propsFail) = false := by
          cases hx : src.any fun c => c.propsFail
          · rfl
          · obtain ⟨x, hxm, hxp⟩ := List.any_eq_true.mp hx
            rw [h x hxm] at hxp
            simp at hxp
        rw [if_neg (by simp [hany])]
        by_cases hfil : (src.filter fun c => sel.contains (abName c)).isEmpty = true
        · rw [if_pos hfil]
          have hfnil : (src.filter fun c => sel.contains (abName c)) = [] := by
            cases hxx : src.filter fun c => sel.contains (abName c) with
            | nil => rfl
            | cons b l => rw [hxx] at hfil; simp at hfil
          rw [hfnil]
          rfl
        · rw [if_neg hfil]

/-- Both phases, written as the two selection-filtered folds, when no
selection-filter `get_properties` call raises. -/
theorem runBothPhases_eq (eng : MigrationEngine)
    (cb : Option (CbPayload → Except Unit Unit))
    (srcC srcA : List Collection) (ci : Bool) (dst : DestServer)
    (hC : ∀ c ∈ srcC, c.propsFail = false)
    (hA : ∀ a ∈ srcA, a.propsFail = false) :
    runBothPhases eng cb srcC srcA ci dst =
      ((selectedAbs eng srcA).foldl (processAddressbook eng cb ci)
        ((selectedCals eng srcC).foldl (processCalendar eng cb ci)
          (EngineState.init dst)), false) := by
  unfold runBothPhases
  rw [migrate_calendars_eq_fold eng cb srcC ci _ hC]
  dsimp only
  rw [if_neg (by simp)]
  rw [migrate_contacts_eq_fold eng cb srcA ci _ hA]

/-- The identical job, run a second time against the destination state the
first run produced. -/
def secondRun (eng : MigrationEngine)
    (cb : Option (CbPayload → Except Unit Unit))
    (srcCals srcAbs : List Collection) (ci : Bool) (d0 : DestServer) :
    EngineState × Bool :=
  runBothPhases eng cb srcCals srcAbs ci
    (runBothPhases eng cb srcCals srcAbs ci d0).1.dest

/-- C5: Idempotence via UID deduplication.  For a non-dry-run migration in
which every source item is fetchable, savable and has a truthy extractable
UID, every destination item has a truthy extractable UID, destination
enumeration succeeds (the by-name lookup finds each mapped destination
collection and its item enumeration works, with distinct collection URLs),
running the identical job a second time against the destination produced by
the first run migrates zero new events and zero new contacts: the second run
performs no destination write, leaves the destination unchanged, fails
nothing, and counts every selected source item as skipped.  Moreover a
destination item with no extractable UID (no UID or unfetchable payload)
contributes nothing to the dedup set, so it never causes a duplicate
match. -/
theorem C5_idempotence (eng : MigrationEngine)
    (cb : Option (CbPayload → Except Unit Unit))
    (srcCals srcAbs : List Collection) (ci : Bool) (d0 : DestServer)
    (hdry : eng.dry_run = false)
    (hsrcC : ∀ c ∈ srcCals, srcColOk c = true)
    (hsrcA : ∀ a ∈ srcAbs, srcColOk a = true)
    (hndC : (d0.calendars.map (fun x => x.url)).Nodup)
    (hndA : (d0.addressbooks.map (fun x => x.url)).Nodup)
    (hdfC : ∀ c ∈ srcCals, destFound d0.calendars
      (dictGet eng.calendar_mapping (calName c)) = true)
    (hdfA : ∀ a ∈ srcAbs, destFound d0.addressbooks
      (dictGet eng.addressbook_mapping (abName a)) = true)
    (hduC : ∀ dc ∈ d0.calendars, ∀ e ∈ dc.items, itemOkDest e = true)
    (hduA : ∀ da ∈ d0.addressbooks, ∀ e ∈ da.items, itemOkDest e = true) :
    (secondRun eng cb srcCals srcAbs ci d0).2 = false ∧
    (secondRun eng cb srcCals srcAbs ci d0).1.stats.events_migrated = 0 ∧
    (secondRun eng cb srcCals srcAbs ci d0).1.stats.events_failed = 0 ∧
    (secondRun eng cb srcCals srcAbs ci d0).1.stats.contacts_migrated = 0 ∧
    (secondRun eng cb srcCals srcAbs ci d0).1.stats.contacts_failed = 0 ∧
    (secondRun eng cb srcCals srcAbs ci d0).1.writes = [] ∧
    (secondRun eng cb srcCals srcAbs ci d0).1.dest =
      (runBothPhases eng cb srcCals srcAbs ci d0).1.dest ∧
    (secondRun eng cb srcCals srcAbs ci d0).1.stats.events_skipped =
      ((selectedCals eng srcCals).map (fun x : Collection => x.items.length)).sum ∧
    (secondRun eng cb srcCals srcAbs ci d0).1.stats.contacts_skipped =
      ((selectedAbs eng srcAbs).map (fun x : Collection => x.items.length)).sum ∧
    ∀ (items : List Item) (it : Item), it.uid = none ∨ it.fetchFails = true →
      existingUids (items ++ [it]) = existingUids items := by
  have hpropsC : ∀ c ∈ srcCals, c.propsFail = false :=
    fun c hc => (srcColOk_elim c (hsrcC c hc)).1
  have hpropsA : ∀ a ∈ srcAbs, a.propsFail = false :=
    fun a ha => (srcColOk_elim a (hsrcA a ha)).1
  have hr1 := runBothPhases_eq eng cb srcCals srcAbs ci d0 hpropsC hpropsA
  obtain ⟨c1, c2, c3, c4⟩ := calFold_run1 eng cb ci hdry
    (selectedCals eng srcCals) (EngineState.init d0)
    (fun c hc => hsrcC c (mem_selectedCals eng srcCals c hc))
    (by exact hndC)
    (fun c hc => by exact hdfC c (mem_selectedCals eng srcCals c hc))
  have c1' : ((selectedCals eng srcCals).foldl (processCalendar eng cb ci)
      (EngineState.init d0)).dest.calendars.map shapeC
      = d0.calendars.map shapeC := c1
  have c2' : ((selectedCals eng srcCals).foldl (processCalendar eng cb ci)
      (EngineState.init d0)).dest.addressbooks = d0.addressbooks := c2
  obtain ⟨a1, a2, a3, a4⟩ := abFold_run1 eng cb ci hdry
    (selectedAbs eng srcAbs)
    ((selectedCals eng srcCals).foldl (processCalendar eng cb ci)
      (EngineState.init d0))
    (fun a ha => hsrcA a (mem_selectedAbs eng srcAbs a ha))
    (by rw [c2']; exact hndA)
    (fun a ha => by
      rw [c2']
      exact hdfA a (mem_selectedAbs eng srcAbs a ha))
  have hd1cal : ((selectedAbs eng srcAbs).foldl (processAddressbook eng cb ci)
      ((selectedCals eng srcCals).foldl (processCalendar eng cb ci)
        (EngineState.init d0))).dest.calendars.map shapeC
      = d0.calendars.map shapeC := by
    rw [a2, c1']
  have hd1ab : ((selectedAbs eng srcAbs).foldl (processAddressbook eng cb ci)
      ((selectedCals eng srcCals).foldl (processCalendar eng cb ci)
        (EngineState.init d0))).dest.addressbooks.map shapeC
      = d0.addressbooks.map shapeC := by
    rw [a1, c2']
  have hr2 := runBothPhases_eq eng cb srcCals srcAbs ci
    ((selectedAbs eng srcAbs).foldl (processAddressbook eng cb ci)
      ((selectedCals eng srcCals).foldl (processCalendar eng cb ci)
        (EngineState.init d0))).dest hpropsC hpropsA
  obtain ⟨r1, r2, r3⟩ := calFold_run2 eng cb ci hdry (selectedCals eng srcCals)
    (EngineState.init ((selectedAbs eng srcAbs).foldl (processAddressbook eng cb ci)
      ((selectedCals eng srcCals).foldl (processCalendar eng cb ci)
        (EngineState.init d0))).dest)
    (fun c hc => hsrcC c (mem_selectedCals eng srcCals c hc))
    (fun c hc => by
      show destFound ((selectedAbs eng srcAbs).foldl (processAddressbook eng cb ci)
        ((selectedCals eng srcCals).foldl (processCalendar eng cb ci)
          (EngineState.init d0))).dest.calendars
        (dictGet eng.calendar_mapping (calName c)) = true
      rw [destFound_shapes _ d0.calendars hd1cal]
      exact hdfC c (mem_selectedCals eng srcCals c hc))
    (fun c hc e he => by
      rcases c4 c hc e he with hd | ⟨u, hu, hm⟩
      · exact Or.inl hd
      · refine Or.inr ⟨u, hu, ?_⟩
        show u ∈ colUids ((selectedAbs eng srcAbs).foldl (processAddressbook eng cb ci)
          ((selectedCals eng srcCals).foldl (processCalendar eng cb ci)
            (EngineState.init d0))).dest.calendars
          (dictGet eng.calendar_mapping (calName c))
        rw [a2]
        exact hm)
  obtain ⟨q1, q2, q3⟩ := abFold_run2 eng cb ci hdry (selectedAbs eng srcAbs)
    ((selectedCals eng srcCals).foldl (processCalendar eng cb ci)
      (EngineState.init ((selectedAbs eng srcAbs).foldl (processAddressbook eng cb ci)
        ((selectedCals eng srcCals).foldl (processCalendar eng cb ci)
          (EngineState.init d0))).dest))
    (fun a ha => hsrcA a (mem_selectedAbs eng srcAbs a ha))
    (fun a ha => by
      rw [r3]
      show destFound ((selectedAbs eng srcAbs).foldl (processAddressbook eng cb ci)
        ((selectedCals eng srcCals).foldl (processCalendar eng cb ci)
          (EngineState.init d0))).dest.addressbooks
        (dictGet eng.addressbook_mapping (abName a)) = true
      rw [destFound_shapes _ d0.addressbooks hd1ab]
      exact hdfA a (mem_selectedAbs eng srcAbs a ha))
    (fun a ha c hc => by
      obtain ⟨u, hu, hm⟩ := a4 a ha c hc
      refine ⟨u, hu, ?_⟩
      rw [r3]
      show u ∈ colUids ((selectedAbs eng srcAbs).foldl (processAddressbook eng cb ci)
        ((selectedCals eng srcCals).foldl (processCalendar eng cb ci)
          (EngineState.init d0))).dest.addressbooks
        (dictGet eng.addressbook_mapping (abName a))
      exact hm)
  have hsec : secondRun eng cb srcCals srcAbs ci d0 =
      ((selectedAbs eng srcAbs).foldl (processAddressbook eng cb ci)
        ((selectedCals eng srcCals).foldl (processCalendar eng cb ci)
          (EngineState.init ((selectedAbs eng srcAbs).foldl (processAddressbook eng cb ci)
            ((selectedCals eng srcCals).foldl (processCalendar eng cb ci)
              (EngineState.init d0))).dest)), false) := by
    unfold secondRun
    rw [hr1]
    dsimp only
    exact hr2
  refine ⟨?_, ?_, ?_, ?_, ?_, ?_, ?_, ?_, ?_,
    fun items it h => existingUids_noUid items it h⟩
  · rw [hsec]
  · rw [hsec]
    dsimp only
    rw [q1]
    show ((selectedCals eng srcCals).foldl (processCalendar eng cb ci)
      (EngineState.init ((selectedAbs eng srcAbs).foldl (processAddressbook eng cb ci)
        ((selectedCals eng srcCals).foldl (processCalendar eng cb ci)
          (EngineState.init d0))).dest)).stats.events_migrated = 0
    rw [r1]
    rfl
  · rw [hsec]
    dsimp only
    rw [q1]
    show ((selectedCals eng srcCals).foldl (processCalendar eng cb ci)
      (EngineState.init ((selectedAbs eng srcAbs).foldl (processAddressbook eng cb ci)
        ((selectedCals eng srcCals).foldl (processCalendar eng cb ci)
          (EngineState.init d0))).dest)).stats.events_failed = 0
    rw [r1]
    rfl
  · rw [hsec]
    dsimp only
    rw [q1]
    show ((selectedCals eng srcCals).foldl (processCalendar eng cb ci)
      (EngineState.init ((selectedAbs eng srcAbs).foldl (processAddressbook eng cb ci)
        ((selectedCals eng srcCals).foldl (processCalendar eng cb ci)
          (EngineState.init d0))).dest)).stats.contacts_migrated = 0
    rw [r1]
    rfl
  · rw [hsec]
    dsimp only
    rw [q1]
    show ((selectedCals eng srcCals).foldl (processCalendar eng cb ci)
      (EngineState.init ((selectedAbs eng srcAbs).foldl (processAddressbook eng cb ci)
        ((selectedCals eng srcCals).foldl (processCalendar eng cb ci)
          (EngineState.init d0))).dest)).stats.contacts_failed = 0
    rw [r1]
    rfl
  · rw [hsec]
    dsimp only
    rw [q2, r2]
    rfl
  · rw [hsec, hr1]
    dsimp only
    rw [q3, r3]
    rfl
  · rw [hsec]
    dsimp only
    rw [q1]
    show ((selectedCals eng srcCals).foldl (processCalendar eng cb ci)
        (EngineState.init ((selectedAbs eng srcAbs).foldl (processAddressbook eng cb ci)
          ((selectedCals eng srcCals).foldl (processCalendar eng cb ci)
            (EngineState.init d0))).dest)).stats.events_skipped =
      ((selectedCals eng srcCals).map (fun x : Collection => x.items.length)).sum
    rw [r1]
    show 0 + ((selectedCals eng srcCals).map (fun x : Collection => x.items.length)).sum =
      ((selectedCals eng srcCals).map (fun x : Collection => x.items.length)).sum
    rw [Nat.zero_add]
  · rw [hsec]
    dsimp only
    rw [q1]
    show ((selectedCals eng srcCals).foldl (processCalendar eng cb ci)
        (EngineState.init ((selectedAbs eng srcAbs).foldl (processAddressbook eng cb ci)
          ((selectedCals eng srcCals).foldl (processCalendar eng cb ci)
            (EngineState.init d0))).dest)).stats.contacts_skipped +
        ((selectedAbs eng srcAbs).map (fun x : Collection => x.items.length)).sum =
      ((selectedAbs eng srcAbs).map (fun x : Collection => x.items.length)).sum
    rw [r1]
    show 0 + ((selectedAbs eng srcAbs).map (fun x : Collection => x.items.length)).sum =
      ((selectedAbs eng srcAbs).map (fun x : Collection => x.items.length)).sum
    rw [Nat.zero_add]

theorem C5_idempotence_witness :
    let eng : MigrationEngine :=
      { dry_run := false, skip_dummy_events := true,
        selected_calendars := none, selected_addressbooks := none,
        calendar_mapping := [], addressbook_mapping := [], uuid4 := "u-0" }
    let ev : Item :=
      { data := "VEVENT", uid := some "e1", summary := some "Standup",
        uidAttr := none, dataUid := none, fetchFails := false,
        saveFails := false }
    let ct : Item :=
      { data := "VCARD", uid := some "c1", summary := none,
        uidAttr := some "c1", dataUid := some "c1", fetchFails := false,
        saveFails := false }
    let srcCal : Collection :=
      { displayname := some "Work", url := "https://src/cal/", items := [ev],
        itemsFail := false, propsFail := false }
    let srcAb : Collection :=
      { displayname := some "People", url := "https://src/ab/", items := [ct],
        itemsFail := false, propsFail := false }
    let dstCal : Collection :=
      { displayname := some "Work", url := "https://dst/cal/", items := [],
        itemsFail := false, propsFail := false }
    let dstAb : Collection :=
      { displayname := some "People", url := "https://dst/ab/", items := [],
        itemsFail := false, propsFail := false }
    let dest : DestServer :=
      { calendars := [dstCal], addressbooks := [dstAb], createCalOk := true,
        newCalUrl := fun n => "https://dst/" ++ n, server_type := none }
    (secondRun eng none [srcCal] [srcAb] true dest).2 = false ∧
    (secondRun eng none [srcCal] [srcAb] true dest).1.stats.events_migrated = 0 ∧
    (secondRun eng none [srcCal] [srcAb] true dest).1.stats.events_failed = 0 ∧
    (secondRun eng none [srcCal] [srcAb] true dest).1.stats.contacts_migrated = 0 ∧
    (secondRun eng none [srcCal] [srcAb] true dest).1.stats.contacts_failed = 0 ∧
    (secondRun eng none [srcCal] [srcAb] true dest).1.writes = [] ∧
    (secondRun eng none [srcCal] [srcAb] true dest).1.dest =
      (runBothPhases eng none [srcCal] [srcAb] true dest).1.dest ∧
    (secondRun eng none [srcCal] [srcAb] true dest).1.stats.events_skipped =
      ((selectedCals eng [srcCal]).map (fun x : Collection => x.items.length)).sum ∧
    (secondRun eng none [srcCal] [srcAb] true dest).1.stats.contacts_skipped =
      ((selectedAbs eng [srcAb]).map (fun x : Collection => x.items.length)).sum ∧
    ∀ (items : List Item) (it : Item), it.uid = none ∨ it.fetchFails = true →
      existingUids (items ++ [it]) = existingUids items := by
  intro eng ev ct srcCal srcAb dstCal dstAb dest
  exact C5_idempotence eng none [srcCal] [srcAb] true dest rfl
    (by decide) (by decide) (by decide) (by decide) (by decide) (by decide)
    (by decide) (by decide)

end TuxMailMigrate
